import Mathlib

/-!
# GenericGA: a shallow embedding of the breeding engine

Source files embedded here: `src/header/shared.h` (`Wrapper<T>`),
`src/header/chromo.hpp` (`Chromosome<T1,T2>`) and `src/header/ga.hpp`
(`GeneticAlgorithm<SDType,LDType,CType>`).

Modelling conventions.

* Objects created by `new` live in an object store (`Heap`), addressed by their
  position; a `Wrapper<T>` is its `Object` pointer, `none` for `NULL`.  Copying a
  wrapper copies the pointer, exactly as `Wrapper::operator=(const Wrapper&)` does.
* `uint32_t` values are natural numbers.  Every operation below is used with
  `2 * Elite ≤ Population`, where no subtraction wraps around.
* `double` values are exact rationals.  The one place where the code can leave the
  finite numbers, the division by the total weight in `WeightedSelection`, is
  modelled with the IEEE 754 results of a division by zero (`Dbl`).
* `RandomDouble()` reads the next value of a stream `rnd : Nat → ℚ`; the engine
  state counts the draws made so far.
* The virtual methods `Fitness`, `Mutation` and `Crossover` of the chromosome type
  are parameters (`Operators`).
* Undefined behaviour (an index outside the slot array, a `NULL` or dangling
  pointer dereferenced, `% 0`) is the result `none`.
-/

namespace GenericGA

/-! ## Doubles -/

/-- Result of a `double` division: a finite value, an infinity, or not-a-number. -/
inductive Dbl where
  | fin (q : ℚ)
  | pinf
  | ninf
  | nan
deriving DecidableEq

/-- The quotient `a / b` of two finite doubles: `0/0` is NaN and `a/0` is an infinity
with the sign of `a`. -/
def Dbl.div (a b : ℚ) : Dbl :=
  if b = 0 then (if a = 0 then Dbl.nan else if 0 < a then Dbl.pinf else Dbl.ninf)
  else Dbl.fin (a / b)

/-- The comparison `random < d`; every comparison with NaN is false. -/
def Dbl.exceeds (d : Dbl) (random : ℚ) : Bool :=
  match d with
  | Dbl.fin q => decide (random < q)
  | Dbl.pinf => true
  | Dbl.ninf => false
  | Dbl.nan => false

/-! ## Data model (`ga.hpp` 21-32, `chromo.hpp` 36-102) -/

/-- The population-wide parameters, `struct BasicSharedData`. -/
structure BasicSharedData where
  Elite : Nat
  MutationRate : ℚ
  ParentRate : ℚ
deriving DecidableEq

/-- The per-individual data, `struct BasicLocalData`, with the payload `gene` that a
derived local-data type adds. -/
structure BasicLocalData (G : Type) where
  Chosen : Bool
  Elite : Bool
  gene : G
deriving DecidableEq

/-- An object of class `Chromosome<T1,T2>`: the pointer to the shared data (`none` is
`NULL`), the local data and the public `FitnessValue`. -/
structure Chromosome (G : Type) where
  SharedData : Option Nat
  LocalData : BasicLocalData G
  FitnessValue : ℚ
deriving DecidableEq

/-- The default constructor `Chromosome()`: `SharedData(NULL), FitnessValue(0.0)`, local
data default-constructed. -/
def Chromosome.new {G : Type} (g : G) : Chromosome G :=
  { SharedData := none, LocalData := { Chosen := false, Elite := false, gene := g },
    FitnessValue := 0 }

/-- Method `Chromosome::Initialize(T1 * Shared, T2 Local)`: two assignments. -/
def Chromosome.Initialize {G : Type} (c : Chromosome G) (Shared : Option Nat)
    (Local : BasicLocalData G) : Chromosome G :=
  { c with SharedData := Shared, LocalData := Local }

/-- Comparison `Chromosome::operator<`: by fitness value. -/
def Chromosome.lt {G : Type} (a b : Chromosome G) : Bool :=
  decide (a.FitnessValue < b.FitnessValue)

/-- Comparison `Chromosome::operator==`: by local data. -/
def Chromosome.eq {G : Type} [DecidableEq G] (a b : Chromosome G) : Bool :=
  decide (a.LocalData = b.LocalData)

/-- Comparison `Chromosome::operator!=`: by local data. -/
def Chromosome.ne {G : Type} [DecidableEq G] (a b : Chromosome G) : Bool :=
  decide (a.LocalData ≠ b.LocalData)

/-- The virtual methods of the chromosome type.  `Fitness` gives the value stored in
`FitnessValue`; `Mutation` gives the object after the call; `Crossover self p c1 c2`
gives the two children after the call, computed from the four objects as they are when
the call starts. -/
structure Operators (G : Type) where
  Fitness : Chromosome G → ℚ
  Mutation : Chromosome G → Chromosome G
  Crossover : Chromosome G → Chromosome G → Chromosome G → Chromosome G →
    Chromosome G × Chromosome G

/-! ## The ownership wrapper (`shared.h` 36-64) -/

/-- Comparison `Wrapper::operator<`: `Object != NULL ? (*Object) < (*w.Object) : false`.
The result is `none` when a pointer that is dereferenced is `NULL` or dangling. -/
def Wrapper.lt {G : Type} (heap : List (Chromosome G)) (a b : Option Nat) : Option Bool :=
  match a with
  | none => some false
  | some i => do
    let ca ← heap[i]?
    let j ← b
    let cb ← heap[j]?
    some (ca.lt cb)

/-- Comparison `Wrapper::operator==`: `Object != NULL ? (*Object) == (*w.Object) : false`. -/
def Wrapper.eq {G : Type} [DecidableEq G] (heap : List (Chromosome G)) (a b : Option Nat) :
    Option Bool :=
  match a with
  | none => some false
  | some i => do
    let ca ← heap[i]?
    let j ← b
    let cb ← heap[j]?
    some (ca.eq cb)

/-- Comparison `Wrapper::operator!=`: `Object != NULL ? (*Object) != (*w.Object) : true`. -/
def Wrapper.ne {G : Type} [DecidableEq G] (heap : List (Chromosome G)) (a b : Option Nat) :
    Option Bool :=
  match a with
  | none => some true
  | some i => do
    let ca ← heap[i]?
    let j ← b
    let cb ← heap[j]?
    some (ca.ne cb)

/-! ## The engine state (`ga.hpp` 42-76) -/

/-- A closure stored in `OperationsQueue`: `std::bind` of `Mutation` or `Crossover` to the
object pointers read from the slots when the closure was made. -/
inductive Operation where
  | Mutation (self : Option Nat)
  | Crossover (self p c1 c2 : Option Nat)
deriving DecidableEq

/-- The state of a `GeneticAlgorithm` object, together with the object store, the log of
`delete` calls and the number of `RandomDouble()` calls made so far. -/
structure GeneticAlgorithm (G : Type) where
  Population : Nat
  Generation : Nat
  StoredGenerations : Nat
  Chromosomes : List (Option Nat)
  Heap : List (Chromosome G)
  Deleted : List Nat
  SharedData : BasicSharedData
  OperationsQueue : List Operation
  Draws : Nat
deriving DecidableEq

namespace GeneticAlgorithm

variable {G : Type}

/-- The address of the engine's one `SharedDataType` object. -/
def sharedPtr : Option Nat := some 0

/-- The constructor `GeneticAlgorithm(pop, store)`: `store * pop` empty wrappers and a
default-constructed shared configuration. -/
def new (pop : Nat) (store : Nat) : GeneticAlgorithm G :=
  { Population := pop, Generation := 0, StoredGenerations := store,
    Chromosomes := List.replicate (store * pop) none, Heap := [], Deleted := [],
    SharedData := { Elite := 0, MutationRate := 0, ParentRate := 0 },
    OperationsQueue := [], Draws := 0 }

/-- Offset of the current window: `Generation % StoredGenerations * Population`. -/
def origin (s : GeneticAlgorithm G) : Nat :=
  s.Generation % s.StoredGenerations * s.Population

/-- Offset of the next window: `(Generation + 1) % StoredGenerations * Population`. -/
def nextOrigin (s : GeneticAlgorithm G) : Nat :=
  (s.Generation + 1) % s.StoredGenerations * s.Population

/-- The view returned by `GetChromosomes()`: the `Population` slots from `origin` on. -/
def GetChromosomes (s : GeneticAlgorithm G) : List (Option Nat) :=
  (s.Chromosomes.drop s.origin).take s.Population

/-- Accessor `GetSharedData()`. -/
def GetSharedData (s : GeneticAlgorithm G) : BasicSharedData := s.SharedData

/-- The object a slot expression `Chromosomes[k]->` refers to: its address and value. -/
def deref (s : GeneticAlgorithm G) (k : Nat) : Option (Nat × Chromosome G) := do
  let w ← s.Chromosomes[k]?
  let o ← w
  let c ← s.Heap[o]?
  some (o, c)

/-- Assignment `Chromosomes[k] = w` between wrappers: the pointer is copied. -/
def setSlot (s : GeneticAlgorithm G) (k : Nat) (w : Option Nat) : Option (GeneticAlgorithm G) :=
  if k < s.Chromosomes.length then some { s with Chromosomes := s.Chromosomes.set k w }
  else none

/-- A store through an object pointer. -/
def setObject (s : GeneticAlgorithm G) (o : Nat) (c : Chromosome G) : GeneticAlgorithm G :=
  { s with Heap := s.Heap.set o c }

/-- Call `OperationsQueue.push(op)`. -/
def push (s : GeneticAlgorithm G) (op : Operation) : GeneticAlgorithm G :=
  { s with OperationsQueue := s.OperationsQueue ++ [op] }

/-- Call `RandomDouble()`: the next value of the stream. -/
def RandomDouble (rnd : Nat → ℚ) (s : GeneticAlgorithm G) : ℚ × GeneticAlgorithm G :=
  (rnd s.Draws, { s with Draws := s.Draws + 1 })

/-! ## Roulette selection (`ga.hpp` 126-152) -/

/-- The value stored in `fitness_sum[i]` by the first loop, for the slot `k = origin + i`:
`Elite || Chosen ? FitnessValue : 0.0`. -/
def weight (s : GeneticAlgorithm G) (k : Nat) : Option ℚ := do
  let oc ← s.deref k
  some (if oc.2.LocalData.Elite || oc.2.LocalData.Chosen then oc.2.FitnessValue else 0)

/-- The array `fitness_sum` after the first loop: the weights of `n` slots from `k` on. -/
def weights (s : GeneticAlgorithm G) : Nat → Nat → Option (List ℚ)
  | 0, _ => some []
  | n + 1, k => do
    let w ← s.weight k
    let ws ← weights s n (k + 1)
    some (w :: ws)

/-- The second loop, `fitness_sum[i] += fitness_sum[i - 1]`: running sums. -/
def runningSum : ℚ → List ℚ → List ℚ
  | _, [] => []
  | acc, w :: ws => (acc + w) :: runningSum (acc + w) ws

/-- The third loop, `fitness_sum[i] /= fitness_sum[Population - 1]`: every entry is
divided by the last one, the last one by itself at the very end. -/
def normalise (cum : List ℚ) : List Dbl :=
  cum.map fun x => Dbl.div x (cum.getLastD 0)

/-- The array `fitness_sum` when the draw is made. -/
def fitnessSum (s : GeneticAlgorithm G) : Option (List Dbl) :=
  (s.weights s.Population s.origin).map fun ws => normalise (runningSum 0 ws)

/-- The scan `for (i = ..; i < Population; i++) if (random < fitness_sum[i])`: the first
loop index at which the test succeeds; the list holds `fitness_sum[i..]`. -/
def scan (random : ℚ) : List Dbl → Nat → Option Nat
  | [], _ => none
  | d :: ds, i => if d.exceeds random then some i else scan random ds (i + 1)

/-- Method `WeightedSelection()`.  The result is the slot returned (`none` for `NULL`)
and the state after the call. -/
def WeightedSelection (rnd : Nat → ℚ) (s : GeneticAlgorithm G) :
    Option (Option Nat × GeneticAlgorithm G) :=
  if s.StoredGenerations = 0 then none else do
    let fitness_sum ← s.fitnessSum
    let rs := s.RandomDouble rnd
    match scan rs.1 fitness_sum.tail 1 with
    | none => some (none, rs.2)
    | some i => do
      let oc ← rs.2.deref (s.origin + i - 1)
      some (some (s.origin + i - 1),
        rs.2.setObject oc.1
          { oc.2 with LocalData := { oc.2.LocalData with Chosen := true } })

/-! ## The deferred operations (`ga.hpp` 104-109) -/

/-- Running one closure of the queue. -/
def execute (ops : Operators G) (s : GeneticAlgorithm G) : Operation → Option (GeneticAlgorithm G)
  | Operation.Mutation self => do
    let o ← self
    let c ← s.Heap[o]?
    some (s.setObject o (ops.Mutation c))
  | Operation.Crossover self p c1 c2 => do
    let o ← self
    let c ← s.Heap[o]?
    let po ← p
    let pc ← s.Heap[po]?
    let o1 ← c1
    let k1 ← s.Heap[o1]?
    let o2 ← c2
    let k2 ← s.Heap[o2]?
    let r := ops.Crossover c pc k1 k2
    some ((s.setObject o1 r.1).setObject o2 r.2)

/-- The loop of `ProcessQueue()` over the queue content `q`: run the front, pop it. -/
def runQueue (ops : Operators G) : List Operation → GeneticAlgorithm G → Option (GeneticAlgorithm G)
  | [], s => some s
  | op :: rest, s =>
    (execute ops s op).bind fun s1 => runQueue ops rest { s1 with OperationsQueue := rest }

/-- Method `ProcessQueue()`. -/
def ProcessQueue (ops : Operators G) (s : GeneticAlgorithm G) : Option (GeneticAlgorithm G) :=
  runQueue ops s.OperationsQueue s

/-! ## Sorting a window (`std::sort` with `Wrapper::operator<`) -/

/-- A slot that `operator<` can dereference on either side. -/
def validSlot (heap : List (Chromosome G)) (w : Option Nat) : Bool :=
  match w with
  | none => false
  | some o => decide (o < heap.length)

/-- The order `std::sort` establishes: `a` may stand before `b` when `b < a` is false. -/
def notAfter (heap : List (Chromosome G)) (a b : Option Nat) : Prop :=
  Wrapper.lt heap b a ≠ some true

instance (heap : List (Chromosome G)) : DecidableRel (notAfter heap) :=
  fun a b => by unfold notAfter; exact inferInstance

/-- Call `std::sort(first, last)` on a range of slots: a sort by `operator<`.  The
standard leaves the order of equivalent elements open; an insertion sort fixes one. -/
def stdSort (heap : List (Chromosome G)) (l : List (Option Nat)) : Option (List (Option Nat)) :=
  if l.all (validSlot heap) then some (l.insertionSort (notAfter heap)) else none

/-- Call `std::sort(Chromosomes + first, Chromosomes + first + Population)`. -/
def sortRange (s : GeneticAlgorithm G) (first : Nat) : Option (GeneticAlgorithm G) :=
  if first + s.Population ≤ s.Chromosomes.length then
    (stdSort s.Heap ((s.Chromosomes.drop first).take s.Population)).map fun w =>
      { s with Chromosomes :=
          s.Chromosomes.take first ++ w ++ s.Chromosomes.drop (first + s.Population) }
  else none

/-! ## One breeding cycle (`ga.hpp` 176-242) -/

/-- One pass of the first loop of `BreedPopulation` at slot `k`: the two flags are reset,
then the increment expression calls `Fitness()` on the same object. -/
def refreshOne (ops : Operators G) (s : GeneticAlgorithm G) (k : Nat) :
    Option (GeneticAlgorithm G) := do
  let oc ← s.deref k
  let c : Chromosome G :=
    { oc.2 with LocalData := { oc.2.LocalData with Chosen := false, Elite := false } }
  some (s.setObject oc.1 { c with FitnessValue := ops.Fitness c })

/-- The first loop of `BreedPopulation`, `n` passes from slot `k` on. -/
def refreshLoop (ops : Operators G) : Nat → Nat → GeneticAlgorithm G → Option (GeneticAlgorithm G)
  | 0, _, s => some s
  | n + 1, k, s => (refreshOne ops s k).bind (refreshLoop ops n (k + 1))

/-- The statement `Chromosomes[k]->GetLocalData()->Elite = true`. -/
def setElite (s : GeneticAlgorithm G) (k : Nat) : Option (GeneticAlgorithm G) := do
  let oc ← s.deref k
  some (s.setObject oc.1 { oc.2 with LocalData := { oc.2.LocalData with Elite := true } })

/-- The slot indices used by pass `i` of the elitism loop. -/
structure EliteIndices where
  source1 : Nat
  source2 : Nat
  target1 : Nat
  target2 : Nat
  child1 : Nat
  child2 : Nat
deriving DecidableEq

/-- The index expressions of the elitism loop, with `E = SharedData->Elite`. -/
def eliteIndices (final nextOrigin E i : Nat) : EliteIndices :=
  { source1 := final - E + i,
    source2 := final - E + i + 1,
    target1 := nextOrigin + 2 * i,
    target2 := nextOrigin + 2 * i + 1,
    child1 := nextOrigin + 2 * i + 2,
    child2 := nextOrigin + 2 * i + 3 }

/-- The body of the elitism loop for the loop index `i`. -/
def eliteBody (final nextOrigin i : Nat) (s : GeneticAlgorithm G) :
    Option (GeneticAlgorithm G) := do
  let ix := eliteIndices final nextOrigin s.SharedData.Elite i
  let a ← s.Chromosomes[ix.source1]?
  let s1 ← s.setSlot ix.target1 a
  let b ← s1.Chromosomes[ix.source2]?
  let s2 ← s1.setSlot ix.target2 b
  let s3 ← s2.setElite ix.target1
  let s4 ← s3.setElite ix.target2
  let p1 ← s4.Chromosomes[ix.target1]?
  let p2 ← s4.Chromosomes[ix.target2]?
  let c1 ← s4.Chromosomes[ix.child1]?
  let c2 ← s4.Chromosomes[ix.child2]?
  some (s4.push (Operation.Crossover p1 p2 c1 c2))

/-- The elitism loop `for (i = ..; i < SharedData->Elite; i += 2)` from the index `i` on;
`fuel` bounds the number of passes. -/
def eliteLoop (final nextOrigin : Nat) : Nat → Nat → GeneticAlgorithm G → Option (GeneticAlgorithm G)
  | 0, _, s => some s
  | fuel + 1, i, s =>
    if i < s.SharedData.Elite then
      (eliteBody final nextOrigin i s).bind (eliteLoop final nextOrigin fuel (i + 2))
    else some s

/-- The statement `if (RandomDouble() < MutationRate) push(bind(Mutation, Chromosomes[k].Object))`. -/
def maybeMutation (rnd : Nat → ℚ) (s : GeneticAlgorithm G) (k : Nat) :
    Option (GeneticAlgorithm G) :=
  let rs := s.RandomDouble rnd
  if rs.1 < rs.2.SharedData.MutationRate then
    (rs.2.Chromosomes[k]?).map fun m => rs.2.push (Operation.Mutation m)
  else some rs.2

/-- The local variables of the fill loop: the loop index `i`, the write cursor
`nextOrigin`, and `parent`, a pointer to a slot (`none` for `NULL`). -/
structure FillVars where
  i : Nat
  nextOrigin : Nat
  parent : Option Nat
deriving DecidableEq

/-- One pass of the fill loop, the `i++` of the loop header included. -/
def fillBody (rnd : Nat → ℚ) (v : FillVars) (s : GeneticAlgorithm G) :
    Option (FillVars × GeneticAlgorithm G) := do
  let sel ← s.WeightedSelection rnd
  match sel.1 with
  | none => some ({ v with i := v.i + 1 }, sel.2)
  | some chosen => do
    let w ← sel.2.Chromosomes[chosen]?
    let s1 ← sel.2.setSlot v.nextOrigin w
    let s2 ← maybeMutation rnd s1 v.nextOrigin
    let rs := s2.RandomDouble rnd
    if rs.1 < rs.2.SharedData.ParentRate ∧
        v.i + 2 < rs.2.Population - 2 * rs.2.SharedData.Elite then
      match v.parent with
      | some parent => do
        let p1 ← rs.2.Chromosomes[parent]?
        let p2 ← rs.2.Chromosomes[chosen]?
        let c1 ← rs.2.Chromosomes[v.nextOrigin + 1]?
        let c2 ← rs.2.Chromosomes[v.nextOrigin + 2]?
        let s3 := rs.2.push (Operation.Crossover p1 p2 c1 c2)
        let s4 ← maybeMutation rnd s3 (v.nextOrigin + 1)
        let s5 ← maybeMutation rnd s4 (v.nextOrigin + 2)
        some ({ i := v.i + 3, nextOrigin := v.nextOrigin + 3, parent := none }, s5)
      | none =>
        some ({ i := v.i + 1, nextOrigin := v.nextOrigin + 1, parent := some chosen }, rs.2)
    else some ({ v with i := v.i + 1, nextOrigin := v.nextOrigin + 1 }, rs.2)

/-- The fill loop `for (i = ..; i < Population - 2 * SharedData->Elite; i++)`; `fuel`
bounds the number of passes. -/
def fillLoop (rnd : Nat → ℚ) : Nat → FillVars → GeneticAlgorithm G →
    Option (FillVars × GeneticAlgorithm G)
  | 0, v, s => some (v, s)
  | fuel + 1, v, s =>
    if v.i < s.Population - 2 * s.SharedData.Elite then
      (fillBody rnd v s).bind fun vs => fillLoop rnd fuel vs.1 vs.2
    else some (v, s)

/-- First phase of `BreedPopulation`: fitness refresh, flag reset and sort of the
current window. -/
def refreshPhase (ops : Operators G) (s : GeneticAlgorithm G) : Option (GeneticAlgorithm G) :=
  (refreshLoop ops s.Population s.origin s).bind fun s1 => s1.sortRange s.origin

/-- Second phase of `BreedPopulation`: the elitism loop. -/
def elitePhase (s : GeneticAlgorithm G) : Option (GeneticAlgorithm G) :=
  eliteLoop (s.origin + s.Population) s.nextOrigin s.SharedData.Elite 0 s

/-- Third phase of `BreedPopulation`: the fill loop, started at the cursor
`nextOrigin + 2 * Elite`. -/
def fillPhase (rnd : Nat → ℚ) (s : GeneticAlgorithm G) : Option (FillVars × GeneticAlgorithm G) :=
  fillLoop rnd (s.Population - 2 * s.SharedData.Elite)
    { i := 0, nextOrigin := s.nextOrigin + 2 * s.SharedData.Elite, parent := none } s

/-- Everything `BreedPopulation` does before it drains the queue.  The locals `origin`,
`final` and `nextOrigin` are read by each phase from the state it starts in; no phase
changes `Generation`, `StoredGenerations` or `Population`, so they have the values computed
at the top of the method. -/
def breedEnqueue (ops : Operators G) (rnd : Nat → ℚ) (s : GeneticAlgorithm G) :
    Option (GeneticAlgorithm G) :=
  if s.StoredGenerations = 0 then none
  else ((refreshPhase ops s).bind elitePhase).bind fun s2 => (fillPhase rnd s2).map Prod.snd

/-- Method `BreedPopulation()`. -/
def BreedPopulation (ops : Operators G) (rnd : Nat → ℚ) (s : GeneticAlgorithm G) :
    Option (GeneticAlgorithm G) :=
  (breedEnqueue ops rnd s).bind (ProcessQueue ops)

/-! ## Simulation and initialisation (`ga.hpp` 78-102, 249-256) -/

/-- The loop of `Simulate`: `N` calls of `BreedPopulation`. -/
def breedTimes (ops : Operators G) (rnd : Nat → ℚ) : Nat → GeneticAlgorithm G →
    Option (GeneticAlgorithm G)
  | 0, s => some s
  | n + 1, s => (BreedPopulation ops rnd s).bind (breedTimes ops rnd n)

/-- Method `Simulate(N)`: the loop, then the sort of the current window. -/
def Simulate (ops : Operators G) (rnd : Nat → ℚ) (N : Nat) (s : GeneticAlgorithm G) :
    Option (GeneticAlgorithm G) :=
  (breedTimes ops rnd N s).bind fun s1 =>
    if s1.StoredGenerations = 0 then none else s1.sortRange s1.origin

/-- The two statements `Chromosomes[k] = new ChromosomeType;` and
`Chromosomes[k]->Initialize(SharedData, Local);`.  The assignment from a raw pointer
deletes the object the slot held. -/
def initSlot [Inhabited G] (s : GeneticAlgorithm G) (k : Nat) (Local : BasicLocalData G) :
    Option (GeneticAlgorithm G) := do
  let old ← s.Chromosomes[k]?
  let deleted ← match old with
    | none => some s.Deleted
    | some o => if o ∈ s.Deleted ∨ s.Heap.length ≤ o then none else some (s.Deleted ++ [o])
  some { s with
    Chromosomes := s.Chromosomes.set k (some s.Heap.length),
    Heap := s.Heap ++ [(Chromosome.new default).Initialize sharedPtr Local],
    Deleted := deleted }

/-- The loop of `Initialize`: `n` slots from `k` on, the local data of slot `k` being
`Local k`. -/
def initLoop [Inhabited G] (Local : Nat → BasicLocalData G) :
    Nat → Nat → GeneticAlgorithm G → Option (GeneticAlgorithm G)
  | 0, _, s => some s
  | n + 1, k, s => (initSlot s k (Local k)).bind (initLoop Local n (k + 1))

/-- Method `Initialize(std::function<LocalDataType(void)> & Local)`; `Local k` is the
value the `k`-th call of the factory returns. -/
def InitializeWith [Inhabited G] (Local : Nat → BasicLocalData G) (s : GeneticAlgorithm G) :
    Option (GeneticAlgorithm G) :=
  initLoop Local (s.StoredGenerations * s.Population) 0 { s with Generation := 0 }

/-- Method `Initialize(LocalDataType & Local)`. -/
def Initialize [Inhabited G] (Local : BasicLocalData G) (s : GeneticAlgorithm G) :
    Option (GeneticAlgorithm G) :=
  initLoop (fun _ => Local) (s.StoredGenerations * s.Population) 0 { s with Generation := 0 }

/-- Method `Initialize(uint32_t i, LocalDataType & Local)`. -/
def InitializeAt (i : Nat) (Local : BasicLocalData G) (s : GeneticAlgorithm G) :
    Option (GeneticAlgorithm G) :=
  if i ≥ s.Population then some s
  else if s.StoredGenerations = 0 then none
  else do
    let oc ← s.deref (s.origin + i)
    some (s.setObject oc.1 (oc.2.Initialize sharedPtr Local))

end GeneticAlgorithm

/-! ## Concrete engines used as inputs -/

/-- Operators of a test chromosome over a rational gene: the fitness is the gene,
a mutation adds one to the gene, and `Crossover` is the inherited empty method. -/
def geneOps : Operators ℚ :=
  { Fitness := fun c => c.LocalData.gene,
    Mutation := fun c => { c with LocalData := { c.LocalData with gene := c.LocalData.gene + 1 } },
    Crossover := fun _ _ c1 c2 => (c1, c2) }

/-- An individual with the given flags, gene and stored fitness value. -/
def individual (chosen elite : Bool) (gene fitness : ℚ) : Chromosome ℚ :=
  { SharedData := GeneticAlgorithm.sharedPtr,
    LocalData := { Chosen := chosen, Elite := elite, gene := gene },
    FitnessValue := fitness }

/-- An engine with `store` windows of `pop` slots in which slot `k` owns object `k`. -/
def engineOf (pop store elite : Nat) (mutationRate parentRate : ℚ)
    (objects : List (Chromosome ℚ)) : GeneticAlgorithm ℚ :=
  { Population := pop, Generation := 0, StoredGenerations := store,
    Chromosomes := (List.range (store * pop)).map some,
    Heap := objects, Deleted := [],
    SharedData := { Elite := elite, MutationRate := mutationRate, ParentRate := parentRate },
    OperationsQueue := [], Draws := 0 }

/-- A chromosome whose stored fitness value is 5. -/
def ratedChromosome : Chromosome ℚ := individual false false 3 5

/-- A window of three individuals with fitness values 1, 2, 3, the second already
marked `Chosen` and the third marked `Elite`; the next window holds three more. -/
def flaggedEngine : GeneticAlgorithm ℚ :=
  engineOf 3 2 0 0 0
    [individual false false 1 1, individual true false 2 2, individual false true 3 3,
     individual false false 0 0, individual false false 0 0, individual false false 0 0]

/-- A window of three individuals, all marked `Chosen`, with fitness values 1, 1, 2. -/
def allChosenEngine : GeneticAlgorithm ℚ :=
  engineOf 3 2 0 0 0
    [individual true false 1 1, individual true false 1 1, individual true false 2 2,
     individual false false 0 0, individual false false 0 0, individual false false 0 0]

/-- An engine with six individuals per window, `Elite = 2` and `MutationRate = 1`. -/
def eliteMutationEngine : GeneticAlgorithm ℚ :=
  engineOf 6 2 2 1 0
    [individual false false 3 0, individual false false 1 0, individual false false 4 0,
     individual false false 2 0, individual false false 6 0, individual false false 5 0,
     individual false false 0 0, individual false false 0 0, individual false false 0 0,
     individual false false 0 0, individual false false 0 0, individual false false 0 0]

/-- An engine with two individuals per window and `Elite = 1`, so `2 * Elite ≤ Population`. -/
def oddEliteEngine : GeneticAlgorithm ℚ :=
  engineOf 2 2 1 0 0
    [individual false false 1 0, individual false false 2 0,
     individual false false 0 0, individual false false 0 0]

/-- The scenario population: four individuals with genes 3, 1, 4, 2 in the current
window, `Elite = 0`, `MutationRate = 0`, `ParentRate = 0`; the next window holds four
individuals with gene 0. -/
def scenarioEngine : GeneticAlgorithm ℚ :=
  engineOf 4 2 0 0 0
    [individual false false 3 0, individual false false 1 0, individual false false 4 0,
     individual false false 2 0,
     individual false false 0 0, individual false false 0 0, individual false false 0 0,
     individual false false 0 0]

/-- An engine with eight individuals per window, sorted by their fitness values 1 to 8,
and `Elite = 4`. -/
def fourEliteEngine : GeneticAlgorithm ℚ :=
  engineOf 8 2 4 0 0
    ((List.range 8).map (fun k => individual false false (k + 1) (k + 1)) ++
      (List.range 8).map (fun _ => individual false false 0 0))

/-- A window whose weights are 0, 1 and -1: the first individual is not flagged, the
other two are marked `Chosen` and have the fitness values 1 and -1. -/
def cancellingEngine : GeneticAlgorithm ℚ :=
  engineOf 3 2 0 0 0
    [individual false false 5 5, individual true false 1 1, individual true false (-1) (-1),
     individual false false 0 0, individual false false 0 0, individual false false 0 0]

namespace GeneticAlgorithm

variable {G : Type}

/-- The gene of the individual a slot holds. -/
def geneOf (s : GeneticAlgorithm G) (w : Option Nat) : Option G :=
  (w.bind fun o => s.Heap[o]?).map fun c => c.LocalData.gene

/-- The genes of the `Population` slots from `first` on. -/
def windowGenes (s : GeneticAlgorithm G) (first : Nat) : List (Option G) :=
  ((s.Chromosomes.drop first).take s.Population).map s.geneOf

/-- The stored fitness value of the individual a slot holds. -/
def fitnessOf (s : GeneticAlgorithm G) (w : Option Nat) : Option ℚ :=
  (w.bind fun o => s.Heap[o]?).map fun c => c.FitnessValue

/-- The stored fitness value a slot is ranked by: that of the object it holds. -/
def rank (heap : List (Chromosome G)) (w : Option Nat) : ℚ :=
  ((w.bind fun o => heap[o]?).map fun c => c.FitnessValue).getD 0

/-- The local data of the individual a slot holds. -/
def localDataOf (s : GeneticAlgorithm G) (w : Option Nat) : Option (BasicLocalData G) :=
  (w.bind fun o => s.Heap[o]?).map fun c => c.LocalData

end GeneticAlgorithm

/-- Object `c'` is object `c` except that its `Elite` flag may have been set. -/
def Chromosome.promoted {G : Type} (c c' : Chromosome G) : Prop :=
  c'.SharedData = c.SharedData ∧ c'.FitnessValue = c.FitnessValue ∧
  c'.LocalData.gene = c.LocalData.gene ∧ c'.LocalData.Chosen = c.LocalData.Chosen ∧
  (c.LocalData.Elite = true → c'.LocalData.Elite = true)

/-- The object store `h'` holds the objects of `h`, some of them with the `Elite` flag set. -/
def heapPromoted {G : Type} (h h' : List (Chromosome G)) : Prop :=
  h'.length = h.length ∧
    ∀ (o : Nat) (c : Chromosome G), h[o]? = some c → ∃ c', h'[o]? = some c' ∧ c.promoted c'

/-- The slot `k` holds a live object whose `Elite` flag is set. -/
def GeneticAlgorithm.eliteAt {G : Type} (s : GeneticAlgorithm G) (k : Nat) : Prop :=
  ∃ oc, s.deref k = some oc ∧ oc.2.LocalData.Elite = true

/-- A pointer to a live object of a store with `n` objects. -/
def livePtr (n : Nat) (w : Option Nat) : Prop :=
  ∃ o, w = some o ∧ o < n

/-- A queued closure all of whose bound pointers are live. -/
def Operation.live (n : Nat) : Operation → Prop
  | Operation.Mutation self => livePtr n self
  | Operation.Crossover self p c1 c2 => livePtr n self ∧ livePtr n p ∧ livePtr n c1 ∧ livePtr n c2

/-- The state of an initialised engine: at least one stored generation, an array of
`StoredGenerations * Population` slots each holding a live object, and only closures over
live objects on the queue. -/
def GeneticAlgorithm.wellFormed {G : Type} (s : GeneticAlgorithm G) : Prop :=
  s.StoredGenerations ≠ 0 ∧
  s.Chromosomes.length = s.StoredGenerations * s.Population ∧
  (∀ w ∈ s.Chromosomes, livePtr s.Heap.length w) ∧
  (∀ op ∈ s.OperationsQueue, op.live s.Heap.length)

/-- State `s'` is a well-formed state with the configuration and the sizes of `s`. -/
def GeneticAlgorithm.evolves {G : Type} (s s' : GeneticAlgorithm G) : Prop :=
  s'.wellFormed ∧ s'.Population = s.Population ∧ s'.Generation = s.Generation ∧
  s'.StoredGenerations = s.StoredGenerations ∧ s'.SharedData = s.SharedData ∧
  s'.Heap.length = s.Heap.length

/-- Assignment `Wrapper::operator=(T * w)`: the object the wrapper holds, if any, is
deleted, then the pointer is stored.  The result is the new `Object` and the log of
`delete` calls. -/
def Wrapper.assignPtr (Object w : Option Nat) (deleted : List Nat) : Option Nat × List Nat :=
  (w, match Object with
      | none => deleted
      | some o => deleted ++ [o])

/-- Assignment `Wrapper::operator=(const Wrapper<T> & w)`: the pointer is stored and
nothing is deleted. -/
def Wrapper.assign (_Object w : Option Nat) (deleted : List Nat) : Option Nat × List Nat :=
  (w, deleted)

/-- The state of the factory `f` after `k` calls, started in the state `st`. -/
def factoryAfter {F α : Type} (f : F → α × F) : Nat → F → F
  | 0, st => st
  | k + 1, st => factoryAfter f k (f st).2

/-- The value returned by call number `k` (counted from 0) of the factory `f` started in
the state `st`. -/
def factoryValue {F α : Type} (f : F → α × F) (st : F) (k : Nat) : α :=
  (f (factoryAfter f k st)).1

/-- The loop of `Initialize(std::function<LocalDataType(void)> & Local)` with the factory
as a state machine: each pass creates the object of slot `k` and initialises it with the
value of one call `Local()`. -/
def GeneticAlgorithm.initLoopFrom {F G : Type} [Inhabited G] (f : F → BasicLocalData G × F) :
    Nat → Nat → F → GeneticAlgorithm G → Option (F × GeneticAlgorithm G)
  | 0, _, st, s => some (st, s)
  | n + 1, k, st, s =>
    (s.initSlot k (f st).1).bind fun s1 => initLoopFrom f n (k + 1) (f st).2 s1

/-- Method `Initialize(std::function<LocalDataType(void)> & Local)` with the factory as a
state machine; the result holds the state of the factory after the call. -/
def GeneticAlgorithm.InitializeFrom {F G : Type} [Inhabited G] (f : F → BasicLocalData G × F)
    (st : F) (s : GeneticAlgorithm G) : Option (F × GeneticAlgorithm G) :=
  GeneticAlgorithm.initLoopFrom f (s.StoredGenerations * s.Population) 0 st
    { s with Generation := 0 }

/-- Every slot is empty or is the only slot that holds its object, and that object is
live and has not been deleted. -/
def GeneticAlgorithm.owning {G : Type} (s : GeneticAlgorithm G) : Prop :=
  ∀ (k o : Nat), s.Chromosomes[k]? = some (some o) →
    o < s.Heap.length ∧ o ∉ s.Deleted ∧ ∀ j, j ≠ k → s.Chromosomes[j]? ≠ some (some o)

/-- The object after one pass of the first loop of `BreedPopulation`: the two flags are
reset, then `Fitness()` stores its value. -/
def Chromosome.refreshed {G : Type} (ops : Operators G) (c : Chromosome G) : Chromosome G :=
  { ({ c with LocalData := { c.LocalData with Chosen := false, Elite := false } } :
      Chromosome G) with
    FitnessValue :=
      ops.Fitness { c with LocalData := { c.LocalData with Chosen := false, Elite := false } } }

/-- No individual of the current window is marked `Chosen` or `Elite`. -/
def GeneticAlgorithm.unflagged {G : Type} (s : GeneticAlgorithm G) : Prop :=
  ∀ (k : Nat) (oc : Nat × Chromosome G), s.origin ≤ k → k < s.origin + s.Population →
    s.deref k = some oc → oc.2.LocalData.Elite = false ∧ oc.2.LocalData.Chosen = false

/-- State `s'` has the generation counter and the window geometry of `s`. -/
def GeneticAlgorithm.sameWindows {G : Type} (s s' : GeneticAlgorithm G) : Prop :=
  s'.Generation = s.Generation ∧ s'.Population = s.Population ∧
  s'.StoredGenerations = s.StoredGenerations ∧ s'.SharedData = s.SharedData

/-! ## Theorems -/

open GeneticAlgorithm

/-- C10 (counterexample): `Chromosome::Initialize` does not reset the fitness value.  A
chromosome whose fitness value is 5 still has the fitness value 5, not 0, after
`Initialize`. -/
theorem C10_fitness_not_reset :
    (ratedChromosome.Initialize sharedPtr { Chosen := false, Elite := false, gene := 7 }).FitnessValue
      = 5 ∧
    (ratedChromosome.Initialize sharedPtr { Chosen := false, Elite := false, gene := 7 }).FitnessValue
      ≠ 0 := by
  decide

/-- C10 (amended): `Chromosome::Initialize(shared, local)` leaves the chromosome bound to
`shared`, with local data equal to `local`, and leaves its fitness value as it was; the
value is 0 when the chromosome was newly constructed. -/
theorem C10_Initialize {G : Type} (c : Chromosome G) (Shared : Option Nat)
    (Local : BasicLocalData G) (g : G) :
    (c.Initialize Shared Local).SharedData = Shared ∧
    (c.Initialize Shared Local).LocalData = Local ∧
    (c.Initialize Shared Local).FitnessValue = c.FitnessValue ∧
    ((Chromosome.new g).Initialize Shared Local).FitnessValue = 0 :=
  ⟨rfl, rfl, rfl, rfl⟩

/-- C1 (the code at the failing input): in a window whose second individual is already
marked `Chosen`, the draw 1/2 makes `WeightedSelection` return that very individual
(slot 1), because only flagged individuals get a non-zero weight. -/
theorem C1_returns_chosen :
    (flaggedEngine.deref 1).map (fun oc => oc.2.LocalData.Chosen) = some true ∧
    (WeightedSelection (fun _ => 1 / 2) flaggedEngine).map Prod.fst = some (some 1) := by
  decide!

/-- C2 (the code at the failing input): with every individual flagged and fitness values
1, 1, 2 the array `fitness_sum` is 1/4, 1/2, 1.  For the draw 3/8 the smallest index
whose entry exceeds the draw is 1, but `WeightedSelection` returns slot 0. -/
theorem C2_returns_previous :
    allChosenEngine.fitnessSum = some [Dbl.fin (1 / 4), Dbl.fin (1 / 2), Dbl.fin 1] ∧
    allChosenEngine.fitnessSum.bind (fun l => scan (3 / 8) l 0) = some 1 ∧
    (WeightedSelection (fun _ => 3 / 8) allChosenEngine).map Prod.fst = some (some 0) := by
  decide!

/-- C3 (counterexample): with `Elite = 4` and a window sorted by the fitness values 1 to 8,
the first pass of the elitism loop copies the individuals of the sorted positions 4 and 5
(fitness values 5 and 6) to the next-window positions 0 and 1, not those of the positions
7 and 6. -/
theorem C3_first_pair_not_top :
    fourEliteEngine.GetChromosomes.map fourEliteEngine.fitnessOf
      = [some 1, some 2, some 3, some 4, some 5, some 6, some 7, some 8] ∧
    (eliteBody (fourEliteEngine.origin + fourEliteEngine.Population) fourEliteEngine.nextOrigin 0
        fourEliteEngine).map
      (fun s => (s.Chromosomes[s.nextOrigin]?, s.Chromosomes[s.nextOrigin + 1]?))
      = some (fourEliteEngine.Chromosomes[fourEliteEngine.origin + 4]?,
              fourEliteEngine.Chromosomes[fourEliteEngine.origin + 5]?) ∧
    (eliteBody (fourEliteEngine.origin + fourEliteEngine.Population) fourEliteEngine.nextOrigin 0
        fourEliteEngine).map
      (fun s => (s.windowGenes s.nextOrigin).take 2) = some [some 5, some 6] := by
  decide!

/-- C4 (the code at the failing input): with six individuals, `Elite = 2`,
`MutationRate = 1` and every draw 9/10, the individual promoted to the next-window position
0 is object 5, marked `Elite`; the selection returns this same object, a mutation of it is
put on the queue, and the drain mutates it (its gene 5 becomes 7 after two mutations). -/
theorem C4_elite_mutated :
    (breedEnqueue geneOps (fun _ => 9 / 10) eliteMutationEngine).map
      (fun s => (s.Chromosomes[s.nextOrigin]?, (s.deref s.nextOrigin).map fun oc => oc.2.LocalData,
        s.OperationsQueue))
      = some (some (some 5), some { Chosen := true, Elite := true, gene := 5 },
          [Operation.Crossover (some 5) (some 4) (some 8) (some 9),
           Operation.Mutation (some 5), Operation.Mutation (some 5)]) ∧
    (BreedPopulation geneOps (fun _ => 9 / 10) eliteMutationEngine).map
      (fun s => (s.deref s.nextOrigin).map fun oc => oc.2.LocalData)
      = some (some { Chosen := true, Elite := true, gene := 7 }) := by
  decide!

/-- C6 (the code at the failing input): with `Population = 2` and `Elite = 1` the first
breeding cycle reads slots beyond the array of four slots, so `Simulate(1)` has no defined
result. -/
theorem C6_Simulate_undefined :
    oddEliteEngine.Chromosomes.length = 4 ∧
    2 * oddEliteEngine.SharedData.Elite ≤ oddEliteEngine.Population ∧
    Simulate geneOps (fun _ => 1 / 2) 1 oddEliteEngine = none := by
  decide!

/-- C8 (the code at the failing input): in the scenario with genes 3, 1, 4, 2, no elitism,
no mutation and no crossover, `Simulate(1)` sorts the current window to 1, 2, 3, 4 and
leaves the next window with the four genes 0 it had before. -/
theorem C8_next_window_untouched :
    scenarioEngine.windowGenes scenarioEngine.nextOrigin = [some 0, some 0, some 0, some 0] ∧
    (Simulate geneOps (fun _ => 1 / 2) 1 scenarioEngine).map
      (fun s => (s.windowGenes s.origin, s.windowGenes s.nextOrigin))
      = some ([some 1, some 2, some 3, some 4], [some 0, some 0, some 0, some 0]) := by
  decide!

/-- C9 (the code at the failing input): with `Population = 2` and `Elite = 1` the pass
`i = 0` of the elitism loop reads its second source at slot 2, the first slot after the
current window, and binds the children at slots 4 and 5, beyond the next window and beyond
the array; the elitism phase has no defined result. -/
theorem C9_odd_elite_out_of_range :
    2 * oddEliteEngine.SharedData.Elite ≤ oddEliteEngine.Population ∧
    eliteIndices (oddEliteEngine.origin + oddEliteEngine.Population) oddEliteEngine.nextOrigin
        oddEliteEngine.SharedData.Elite 0
      = { source1 := 1, source2 := 2, target1 := 2, target2 := 3, child1 := 4, child2 := 5 } ∧
    oddEliteEngine.origin + oddEliteEngine.Population = 2 ∧
    oddEliteEngine.nextOrigin + oddEliteEngine.Population = 4 ∧
    oddEliteEngine.Chromosomes.length = 4 ∧
    elitePhase oddEliteEngine = none := by
  decide!

/-- C5 (counterexample): the weights 0, 1, -1 have the total 0, yet for the draw 1/2
`WeightedSelection` returns slot 0 and marks its individual `Chosen`, because the second
entry of `fitness_sum` is `1/0`, plus infinity. -/
theorem C5_zero_total_selects :
    cancellingEngine.weights cancellingEngine.Population cancellingEngine.origin
      = some [0, 1, -1] ∧
    (runningSum 0 [0, 1, -1]).getLastD 0 = 0 ∧
    cancellingEngine.fitnessSum = some [Dbl.nan, Dbl.pinf, Dbl.nan] ∧
    (WeightedSelection (fun _ => 1 / 2) cancellingEngine).map
      (fun r => (r.1, (r.2.deref 0).map fun oc => oc.2.LocalData.Chosen))
      = some (some 0, some true) := by
  decide!

/-! ### Sorting -/

theorem notAfter_iff_rank {G : Type} (heap : List (Chromosome G)) (a b : Option Nat)
    (ha : validSlot heap a = true) (hb : validSlot heap b = true) :
    notAfter heap a b ↔ rank heap a ≤ rank heap b := by
  cases a with
  | none => simp [validSlot] at ha
  | some i =>
    cases b with
    | none => simp [validSlot] at hb
    | some j =>
      simp only [validSlot, decide_eq_true_eq] at ha hb
      simp [notAfter, rank, Wrapper.lt, Chromosome.lt, List.getElem?_eq_getElem ha,
        List.getElem?_eq_getElem hb]

theorem stdSort_spec {G : Type} (heap : List (Chromosome G)) (l : List (Option Nat))
    (h : ∀ w ∈ l, validSlot heap w = true) :
    ∃ l', stdSort heap l = some l' ∧ l'.Perm l ∧ (l'.map (rank heap)).Sorted (· ≤ ·) := by
  refine ⟨l.insertionSort (notAfter heap), ?_, List.perm_insertionSort _ l, ?_⟩
  · simp only [stdSort, ite_eq_left_iff]
    intro hn
    exact absurd (List.all_eq_true.mpr h) hn
  · rw [List.map_insertionSort (notAfter heap) (· ≤ ·) (rank heap) l
      (fun a ha b hb => notAfter_iff_rank heap a b (h a ha) (h b hb))]
    exact List.sorted_insertionSort _ _

theorem splice_window {α : Type} (xs w : List α) (first n : Nat)
    (hw : w.length = n) (hle : first + n ≤ xs.length) :
    ((xs.take first ++ w ++ xs.drop (first + n)).drop first).take n = w := by
  have h1 : (xs.take first).length = first := by
    rw [List.length_take]; omega
  rw [List.append_assoc, List.drop_left' h1, List.take_left' hw]

theorem splice_length {α : Type} (xs w : List α) (first n : Nat)
    (hw : w.length = n) (hle : first + n ≤ xs.length) :
    (xs.take first ++ w ++ xs.drop (first + n)).length = xs.length := by
  simp only [List.length_append, List.length_take, List.length_drop]
  omega

theorem splice_outside {α : Type} (xs w : List α) (first n k : Nat)
    (hw : w.length = n) (hle : first + n ≤ xs.length) (hk : k < first ∨ first + n ≤ k) :
    (xs.take first ++ w ++ xs.drop (first + n))[k]? = xs[k]? := by
  have h1 : (xs.take first).length = first := by
    rw [List.length_take]; omega
  rcases hk with hk | hk
  · rw [List.append_assoc, List.getElem?_append_left (by omega), List.getElem?_take_of_lt hk]
  · rw [List.getElem?_append_right (by simp only [List.length_append, h1, hw]; omega)]
    simp only [List.length_append, h1, hw, List.getElem?_drop]
    congr 1
    omega

theorem sortRange_spec {G : Type} (s : GeneticAlgorithm G) (first : Nat)
    (hle : first + s.Population ≤ s.Chromosomes.length)
    (hv : ∀ w ∈ (s.Chromosomes.drop first).take s.Population, validSlot s.Heap w = true) :
    ∃ l', l'.Perm ((s.Chromosomes.drop first).take s.Population) ∧
      (l'.map (rank s.Heap)).Sorted (· ≤ ·) ∧
      s.sortRange first = some
        { s with Chromosomes :=
            s.Chromosomes.take first ++ l' ++ s.Chromosomes.drop (first + s.Population) } := by
  obtain ⟨l', h1, h2, h3⟩ := stdSort_spec s.Heap _ hv
  exact ⟨l', h2, h3, by simp [sortRange, hle, h1]⟩

/-! ### Initialisation of a newly constructed engine -/

theorem initSlot_of_null {G : Type} [Inhabited G] (s : GeneticAlgorithm G) (k : Nat)
    (Local : BasicLocalData G) (hk : s.Chromosomes[k]? = some none) :
    initSlot s k Local = some
      { s with
        Chromosomes := s.Chromosomes.set k (some s.Heap.length),
        Heap := s.Heap ++ [(Chromosome.new default).Initialize sharedPtr Local] } := by
  simp [initSlot, hk]

theorem initLoop_spec {G : Type} [Inhabited G] (Local : Nat → BasicLocalData G) :
    ∀ (n k : Nat) (s : GeneticAlgorithm G), k + n ≤ s.Chromosomes.length →
      (∀ i, k ≤ i → i < k + n → s.Chromosomes[i]? = some none) →
      ∃ s', initLoop Local n k s = some s' ∧
        s'.Chromosomes.length = s.Chromosomes.length ∧
        (∀ j, j < n → s'.Chromosomes[k + j]? = some (some (s.Heap.length + j))) ∧
        (∀ i, i < k ∨ k + n ≤ i → s'.Chromosomes[i]? = s.Chromosomes[i]?) ∧
        s'.Heap = s.Heap ++ (List.range n).map
          (fun j => (Chromosome.new default).Initialize sharedPtr (Local (k + j))) ∧
        s' = { s with Chromosomes := s'.Chromosomes, Heap := s'.Heap } := by
  intro n
  induction n with
  | zero =>
    intro k s _ _
    exact ⟨s, rfl, rfl, fun j hj => absurd hj (Nat.not_lt_zero j), fun _ _ => rfl, by simp, rfl⟩
  | succ n ih =>
    intro k s hlen hnull
    have hk := hnull k (Nat.le_refl k) (by omega)
    obtain ⟨s', h1, h2, h3, h4, h5, h6⟩ := ih (k + 1)
      { s with
        Chromosomes := s.Chromosomes.set k (some s.Heap.length),
        Heap := s.Heap ++ [(Chromosome.new default).Initialize sharedPtr (Local k)] }
      (by simp only [List.length_set]; omega)
      (by
        intro i hi1 hi2
        simp only
        rw [List.getElem?_set_ne (by omega)]
        exact hnull i (by omega) (by omega))
    refine ⟨s', ?_, ?_, ?_, ?_, ?_, ?_⟩
    · simp only [initLoop, initSlot_of_null s k (Local k) hk, Option.some_bind]
      exact h1
    · rw [h2]; simp
    · intro j hj
      cases j with
      | zero =>
        rw [Nat.add_zero, h4 k (Or.inl (Nat.lt_succ_self k))]
        simp only [Nat.add_zero]
        rw [List.getElem?_set_self (by omega)]
      | succ j =>
        have := h3 j (by omega)
        simp only [List.length_append, List.length_singleton] at this
        rw [show k + (j + 1) = k + 1 + j by omega, this]
        congr 2
        omega
    · intro i hi
      rw [h4 i (by omega)]
      simp only
      rw [List.getElem?_set_ne (by omega)]
    · rw [h5]
      simp only [List.append_assoc, List.singleton_append]
      rw [List.range_succ_eq_map, List.map_cons, List.map_map]
      congr 2
      apply List.map_congr_left
      intro j _
      simp only [Function.comp, Nat.add_zero]
      congr 2
      omega
    · rw [h6]

theorem origin_add_le {G : Type} (s : GeneticAlgorithm G) (hSG : s.StoredGenerations ≠ 0)
    (hlen : s.Chromosomes.length = s.StoredGenerations * s.Population) :
    s.origin + s.Population ≤ s.Chromosomes.length := by
  have h1 : s.Generation % s.StoredGenerations + 1 ≤ s.StoredGenerations :=
    Nat.mod_lt _ (Nat.pos_of_ne_zero hSG)
  have h2 := Nat.mul_le_mul_right s.Population h1
  rw [hlen]
  simp only [origin]
  rw [Nat.add_mul, Nat.one_mul] at h2
  exact h2

theorem Simulate_zero_spec {G : Type} (ops : Operators G) (rnd : Nat → ℚ)
    (s : GeneticAlgorithm G) (hSG : s.StoredGenerations ≠ 0)
    (hlen : s.Chromosomes.length = s.StoredGenerations * s.Population)
    (hvalid : ∀ w ∈ s.GetChromosomes, validSlot s.Heap w = true) :
    ∃ s', Simulate ops rnd 0 s = some s' ∧
      s'.GetChromosomes.Perm s.GetChromosomes ∧
      (s'.GetChromosomes.map (rank s'.Heap)).Sorted (· ≤ ·) ∧
      (∀ k, k < s.origin ∨ s.origin + s.Population ≤ k →
        s'.Chromosomes[k]? = s.Chromosomes[k]?) ∧
      s' = { s with Chromosomes := s'.Chromosomes } := by
  have hle := origin_add_le s hSG hlen
  obtain ⟨l', h1, h2, h3⟩ := sortRange_spec s s.origin hle hvalid
  have hl : l'.length = s.Population := by
    rw [List.Perm.length_eq h1, List.length_take, List.length_drop]
    omega
  have hw : GetChromosomes
      { s with Chromosomes :=
          s.Chromosomes.take s.origin ++ l' ++ s.Chromosomes.drop (s.origin + s.Population) }
      = l' :=
    splice_window _ _ _ _ hl hle
  refine ⟨
    { s with Chromosomes :=
        s.Chromosomes.take s.origin ++ l' ++ s.Chromosomes.drop (s.origin + s.Population) },
    ?_, ?_, ?_, ?_, rfl⟩
  · simp only [Simulate, breedTimes, Option.some_bind, hSG, if_false]
    exact h3
  · rw [hw]
    exact h1
  · rw [hw]
    exact h2
  · intro k hk
    exact splice_outside _ _ _ _ k hl hle hk

theorem InitializeWith_fresh {G : Type} [Inhabited G] (Local : Nat → BasicLocalData G)
    (s0 : GeneticAlgorithm G) (hSG : s0.StoredGenerations ≠ 0)
    (hfresh : s0.Chromosomes = List.replicate (s0.StoredGenerations * s0.Population) none) :
    ∃ s1, InitializeWith Local s0 = some s1 ∧
      s1.GetChromosomes = (List.range s0.Population).map (fun j => some (s0.Heap.length + j)) ∧
      (∀ j, j < s0.Population → s1.Heap[s0.Heap.length + j]? =
        some ((Chromosome.new default).Initialize sharedPtr (Local j))) ∧
      s1.StoredGenerations = s0.StoredGenerations ∧ s1.Population = s0.Population ∧
      s1.Generation = 0 ∧
      s1.Chromosomes.length = s0.StoredGenerations * s0.Population := by
  have hlen : s0.Chromosomes.length = s0.StoredGenerations * s0.Population := by
    rw [hfresh, List.length_replicate]
  have hP : s0.Population ≤ s0.StoredGenerations * s0.Population :=
    Nat.le_mul_of_pos_left _ (Nat.pos_of_ne_zero hSG)
  obtain ⟨s1, h1, h2, h3, _, h5, h6⟩ := initLoop_spec Local
    (s0.StoredGenerations * s0.Population) 0 { s0 with Generation := 0 }
    (by simp only [hlen]; omega)
    (by
      intro i _ hi
      simp only [hfresh]
      rw [List.getElem?_replicate]
      simp only [ite_eq_left_iff]
      intro hn
      omega)
  have hS : s1.StoredGenerations = s0.StoredGenerations := by rw [h6]
  have hPop : s1.Population = s0.Population := by rw [h6]
  have hG : s1.Generation = 0 := by rw [h6]
  refine ⟨s1, h1, ?_, ?_, hS, hPop, hG, by rw [h2]; exact hlen⟩
  · simp only [GetChromosomes, origin, hG, hPop, Nat.zero_mod, Nat.zero_mul, List.drop_zero]
    apply List.ext_getElem?
    intro j
    by_cases hj : j < s0.Population
    · rw [List.getElem?_take_of_lt hj]
      have := h3 j (by omega)
      simp only [Nat.zero_add] at this
      rw [this]
      simp [List.getElem?_range hj]
    · rw [List.getElem?_eq_none (by simp only [List.length_take]; omega),
        List.getElem?_eq_none (by simp only [List.length_map, List.length_range]; omega)]
  · intro j hj
    rw [h5]
    simp only
    rw [List.getElem?_append_right (by omega)]
    simp only [Nat.add_sub_cancel_left, Nat.zero_add]
    rw [List.getElem?_map, List.getElem?_range (by omega)]
    rfl

/-- C7: `Simulate(0)` only reorders the current window.  For an engine whose current
window holds live objects, the call returns; the new current window is a permutation of the
old one; the object store is unchanged, so every individual keeps its local data and its
fitness value; the window is sorted ascending by fitness value; the slots of every other
window, the generation counter and the shared configuration are unchanged.  For a newly
constructed engine, `Initialize` followed by `Simulate(0)` gives a current window whose
fitness values are all 0 and whose local data are, up to order, the initialised ones (the
fixed-value form of `Initialize` is the case of a constant `Local`). -/
theorem C7_Simulate_zero {G : Type} [Inhabited G] (ops : Operators G) (rnd : Nat → ℚ) :
    (∀ s : GeneticAlgorithm G, s.StoredGenerations ≠ 0 →
      s.Chromosomes.length = s.StoredGenerations * s.Population →
      (∀ w ∈ s.GetChromosomes, validSlot s.Heap w = true) →
      ∃ s', Simulate ops rnd 0 s = some s' ∧
        s'.GetChromosomes.Perm s.GetChromosomes ∧
        s'.Heap = s.Heap ∧
        (s'.GetChromosomes.map (rank s'.Heap)).Sorted (· ≤ ·) ∧
        (∀ k, k < s.origin ∨ s.origin + s.Population ≤ k →
          s'.Chromosomes[k]? = s.Chromosomes[k]?) ∧
        s'.Generation = s.Generation ∧ s'.SharedData = s.SharedData ∧
        s'.Population = s.Population ∧ s'.StoredGenerations = s.StoredGenerations) ∧
    (∀ (Local : Nat → BasicLocalData G) (s0 : GeneticAlgorithm G),
      s0.StoredGenerations ≠ 0 →
      s0.Chromosomes = List.replicate (s0.StoredGenerations * s0.Population) none →
      ∃ s1 s2, InitializeWith Local s0 = some s1 ∧ Simulate ops rnd 0 s1 = some s2 ∧
        (∀ w ∈ s2.GetChromosomes, s2.fitnessOf w = some 0) ∧
        (s2.GetChromosomes.map s2.localDataOf).Perm
          ((List.range s0.Population).map fun k => some (Local k))) := by
  constructor
  · intro s hSG hlen hvalid
    obtain ⟨s', h1, h2, h3, h4, h5⟩ := Simulate_zero_spec ops rnd s hSG hlen hvalid
    exact ⟨s', h1, h2, by rw [h5], h3, h4, by rw [h5], by rw [h5], by rw [h5], by rw [h5]⟩
  · intro Local s0 hSG hfresh
    obtain ⟨s1, h1, h2, h3, hS, hPop, _, hlen⟩ := InitializeWith_fresh Local s0 hSG hfresh
    have hmem : ∀ w ∈ s1.GetChromosomes, ∃ j, j < s0.Population ∧ w = some (s0.Heap.length + j) := by
      intro w hw
      rw [h2, List.mem_map] at hw
      obtain ⟨j, hj, rfl⟩ := hw
      exact ⟨j, List.mem_range.mp hj, rfl⟩
    have hvalid : ∀ w ∈ s1.GetChromosomes, validSlot s1.Heap w = true := by
      intro w hw
      obtain ⟨j, hj, rfl⟩ := hmem w hw
      have := h3 j hj
      simp only [validSlot, decide_eq_true_eq]
      by_contra hn
      rw [List.getElem?_eq_none (by omega)] at this
      exact Option.noConfusion this
    obtain ⟨s2, g1, g2, _, _, g5⟩ := Simulate_zero_spec ops rnd s1 (by rw [hS]; exact hSG)
      (by rw [hlen, hS, hPop]) hvalid
    have hheap : s2.Heap = s1.Heap := by rw [g5]
    refine ⟨s1, s2, h1, g1, ?_, ?_⟩
    · intro w hw
      obtain ⟨j, hj, rfl⟩ := hmem w (g2.mem_iff.mp hw)
      simp only [fitnessOf, hheap, Option.some_bind, h3 j hj, Option.map_some']
      rfl
    · have hmap : s1.GetChromosomes.map s2.localDataOf
          = (List.range s0.Population).map fun k => some (Local k) := by
        rw [h2, List.map_map]
        apply List.map_congr_left
        intro j hj
        simp only [Function.comp, localDataOf, hheap, Option.some_bind,
          h3 j (List.mem_range.mp hj), Option.map_some']
        rfl
      rw [← hmap]
      exact g2.map _

/-! ### Selection that picks nobody -/

theorem scan_eq_none (random : ℚ) :
    ∀ (l : List Dbl) (i : Nat), (∀ d ∈ l, d.exceeds random = false) → scan random l i = none := by
  intro l
  induction l with
  | nil => intro i _; rfl
  | cons d ds ih =>
    intro i h
    have hd := h d (List.mem_cons_self d ds)
    simp only [scan, hd, Bool.false_eq_true, if_false]
    exact ih (i + 1) fun x hx => h x (List.mem_cons_of_mem d hx)

theorem all_zero_of_nonneg_sum_zero :
    ∀ (ws : List ℚ), (∀ w ∈ ws, 0 ≤ w) → ws.sum = 0 → ∀ w ∈ ws, w = 0 := by
  intro ws
  induction ws with
  | nil => intro _ _ w hw; exact absurd hw (List.not_mem_nil w)
  | cons a as ih =>
    intro hnn hsum w hw
    have ha : 0 ≤ a := hnn a (List.mem_cons_self a as)
    have has : 0 ≤ as.sum := List.sum_nonneg fun x hx => hnn x (List.mem_cons_of_mem a hx)
    rw [List.sum_cons] at hsum
    have ha0 : a = 0 := by linarith
    have hs0 : as.sum = 0 := by linarith
    rcases List.mem_cons.mp hw with h | h
    · rw [h]; exact ha0
    · exact ih (fun x hx => hnn x (List.mem_cons_of_mem a hx)) hs0 w h

theorem runningSum_of_zero :
    ∀ (ws : List ℚ) (acc : ℚ), (∀ w ∈ ws, w = 0) → ∀ x ∈ runningSum acc ws, x = acc := by
  intro ws
  induction ws with
  | nil => intro acc _ x hx; simp [runningSum] at hx
  | cons a as ih =>
    intro acc h x hx
    have ha : a = 0 := h a (List.mem_cons_self a as)
    subst ha
    simp only [runningSum, add_zero, List.mem_cons] at hx
    rcases hx with hx | hx
    · exact hx
    · exact ih acc (fun w hw => h w (List.mem_cons_of_mem 0 hw)) x hx

theorem runningSum_getLastD :
    ∀ (ws : List ℚ) (acc : ℚ), (runningSum acc ws).getLastD acc = acc + ws.sum := by
  intro ws
  induction ws with
  | nil => intro acc; simp [runningSum]
  | cons a as ih =>
    intro acc
    rw [runningSum, List.getLastD_cons, ih, List.sum_cons, add_assoc]

theorem normalise_of_zero (cum : List ℚ) (h : ∀ x ∈ cum, x = 0) :
    ∀ d ∈ normalise cum, d = Dbl.nan := by
  intro d hd
  simp only [normalise, List.mem_map] at hd
  obtain ⟨x, hx, rfl⟩ := hd
  have hlast : cum.getLastD 0 = 0 := by
    rcases List.mem_cons.mp (List.getLastD_mem_cons cum 0) with h0 | h0
    · exact h0
    · exact h _ h0
  rw [h x hx, hlast]
  simp [Dbl.div]

theorem fitnessSum_eq {G : Type} (s : GeneticAlgorithm G) (ws : List ℚ)
    (hws : s.weights s.Population s.origin = some ws) :
    s.fitnessSum = some (normalise (runningSum 0 ws)) := by
  simp [fitnessSum, hws]

theorem WeightedSelection_none {G : Type} (rnd : Nat → ℚ) (s : GeneticAlgorithm G)
    (ws : List ℚ) (hSG : s.StoredGenerations ≠ 0)
    (hws : s.weights s.Population s.origin = some ws)
    (h : ∀ d ∈ normalise (runningSum 0 ws), d.exceeds (rnd s.Draws) = false) :
    WeightedSelection rnd s = some (none, { s with Draws := s.Draws + 1 }) := by
  have hscan : scan (rnd s.Draws) (normalise (runningSum 0 ws)).tail 1 = none :=
    scan_eq_none _ _ _ fun d hd => h d (List.mem_of_mem_tail hd)
  simp only [WeightedSelection, hSG, if_false, fitnessSum_eq s ws hws, RandomDouble]
  simp only [Option.bind_eq_bind, Option.some_bind, hscan]

theorem fillBody_of_none {G : Type} (rnd : Nat → ℚ) (v : FillVars) (s s1 : GeneticAlgorithm G)
    (h : WeightedSelection rnd s = some (none, s1)) :
    fillBody rnd v s = some ({ v with i := v.i + 1 }, s1) := by
  simp only [fillBody, h, Option.bind_eq_bind, Option.some_bind]

/-- C5 (amended): if no weight computed by `WeightedSelection` is negative and their total
is zero, or no entry of the normalised cumulative weights exceeds the draw, then
`WeightedSelection` returns none and changes nothing but the position in the random
stream, so no individual is marked; and the pass of the fill loop of `BreedPopulation`
that made this call only advances the loop index: it writes no slot, moves no cursor and
puts nothing on the queue. -/
theorem C5_no_selection {G : Type} (rnd : Nat → ℚ) (v : FillVars) (s : GeneticAlgorithm G)
    (ws : List ℚ) (hSG : s.StoredGenerations ≠ 0)
    (hws : s.weights s.Population s.origin = some ws)
    (h : ((∀ w ∈ ws, 0 ≤ w) ∧ (runningSum 0 ws).getLastD 0 = 0) ∨
      (∀ d ∈ normalise (runningSum 0 ws), d.exceeds (rnd s.Draws) = false)) :
    WeightedSelection rnd s = some (none, { s with Draws := s.Draws + 1 }) ∧
    fillBody rnd v s = some ({ v with i := v.i + 1 }, { s with Draws := s.Draws + 1 }) := by
  have hex : ∀ d ∈ normalise (runningSum 0 ws), d.exceeds (rnd s.Draws) = false := by
    rcases h with ⟨hnn, hsum⟩ | h
    · intro d hd
      rw [runningSum_getLastD, zero_add] at hsum
      have hz := all_zero_of_nonneg_sum_zero ws hnn hsum
      rw [normalise_of_zero _ (runningSum_of_zero ws 0 hz) d hd]
      rfl
    · exact h
  have hsel := WeightedSelection_none rnd s ws hSG hws hex
  exact ⟨hsel, fillBody_of_none rnd v s _ hsel⟩

/-- C5 (witness): in the scenario population nobody is flagged, so the four weights are 0
and the selection picks nobody. -/
theorem C5_no_selection_witness :
    scenarioEngine.StoredGenerations ≠ 0 ∧
    scenarioEngine.weights scenarioEngine.Population scenarioEngine.origin = some [0, 0, 0, 0] ∧
    WeightedSelection (fun _ => 1 / 2) scenarioEngine
      = some (none, { scenarioEngine with Draws := scenarioEngine.Draws + 1 }) ∧
    fillBody (fun _ => 1 / 2) { i := 0, nextOrigin := 4, parent := none } scenarioEngine
      = some ({ i := 1, nextOrigin := 4, parent := none },
          { scenarioEngine with Draws := scenarioEngine.Draws + 1 }) :=
  ⟨by decide, by decide!,
    C5_no_selection (fun _ => 1 / 2) { i := 0, nextOrigin := 4, parent := none } scenarioEngine
      [0, 0, 0, 0] (by decide) (by decide!) (Or.inl ⟨by decide!, by decide!⟩)⟩

/-- C7 (witness): the scenario population, and a newly constructed engine with two windows
of two slots initialised by the factory `k ↦ gene k`. -/
theorem C7_Simulate_zero_witness :
    (scenarioEngine.StoredGenerations ≠ 0 ∧
      scenarioEngine.Chromosomes.length
        = scenarioEngine.StoredGenerations * scenarioEngine.Population ∧
      (∀ w ∈ scenarioEngine.GetChromosomes, validSlot scenarioEngine.Heap w = true) ∧
      ∃ s', Simulate geneOps (fun _ => 1 / 2) 0 scenarioEngine = some s' ∧
        s'.GetChromosomes.Perm scenarioEngine.GetChromosomes ∧
        s'.Heap = scenarioEngine.Heap ∧
        (s'.GetChromosomes.map (rank s'.Heap)).Sorted (· ≤ ·) ∧
        (∀ k, k < scenarioEngine.origin ∨ scenarioEngine.origin + scenarioEngine.Population ≤ k →
          s'.Chromosomes[k]? = scenarioEngine.Chromosomes[k]?) ∧
        s'.Generation = scenarioEngine.Generation ∧ s'.SharedData = scenarioEngine.SharedData ∧
        s'.Population = scenarioEngine.Population ∧
        s'.StoredGenerations = scenarioEngine.StoredGenerations) ∧
    ∃ s1 s2,
      InitializeWith (fun k => { Chosen := false, Elite := false, gene := (k : ℚ) })
        (GeneticAlgorithm.new 2 2) = some s1 ∧
      Simulate geneOps (fun _ => 1 / 2) 0 s1 = some s2 ∧
      (∀ w ∈ s2.GetChromosomes, s2.fitnessOf w = some 0) ∧
      (s2.GetChromosomes.map s2.localDataOf).Perm
        ((List.range (GeneticAlgorithm.new 2 2 : GeneticAlgorithm ℚ).Population).map
          fun k => some { Chosen := false, Elite := false, gene := (k : ℚ) }) :=
  ⟨⟨by decide, by decide, by decide!,
      (C7_Simulate_zero geneOps (fun _ => 1 / 2)).1 scenarioEngine (by decide) (by decide)
        (by decide!)⟩,
    (C7_Simulate_zero geneOps (fun _ => 1 / 2)).2
      (fun k => { Chosen := false, Elite := false, gene := (k : ℚ) })
      (GeneticAlgorithm.new 2 2) (by decide) (by decide)⟩

/-! ### The elitism loop -/

theorem Chromosome.promoted_refl {G : Type} (c : Chromosome G) : c.promoted c :=
  ⟨rfl, rfl, rfl, rfl, id⟩

theorem Chromosome.promoted_trans {G : Type} {a b c : Chromosome G}
    (h1 : a.promoted b) (h2 : b.promoted c) : a.promoted c :=
  ⟨h2.1.trans h1.1, h2.2.1.trans h1.2.1, h2.2.2.1.trans h1.2.2.1,
    h2.2.2.2.1.trans h1.2.2.2.1, fun h => h2.2.2.2.2 (h1.2.2.2.2 h)⟩

theorem heapPromoted_refl {G : Type} (h : List (Chromosome G)) : heapPromoted h h :=
  ⟨rfl, fun _ c hc => ⟨c, hc, c.promoted_refl⟩⟩

theorem heapPromoted_trans {G : Type} {a b c : List (Chromosome G)}
    (h1 : heapPromoted a b) (h2 : heapPromoted b c) : heapPromoted a c := by
  refine ⟨h2.1.trans h1.1, fun o x hx => ?_⟩
  obtain ⟨y, hy, hxy⟩ := h1.2 o x hx
  obtain ⟨z, hz, hyz⟩ := h2.2 o y hy
  exact ⟨z, hz, Chromosome.promoted_trans hxy hyz⟩

theorem heapPromoted_set {G : Type} (h : List (Chromosome G)) (o : Nat) (c : Chromosome G)
    (hc : h[o]? = some c) :
    heapPromoted h (h.set o { c with LocalData := { c.LocalData with Elite := true } }) := by
  refine ⟨List.length_set _ _ _, fun o' x hx => ?_⟩
  by_cases ho : o = o'
  · subst ho
    rw [hc] at hx
    cases hx
    have hlt : o < h.length := (List.getElem?_eq_some.mp hc).1
    exact ⟨_, List.getElem?_set_self hlt, rfl, rfl, rfl, rfl, fun _ => rfl⟩
  · exact ⟨x, by rw [List.getElem?_set_ne ho]; exact hx, x.promoted_refl⟩

theorem setSlot_of_lt {G : Type} (s : GeneticAlgorithm G) (k : Nat) (w : Option Nat)
    (hk : k < s.Chromosomes.length) :
    s.setSlot k w = some { s with Chromosomes := s.Chromosomes.set k w } := by
  simp [setSlot, hk]

theorem setElite_of {G : Type} (s : GeneticAlgorithm G) (k o : Nat) (c : Chromosome G)
    (hk : s.Chromosomes[k]? = some (some o)) (hc : s.Heap[o]? = some c) :
    s.setElite k = some
      { s with Heap := s.Heap.set o { c with LocalData := { c.LocalData with Elite := true } } } := by
  simp [setElite, deref, hk, hc, setObject]

theorem eliteAt_of_promoted {G : Type} (s s' : GeneticAlgorithm G) (k k' : Nat)
    (h : s.eliteAt k) (hslot : s'.Chromosomes[k']? = s.Chromosomes[k]?)
    (hheap : heapPromoted s.Heap s'.Heap) : s'.eliteAt k' := by
  obtain ⟨oc, hoc, he⟩ := h
  simp only [deref, Option.bind_eq_bind, Option.bind_eq_some] at hoc
  obtain ⟨w, hw, o, ho, c, hc, hoc⟩ := hoc
  cases hoc
  cases ho
  obtain ⟨c', hc', hp⟩ := hheap.2 o c hc
  refine ⟨(o, c'), ?_, hp.2.2.2.2 he⟩
  simp [deref, hslot, hw, hc']

theorem eliteBody_spec {G : Type} (f n i : Nat) (s : GeneticAlgorithm G) (o1 o2 : Nat)
    (h1 : s.Chromosomes[f - s.SharedData.Elite + i]? = some (some o1))
    (h2 : s.Chromosomes[f - s.SharedData.Elite + i + 1]? = some (some o2))
    (hv1 : o1 < s.Heap.length) (hv2 : o2 < s.Heap.length)
    (hb : n + 2 * i + 3 < s.Chromosomes.length)
    (hne : f - s.SharedData.Elite + i + 1 ≠ n + 2 * i) :
    ∃ s', eliteBody f n i s = some s' ∧
      s'.Chromosomes = (s.Chromosomes.set (n + 2 * i) (some o1)).set (n + 2 * i + 1) (some o2) ∧
      heapPromoted s.Heap s'.Heap ∧
      s'.eliteAt (n + 2 * i) ∧ s'.eliteAt (n + 2 * i + 1) ∧
      s'.SharedData = s.SharedData ∧ s'.Population = s.Population ∧
      s'.Generation = s.Generation ∧ s'.StoredGenerations = s.StoredGenerations := by
  obtain ⟨c1, hc1⟩ : ∃ c1, s.Heap[o1]? = some c1 := ⟨_, List.getElem?_eq_getElem hv1⟩
  obtain ⟨H1, hH1⟩ : ∃ H1, H1 = s.Heap.set o1
      { c1 with LocalData := { c1.LocalData with Elite := true } } := ⟨_, rfl⟩
  have hp1 : heapPromoted s.Heap H1 := by rw [hH1]; exact heapPromoted_set s.Heap o1 c1 hc1
  obtain ⟨c2, hc2⟩ : ∃ c2, H1[o2]? = some c2 :=
    ⟨_, List.getElem?_eq_getElem (by rw [hp1.1]; exact hv2)⟩
  have hp2 := heapPromoted_set H1 o2 c2 hc2
  obtain ⟨C2, hC2⟩ : ∃ C2, C2 =
      (s.Chromosomes.set (n + 2 * i) (some o1)).set (n + 2 * i + 1) (some o2) := ⟨_, rfl⟩
  have hL2 : C2.length = s.Chromosomes.length := by rw [hC2]; simp
  have ht1 : C2[n + 2 * i]? = some (some o1) := by
    rw [hC2, List.getElem?_set_ne (by omega), List.getElem?_set_self (by omega)]
  have ht2 : C2[n + 2 * i + 1]? = some (some o2) := by
    rw [hC2, List.getElem?_set_self (by simp only [List.length_set]; omega)]
  obtain ⟨x1, hx1⟩ : ∃ x, C2[n + 2 * i + 2]? = some x :=
    ⟨_, List.getElem?_eq_getElem (by rw [hL2]; omega)⟩
  obtain ⟨x2, hx2⟩ : ∃ x, C2[n + 2 * i + 3]? = some x :=
    ⟨_, List.getElem?_eq_getElem (by rw [hL2]; omega)⟩
  have hlt2 : o2 < H1.length := (List.getElem?_eq_some.mp hc2).1
  have hlt1 : o1 < H1.length := by rw [hp1.1]; exact hv1
  have he1 : GeneticAlgorithm.eliteAt { s with Chromosomes := C2, Heap := H1 } (n + 2 * i) := by
    refine ⟨(o1, { c1 with LocalData := { c1.LocalData with Elite := true } }), ?_, rfl⟩
    simp only [deref, ht1, Option.bind_eq_bind, Option.some_bind, hH1,
      List.getElem?_set_self hv1]
  refine ⟨
    { s with
      Chromosomes := C2,
      Heap := H1.set o2 { c2 with LocalData := { c2.LocalData with Elite := true } },
      OperationsQueue :=
        s.OperationsQueue ++ [Operation.Crossover (some o1) (some o2) x1 x2] },
    ?_, hC2, heapPromoted_trans hp1 hp2, ?_, ?_, rfl, rfl, rfl, rfl⟩
  · simp only [eliteBody, eliteIndices, h1, Option.bind_eq_bind, Option.some_bind]
    rw [setSlot_of_lt _ _ _ (by omega)]
    simp only [Option.some_bind]
    rw [List.getElem?_set_ne (Ne.symm hne), h2]
    simp only [Option.some_bind]
    rw [setSlot_of_lt _ _ _ (by simp only [List.length_set]; omega)]
    simp only [Option.some_bind, ← hC2]
    rw [setElite_of { s with Chromosomes := C2 } (n + 2 * i) o1 c1 ht1 hc1]
    simp only [Option.some_bind, ← hH1]
    rw [setElite_of { s with Chromosomes := C2, Heap := H1 } (n + 2 * i + 1) o2 c2 ht2 hc2]
    simp only [Option.some_bind, ht1, ht2, hx1, hx2, push]
  · exact eliteAt_of_promoted _ _ _ _ he1 rfl hp2
  · refine ⟨(o2, { c2 with LocalData := { c2.LocalData with Elite := true } }), ?_, rfl⟩
    simp only [deref, ht2, Option.bind_eq_bind, Option.some_bind, List.getElem?_set_self hlt2]

theorem eliteLoop_spec {G : Type} (f n E : Nat) (hE : E % 2 = 0) (hEf : E ≤ f)
    (hdis : n + 2 * E ≤ f - E ∨ f ≤ n) :
    ∀ (fuel i : Nat) (s : GeneticAlgorithm G), s.SharedData.Elite = E → i % 2 = 0 →
      E ≤ i + 2 * fuel → f ≤ s.Chromosomes.length → n + 2 * E ≤ s.Chromosomes.length →
      (∀ k, f - E + i ≤ k → k < f →
        ∃ o, s.Chromosomes[k]? = some (some o) ∧ o < s.Heap.length) →
      ∃ s', eliteLoop f n fuel i s = some s' ∧
        (∀ j, i ≤ j → j < E → j % 2 = 0 →
          s'.Chromosomes[n + 2 * j]? = s.Chromosomes[f - E + j]? ∧
          s'.Chromosomes[n + 2 * j + 1]? = s.Chromosomes[f - E + j + 1]? ∧
          s'.eliteAt (n + 2 * j) ∧ s'.eliteAt (n + 2 * j + 1)) ∧
        (∀ k, k < n + 2 * i ∨ n + 2 * E ≤ k → s'.Chromosomes[k]? = s.Chromosomes[k]?) ∧
        heapPromoted s.Heap s'.Heap ∧
        s'.Chromosomes.length = s.Chromosomes.length ∧
        s'.SharedData = s.SharedData ∧ s'.Population = s.Population ∧
        s'.Generation = s.Generation ∧ s'.StoredGenerations = s.StoredGenerations := by
  intro fuel
  induction fuel with
  | zero =>
    intro i s _ _ hfuel _ _ _
    exact ⟨s, rfl, fun j h1 h2 _ => by omega, fun _ _ => rfl, heapPromoted_refl _, rfl, rfl,
      rfl, rfl, rfl⟩
  | succ fuel ih =>
    intro i s hEs hi hfuel hfL hnL hsrc
    by_cases hiE : i < E
    · obtain ⟨o1, h1, hv1⟩ := hsrc (f - E + i) (Nat.le_refl _) (by omega)
      obtain ⟨o2, h2, hv2⟩ := hsrc (f - E + i + 1) (by omega) (by omega)
      obtain ⟨s1, b1, b2, b3, b4, b5, b6, b7, b8, b9⟩ := eliteBody_spec f n i s o1 o2
        (by rw [hEs]; exact h1) (by rw [hEs]; exact h2) hv1 hv2 (by omega)
        (by rw [hEs]; omega)
      have hframe1 : ∀ k, k ≠ n + 2 * i → k ≠ n + 2 * i + 1 →
          s1.Chromosomes[k]? = s.Chromosomes[k]? := by
        intro k hk1 hk2
        rw [b2, List.getElem?_set_ne (Ne.symm hk2), List.getElem?_set_ne (Ne.symm hk1)]
      have hL1 : s1.Chromosomes.length = s.Chromosomes.length := by rw [b2]; simp
      obtain ⟨s', c1, c2, c3, c4, c5, c6, c7, c8, c9⟩ := ih (i + 2) s1 (by rw [b6]; exact hEs)
        (by omega) (by omega) (by rw [hL1]; exact hfL) (by rw [hL1]; exact hnL)
        (by
          intro k hk1 hk2
          obtain ⟨o, ho, hov⟩ := hsrc k (by omega) hk2
          exact ⟨o, by rw [hframe1 k (by omega) (by omega)]; exact ho, by rw [b3.1]; exact hov⟩)
      refine ⟨s', ?_, ?_, ?_, heapPromoted_trans b3 c4, c5.trans hL1, c6.trans b6, c7.trans b7,
        c8.trans b8, c9.trans b9⟩
      · simp only [eliteLoop, hEs, hiE, if_true, b1, Option.some_bind]
        exact c1
      · intro j hj1 hj2 hj3
        by_cases hji : j = i
        · subst hji
          have e1 : s'.Chromosomes[n + 2 * j]? = s1.Chromosomes[n + 2 * j]? :=
            c3 _ (Or.inl (by omega))
          have e2 : s'.Chromosomes[n + 2 * j + 1]? = s1.Chromosomes[n + 2 * j + 1]? :=
            c3 _ (Or.inl (by omega))
          have f1 : s1.Chromosomes[n + 2 * j]? = some (some o1) := by
            rw [b2, List.getElem?_set_ne (by omega), List.getElem?_set_self (by omega)]
          have f2 : s1.Chromosomes[n + 2 * j + 1]? = some (some o2) := by
            rw [b2, List.getElem?_set_self (by simp only [List.length_set]; omega)]
          exact ⟨by rw [e1, f1, h1], by rw [e2, f2, h2],
            eliteAt_of_promoted s1 s' _ _ b4 e1 c4, eliteAt_of_promoted s1 s' _ _ b5 e2 c4⟩
        · obtain ⟨d1, d2, d3, d4⟩ := c2 j (by omega) hj2 hj3
          exact ⟨by rw [d1, hframe1 _ (by omega) (by omega)],
            by rw [d2, hframe1 _ (by omega) (by omega)], d3, d4⟩
      · intro k hk
        rw [c3 k (by omega), hframe1 k (by omega) (by omega)]
    · exact ⟨s, by simp only [eliteLoop, hEs, hiE, if_false], fun j h1 h2 _ => by omega,
        fun _ _ => rfl, heapPromoted_refl _, rfl, rfl, rfl, rfl, rfl⟩

theorem nextOrigin_add_le {G : Type} (s : GeneticAlgorithm G) (hSG : s.StoredGenerations ≠ 0)
    (hlen : s.Chromosomes.length = s.StoredGenerations * s.Population) :
    s.nextOrigin + s.Population ≤ s.Chromosomes.length := by
  have h1 : (s.Generation + 1) % s.StoredGenerations + 1 ≤ s.StoredGenerations :=
    Nat.mod_lt _ (Nat.pos_of_ne_zero hSG)
  have h2 := Nat.mul_le_mul_right s.Population h1
  rw [hlen]
  simp only [nextOrigin]
  rw [Nat.add_mul, Nat.one_mul] at h2
  exact h2

theorem windows_disjoint {G : Type} (s : GeneticAlgorithm G) (hSG : 2 ≤ s.StoredGenerations) :
    s.nextOrigin + s.Population ≤ s.origin ∨ s.origin + s.Population ≤ s.nextOrigin := by
  have ha : s.Generation % s.StoredGenerations < s.StoredGenerations :=
    Nat.mod_lt _ (by omega)
  have hb : (s.Generation + 1) % s.StoredGenerations
      = (s.Generation % s.StoredGenerations + 1) % s.StoredGenerations := by
    rw [Nat.add_mod, Nat.mod_eq_of_lt (show 1 < s.StoredGenerations by omega)]
  simp only [nextOrigin, origin]
  by_cases h : s.Generation % s.StoredGenerations + 1 < s.StoredGenerations
  · right
    rw [hb, Nat.mod_eq_of_lt h, Nat.add_mul, Nat.one_mul]
  · left
    have h1 : s.Generation % s.StoredGenerations + 1 = s.StoredGenerations := by omega
    rw [hb, h1, Nat.mod_self, Nat.zero_mul, Nat.zero_add]
    have h2 : 1 ≤ s.Generation % s.StoredGenerations := by omega
    calc s.Population = 1 * s.Population := (Nat.one_mul _).symm
      _ ≤ s.Generation % s.StoredGenerations * s.Population := Nat.mul_le_mul_right _ h2

theorem window_slot_valid {G : Type} (s : GeneticAlgorithm G)
    (hle : s.origin + s.Population ≤ s.Chromosomes.length)
    (hvalid : ∀ w ∈ s.GetChromosomes, validSlot s.Heap w = true)
    (k : Nat) (hk1 : s.origin ≤ k) (hk2 : k < s.origin + s.Population) :
    ∃ o, s.Chromosomes[k]? = some (some o) ∧ o < s.Heap.length := by
  have hget : s.GetChromosomes[k - s.origin]? = s.Chromosomes[k]? := by
    simp only [GetChromosomes]
    rw [List.getElem?_take_of_lt (by omega), List.getElem?_drop]
    congr 1
    omega
  have hsome : s.Chromosomes[k]? = some s.Chromosomes[k] := List.getElem?_eq_getElem (by omega)
  have hmem : s.Chromosomes[k] ∈ s.GetChromosomes := List.getElem?_mem (hget.trans hsome)
  have hv := hvalid _ hmem
  cases hw : s.Chromosomes[k] with
  | none => rw [hw] at hv; simp [validSlot] at hv
  | some o =>
    rw [hw] at hv
    simp only [validSlot, decide_eq_true_eq] at hv
    exact ⟨o, by rw [hsome, hw], hv⟩

/-! ### Breeding cycles of a well-formed engine -/

theorem evolves_refl {G : Type} (s : GeneticAlgorithm G) (h : s.wellFormed) : s.evolves s :=
  ⟨h, rfl, rfl, rfl, rfl, rfl⟩

theorem evolves_trans {G : Type} {a b c : GeneticAlgorithm G} (h1 : a.evolves b)
    (h2 : b.evolves c) : a.evolves c :=
  ⟨h2.1, h2.2.1.trans h1.2.1, h2.2.2.1.trans h1.2.2.1, h2.2.2.2.1.trans h1.2.2.2.1,
    h2.2.2.2.2.1.trans h1.2.2.2.2.1, h2.2.2.2.2.2.trans h1.2.2.2.2.2⟩

theorem wellFormed_slot {G : Type} (s : GeneticAlgorithm G) (h : s.wellFormed) (k : Nat)
    (hk : k < s.Chromosomes.length) :
    ∃ o, s.Chromosomes[k]? = some (some o) ∧ o < s.Heap.length := by
  have hsome : s.Chromosomes[k]? = some s.Chromosomes[k] := List.getElem?_eq_getElem hk
  obtain ⟨o, ho, hlt⟩ := h.2.2.1 _ (List.getElem_mem hk)
  exact ⟨o, by rw [hsome, ho], hlt⟩

theorem wellFormed_deref {G : Type} (s : GeneticAlgorithm G) (h : s.wellFormed) (k : Nat)
    (hk : k < s.Chromosomes.length) :
    ∃ o c, s.Chromosomes[k]? = some (some o) ∧ s.Heap[o]? = some c ∧ s.deref k = some (o, c) := by
  obtain ⟨o, ho, hlt⟩ := wellFormed_slot s h k hk
  refine ⟨o, s.Heap[o], ho, List.getElem?_eq_getElem hlt, ?_⟩
  simp [deref, ho, List.getElem?_eq_getElem hlt]

theorem evolves_setObject {G : Type} (s : GeneticAlgorithm G) (h : s.wellFormed) (o : Nat)
    (c : Chromosome G) : s.evolves (s.setObject o c) := by
  refine ⟨⟨h.1, h.2.1, ?_, ?_⟩, rfl, rfl, rfl, rfl, ?_⟩
  · simp only [setObject, List.length_set]; exact h.2.2.1
  · simp only [setObject, List.length_set]; exact h.2.2.2
  · simp only [setObject, List.length_set]

theorem refreshOne_evolves {G : Type} (ops : Operators G) (s : GeneticAlgorithm G)
    (h : s.wellFormed) (k : Nat) (hk : k < s.Chromosomes.length) :
    ∃ s', refreshOne ops s k = some s' ∧ s.evolves s' ∧ s'.Chromosomes = s.Chromosomes := by
  obtain ⟨o, c, _, _, hd⟩ := wellFormed_deref s h k hk
  simp only [refreshOne, hd, Option.bind_eq_bind, Option.some_bind]
  exact ⟨_, rfl, evolves_setObject s h _ _, rfl⟩

theorem refreshLoop_evolves {G : Type} (ops : Operators G) :
    ∀ (n k : Nat) (s : GeneticAlgorithm G), s.wellFormed → k + n ≤ s.Chromosomes.length →
      ∃ s', refreshLoop ops n k s = some s' ∧ s.evolves s' ∧
        s'.Chromosomes = s.Chromosomes := by
  intro n
  induction n with
  | zero => intro k s h _; exact ⟨s, rfl, evolves_refl s h, rfl⟩
  | succ n ih =>
    intro k s h hk
    obtain ⟨s1, h1, h2, h3⟩ := refreshOne_evolves ops s h k (by omega)
    obtain ⟨s2, g1, g2, g3⟩ := ih (k + 1) s1 h2.1 (by rw [h3]; omega)
    exact ⟨s2, by simp only [refreshLoop, h1, Option.some_bind]; exact g1,
      evolves_trans h2 g2, g3.trans h3⟩

theorem sortRange_evolves {G : Type} (s : GeneticAlgorithm G) (h : s.wellFormed) (first : Nat)
    (hle : first + s.Population ≤ s.Chromosomes.length) :
    ∃ s', s.sortRange first = some s' ∧ s.evolves s' ∧
      (((s'.Chromosomes.drop first).take s'.Population).map (rank s'.Heap)).Sorted (· ≤ ·) := by
  have hsub : ∀ w ∈ (s.Chromosomes.drop first).take s.Population, w ∈ s.Chromosomes :=
    fun w hw => List.mem_of_mem_drop (List.mem_of_mem_take hw)
  have hv : ∀ w ∈ (s.Chromosomes.drop first).take s.Population, validSlot s.Heap w = true := by
    intro w hw
    obtain ⟨o, ho, hlt⟩ := h.2.2.1 w (hsub w hw)
    rw [ho]
    simp only [validSlot, decide_eq_true_eq]
    exact hlt
  obtain ⟨l', h1, h2, h3⟩ := sortRange_spec s first hle hv
  have hl : l'.length = s.Population := by
    rw [List.Perm.length_eq h1, List.length_take, List.length_drop]
    omega
  refine ⟨_, h3, ⟨⟨h.1, ?_, ?_, h.2.2.2⟩, rfl, rfl, rfl, rfl, rfl⟩, ?_⟩
  · simp only
    rw [splice_length _ _ _ _ hl hle]
    exact h.2.1
  · intro w hw
    simp only [List.mem_append] at hw
    rcases hw with (hw | hw) | hw
    · exact h.2.2.1 w (List.mem_of_mem_take hw)
    · exact h.2.2.1 w (hsub w (h1.mem_iff.mp hw))
    · exact h.2.2.1 w (List.mem_of_mem_drop hw)
  · simp only
    rw [splice_window _ _ _ _ hl hle]
    exact h2

theorem evolves_length {G : Type} {s s' : GeneticAlgorithm G} (h : s.wellFormed)
    (h' : s.evolves s') : s'.Chromosomes.length = s.Chromosomes.length := by
  rw [h'.1.2.1, h.2.1, h'.2.2.2.1, h'.2.1]

theorem setSlot_evolves {G : Type} (s : GeneticAlgorithm G) (h : s.wellFormed) (k : Nat)
    (w : Option Nat) (hk : k < s.Chromosomes.length) (hw : livePtr s.Heap.length w) :
    ∃ s', s.setSlot k w = some s' ∧ s.evolves s' ∧ s'.Chromosomes[k]? = some w ∧
      s'.OperationsQueue = s.OperationsQueue := by
  refine ⟨_, setSlot_of_lt s k w hk, ⟨⟨h.1, ?_, ?_, h.2.2.2⟩, rfl, rfl, rfl, rfl, rfl⟩,
    List.getElem?_set_self hk, rfl⟩
  · simp only [List.length_set]; exact h.2.1
  · intro x hx
    rcases List.mem_or_eq_of_mem_set hx with hx | hx
    · exact h.2.2.1 x hx
    · rw [hx]; exact hw

theorem setElite_evolves {G : Type} (s : GeneticAlgorithm G) (h : s.wellFormed) (k : Nat)
    (hk : k < s.Chromosomes.length) :
    ∃ s', s.setElite k = some s' ∧ s.evolves s' ∧ s'.Chromosomes = s.Chromosomes ∧
      s'.OperationsQueue = s.OperationsQueue := by
  obtain ⟨o, c, _, _, hd⟩ := wellFormed_deref s h k hk
  simp only [setElite, hd, Option.bind_eq_bind, Option.some_bind]
  exact ⟨_, rfl, evolves_setObject s h _ _, rfl, rfl⟩

theorem push_evolves {G : Type} (s : GeneticAlgorithm G) (h : s.wellFormed) (op : Operation)
    (hop : op.live s.Heap.length) : s.evolves (s.push op) := by
  refine ⟨⟨h.1, h.2.1, h.2.2.1, ?_⟩, rfl, rfl, rfl, rfl, rfl⟩
  intro x hx
  simp only [push, List.mem_append, List.mem_singleton] at hx
  rcases hx with hx | hx
  · exact h.2.2.2 x hx
  · rw [hx]; exact hop

theorem eliteBody_evolves {G : Type} (f n i : Nat) (s : GeneticAlgorithm G) (h : s.wellFormed)
    (hsrc : f - s.SharedData.Elite + i + 1 < s.Chromosomes.length)
    (hb : n + 2 * i + 3 < s.Chromosomes.length) :
    ∃ s', eliteBody f n i s = some s' ∧ s.evolves s' := by
  obtain ⟨o1, ha, hv1⟩ := wellFormed_slot s h (f - s.SharedData.Elite + i) (by omega)
  obtain ⟨s1, e1, w1, _, _⟩ := setSlot_evolves s h (n + 2 * i) (some o1) (by omega)
    ⟨o1, rfl, hv1⟩
  have L1 := evolves_length h w1
  obtain ⟨o2, hb2, hv2⟩ := wellFormed_slot s1 w1.1 (f - s.SharedData.Elite + i + 1)
    (by omega)
  obtain ⟨s2, e2, w2, _, _⟩ := setSlot_evolves s1 w1.1 (n + 2 * i + 1) (some o2) (by omega)
    ⟨o2, rfl, hv2⟩
  have L2 := evolves_length w1.1 w2
  obtain ⟨s3, e3, w3, c3, _⟩ := setElite_evolves s2 w2.1 (n + 2 * i) (by omega)
  have L3 := evolves_length w2.1 w3
  obtain ⟨s4, e4, w4, c4, _⟩ := setElite_evolves s3 w3.1 (n + 2 * i + 1) (by omega)
  have L4 := evolves_length w3.1 w4
  obtain ⟨q1, hq1, hl1⟩ := wellFormed_slot s4 w4.1 (n + 2 * i) (by omega)
  obtain ⟨q2, hq2, hl2⟩ := wellFormed_slot s4 w4.1 (n + 2 * i + 1) (by omega)
  obtain ⟨q3, hq3, hl3⟩ := wellFormed_slot s4 w4.1 (n + 2 * i + 2) (by omega)
  obtain ⟨q4, hq4, hl4⟩ := wellFormed_slot s4 w4.1 (n + 2 * i + 3) (by omega)
  refine ⟨s4.push (Operation.Crossover (some q1) (some q2) (some q3) (some q4)), ?_,
    evolves_trans (evolves_trans (evolves_trans (evolves_trans w1 w2) w3) w4)
      (push_evolves s4 w4.1 _ ⟨⟨q1, rfl, hl1⟩, ⟨q2, rfl, hl2⟩, ⟨q3, rfl, hl3⟩, ⟨q4, rfl, hl4⟩⟩)⟩
  simp only [eliteBody, eliteIndices, ha, e1, hb2, e2, e3, e4, hq1, hq2, hq3, hq4,
    Option.bind_eq_bind, Option.some_bind]

theorem eliteLoop_evolves {G : Type} (f n : Nat) :
    ∀ (fuel i : Nat) (s : GeneticAlgorithm G), s.wellFormed → s.SharedData.Elite % 2 = 0 →
      i % 2 = 0 → s.SharedData.Elite ≤ f → f ≤ s.Chromosomes.length →
      n + 2 * s.SharedData.Elite ≤ s.Chromosomes.length →
      ∃ s', eliteLoop f n fuel i s = some s' ∧ s.evolves s' := by
  intro fuel
  induction fuel with
  | zero => intro i s h _ _ _ _ _; exact ⟨s, rfl, evolves_refl s h⟩
  | succ fuel ih =>
    intro i s h hE hi hEf hfL hnL
    by_cases hiE : i < s.SharedData.Elite
    · obtain ⟨s1, h1, h2⟩ := eliteBody_evolves f n i s h (by omega) (by omega)
      have L1 := evolves_length h h2
      have hS : s1.SharedData = s.SharedData := h2.2.2.2.2.1
      obtain ⟨s2, g1, g2⟩ := ih (i + 2) s1 h2.1 (by rw [hS]; exact hE) (by omega)
        (by rw [hS]; exact hEf) (by omega) (by rw [hS]; omega)
      exact ⟨s2, by simp only [eliteLoop, hiE, if_true, h1, Option.some_bind]; exact g1,
        evolves_trans h2 g2⟩
    · exact ⟨s, by simp only [eliteLoop, hiE, if_false], evolves_refl s h⟩

theorem weights_defined {G : Type} (s : GeneticAlgorithm G) (h : s.wellFormed) :
    ∀ (n k : Nat), k + n ≤ s.Chromosomes.length →
      ∃ ws, s.weights n k = some ws ∧ ws.length = n := by
  intro n
  induction n with
  | zero => intro k _; exact ⟨[], rfl, rfl⟩
  | succ n ih =>
    intro k hk
    obtain ⟨o, c, _, _, hd⟩ := wellFormed_deref s h k (by omega)
    obtain ⟨ws, h1, h2⟩ := ih (k + 1) (by omega)
    simp only [weights, weight, hd, h1, Option.bind_eq_bind, Option.some_bind]
    exact ⟨_, rfl, by simp only [List.length_cons, h2]⟩

theorem runningSum_length : ∀ (ws : List ℚ) (acc : ℚ), (runningSum acc ws).length = ws.length := by
  intro ws
  induction ws with
  | nil => intro acc; rfl
  | cons a as ih => intro acc; simp only [runningSum, List.length_cons, ih]

theorem scan_bound (random : ℚ) :
    ∀ (l : List Dbl) (i j : Nat), scan random l i = some j → i ≤ j ∧ j < i + l.length := by
  intro l
  induction l with
  | nil => intro i j h; simp [scan] at h
  | cons d ds ih =>
    intro i j h
    simp only [scan] at h
    by_cases hd : d.exceeds random = true
    · simp only [hd, if_true, Option.some.injEq] at h
      simp only [List.length_cons]
      omega
    · simp only [hd, Bool.false_eq_true, if_false] at h
      have := ih (i + 1) j h
      simp only [List.length_cons]
      omega

theorem evolves_draw {G : Type} (rnd : Nat → ℚ) (s : GeneticAlgorithm G) (h : s.wellFormed) :
    s.evolves (s.RandomDouble rnd).2 :=
  ⟨⟨h.1, h.2.1, h.2.2.1, h.2.2.2⟩, rfl, rfl, rfl, rfl, rfl⟩

theorem WeightedSelection_evolves {G : Type} (rnd : Nat → ℚ) (s : GeneticAlgorithm G)
    (h : s.wellFormed) :
    ∃ r, WeightedSelection rnd s = some r ∧ s.evolves r.2 ∧
      r.2.Chromosomes = s.Chromosomes ∧ r.2.OperationsQueue = s.OperationsQueue ∧
      ∀ k, r.1 = some k → k < s.Chromosomes.length := by
  have hle := origin_add_le s h.1 h.2.1
  obtain ⟨ws, hws, hwl⟩ := weights_defined s h s.Population s.origin hle
  have hfs := fitnessSum_eq s ws hws
  have hlen : (normalise (runningSum 0 ws)).tail.length = s.Population - 1 := by
    simp only [List.length_tail, normalise, List.length_map, runningSum_length, hwl]
  cases hsc : scan (rnd s.Draws) (normalise (runningSum 0 ws)).tail 1 with
  | none =>
    refine ⟨(none, (s.RandomDouble rnd).2), ?_, evolves_draw rnd s h, rfl, rfl, ?_⟩
    · simp only [WeightedSelection, h.1, if_false, hfs, RandomDouble, Option.bind_eq_bind,
        Option.some_bind, hsc]
    · intro k hk; exact Option.noConfusion hk
  | some j =>
    have hj := scan_bound _ _ _ _ hsc
    rw [hlen] at hj
    have hw := evolves_draw rnd s h
    obtain ⟨o, c, _, _, hd⟩ := wellFormed_deref (s.RandomDouble rnd).2 hw.1 (s.origin + j - 1)
      (by simp only [RandomDouble]; omega)
    refine ⟨(some (s.origin + j - 1), (s.RandomDouble rnd).2.setObject o
        { c with LocalData := { c.LocalData with Chosen := true } }), ?_,
      evolves_trans hw (evolves_setObject _ hw.1 _ _), rfl, rfl, ?_⟩
    · simp only [RandomDouble] at hd
      simp only [WeightedSelection, h.1, if_false, hfs, RandomDouble, Option.bind_eq_bind,
        Option.some_bind, hsc, hd]
    · intro k hk
      cases hk
      omega

theorem maybeMutation_evolves {G : Type} (rnd : Nat → ℚ) (s : GeneticAlgorithm G)
    (h : s.wellFormed) (k : Nat) (hk : k < s.Chromosomes.length) :
    ∃ s', maybeMutation rnd s k = some s' ∧ s.evolves s' ∧ s'.Chromosomes = s.Chromosomes := by
  have hw := evolves_draw rnd s h
  by_cases hr : (s.RandomDouble rnd).1 < (s.RandomDouble rnd).2.SharedData.MutationRate
  · obtain ⟨o, ho, hlt⟩ := wellFormed_slot (s.RandomDouble rnd).2 hw.1 k hk
    refine ⟨(s.RandomDouble rnd).2.push (Operation.Mutation (some o)), ?_,
      evolves_trans hw (push_evolves _ hw.1 _ ⟨o, rfl, hlt⟩), rfl⟩
    simp only [maybeMutation, hr, if_true, ho, Option.map_some']
  · exact ⟨(s.RandomDouble rnd).2, by simp only [maybeMutation, hr, if_false], hw, rfl⟩

theorem fillBody_evolves {G : Type} (rnd : Nat → ℚ) (v : FillVars) (s : GeneticAlgorithm G)
    (h : s.wellFormed) (hc : v.nextOrigin < s.Chromosomes.length)
    (hc2 : v.i + 2 < s.Population - 2 * s.SharedData.Elite →
      v.nextOrigin + 2 < s.Chromosomes.length)
    (hp : ∀ p, v.parent = some p → p < s.Chromosomes.length) :
    ∃ r, fillBody rnd v s = some r ∧ s.evolves r.2 ∧ v.i < r.1.i ∧
      r.1.nextOrigin + v.i ≤ v.nextOrigin + r.1.i ∧
      ∀ p, r.1.parent = some p → p < s.Chromosomes.length := by
  obtain ⟨⟨sel1, sel2⟩, hsel, w0, _, _, hk⟩ := WeightedSelection_evolves rnd s h
  have L0 := evolves_length h w0
  cases sel1 with
  | none =>
    refine ⟨({ v with i := v.i + 1 }, sel2), ?_, w0, Nat.lt_succ_self _, ?_, hp⟩
    · simp only [fillBody, hsel, Option.bind_eq_bind, Option.some_bind]
    · simp only; omega
  | some chosen =>
    have hch : chosen < s.Chromosomes.length := hk chosen rfl
    simp only at w0 L0
    obtain ⟨o, ho, hlt⟩ := wellFormed_slot sel2 w0.1 chosen (by omega)
    obtain ⟨s1, e1, w1, _, _⟩ := setSlot_evolves sel2 w0.1 v.nextOrigin (some o) (by omega)
      ⟨o, rfl, hlt⟩
    have L1 := evolves_length w0.1 w1
    obtain ⟨s2, e2, w2, _⟩ := maybeMutation_evolves rnd s1 w1.1 v.nextOrigin (by omega)
    have L2 := evolves_length w1.1 w2
    have w3 := evolves_draw rnd s2 w2.1
    have L3 := evolves_length w2.1 w3
    have wall := evolves_trans (evolves_trans (evolves_trans w0 w1) w2) w3
    have hPop : (s2.RandomDouble rnd).2.Population = s.Population := wall.2.1
    have hSh : (s2.RandomDouble rnd).2.SharedData = s.SharedData := wall.2.2.2.2.1
    by_cases hcond : (s2.RandomDouble rnd).1 < (s2.RandomDouble rnd).2.SharedData.ParentRate ∧
        v.i + 2 < (s2.RandomDouble rnd).2.Population
          - 2 * (s2.RandomDouble rnd).2.SharedData.Elite
    · have hroom := hc2 (by rw [← hPop, ← hSh]; exact hcond.2)
      cases hpar : v.parent with
      | none =>
        refine ⟨({ i := v.i + 1, nextOrigin := v.nextOrigin + 1, parent := some chosen },
          (s2.RandomDouble rnd).2), ?_, wall, Nat.lt_succ_self _, ?_, ?_⟩
        · simp only [fillBody, hsel, Option.bind_eq_bind, Option.some_bind, ho, e1, e2, hcond,
            and_self, if_true, hpar]
        · simp only; omega
        · intro p hp'
          cases hp'
          exact hch
      | some parent =>
        have hparent := hp parent hpar
        obtain ⟨q1, hq1, hl1⟩ := wellFormed_slot _ w3.1 parent (by omega)
        obtain ⟨q2, hq2, hl2⟩ := wellFormed_slot _ w3.1 chosen (by omega)
        obtain ⟨q3, hq3, hl3⟩ := wellFormed_slot _ w3.1 (v.nextOrigin + 1) (by omega)
        obtain ⟨q4, hq4, hl4⟩ := wellFormed_slot _ w3.1 (v.nextOrigin + 2) (by omega)
        have w4 := push_evolves _ w3.1
          (Operation.Crossover (some q1) (some q2) (some q3) (some q4))
          ⟨⟨q1, rfl, hl1⟩, ⟨q2, rfl, hl2⟩, ⟨q3, rfl, hl3⟩, ⟨q4, rfl, hl4⟩⟩
        have L4 := evolves_length w3.1 w4
        obtain ⟨s5, e5, w5, _⟩ := maybeMutation_evolves rnd _ w4.1 (v.nextOrigin + 1) (by omega)
        have L5 := evolves_length w4.1 w5
        obtain ⟨s6, e6, w6, _⟩ := maybeMutation_evolves rnd s5 w5.1 (v.nextOrigin + 2) (by omega)
        refine ⟨({ i := v.i + 3, nextOrigin := v.nextOrigin + 3, parent := none }, s6), ?_,
          evolves_trans (evolves_trans (evolves_trans wall w4) w5) w6, by simp only; omega,
          ?_, ?_⟩
        · simp only [fillBody, hsel, Option.bind_eq_bind, Option.some_bind, ho, e1, e2, hcond,
            and_self, if_true, hpar, hq1, hq2, hq3, hq4, e5, e6]
        · simp only; omega
        · intro p hp'
          exact Option.noConfusion hp'
    · refine ⟨({ v with i := v.i + 1, nextOrigin := v.nextOrigin + 1 },
        (s2.RandomDouble rnd).2), ?_, wall, Nat.lt_succ_self _, ?_, hp⟩
      · simp only [fillBody, hsel, Option.bind_eq_bind, Option.some_bind, ho, e1, e2, hcond,
          if_false]
      · simp only; omega

theorem fillLoop_evolves {G : Type} (rnd : Nat → ℚ) (c0 : Nat) :
    ∀ (fuel : Nat) (v : FillVars) (s : GeneticAlgorithm G), s.wellFormed →
      v.nextOrigin ≤ c0 + v.i →
      c0 + (s.Population - 2 * s.SharedData.Elite) ≤ s.Chromosomes.length →
      (∀ p, v.parent = some p → p < s.Chromosomes.length) →
      ∃ r, fillLoop rnd fuel v s = some r ∧ s.evolves r.2 := by
  intro fuel
  induction fuel with
  | zero => intro v s h _ _ _; exact ⟨(v, s), rfl, evolves_refl s h⟩
  | succ fuel ih =>
    intro v s h hv hc0 hp
    by_cases hi : v.i < s.Population - 2 * s.SharedData.Elite
    · obtain ⟨r, h1, h2, h3, h4, h5⟩ := fillBody_evolves rnd v s h (by omega)
        (fun _ => by omega) hp
      have L := evolves_length h h2
      obtain ⟨r', g1, g2⟩ := ih r.1 r.2 h2.1 (by omega)
        (by rw [L, h2.2.1, h2.2.2.2.2.1]; exact hc0) (by rw [L]; exact h5)
      exact ⟨r', by simp only [fillLoop, hi, if_true, h1, Option.some_bind]; exact g1,
        evolves_trans h2 g2⟩
    · exact ⟨(v, s), by simp only [fillLoop, hi, if_false], evolves_refl s h⟩

theorem execute_evolves {G : Type} (ops : Operators G) (s : GeneticAlgorithm G)
    (h : s.wellFormed) (op : Operation) (hop : op.live s.Heap.length) :
    ∃ s', execute ops s op = some s' ∧ s.evolves s' ∧ s'.Chromosomes = s.Chromosomes ∧
      s'.OperationsQueue = s.OperationsQueue := by
  cases op with
  | Mutation self =>
    obtain ⟨o, rfl, hlt⟩ := hop
    simp only [execute, Option.bind_eq_bind, Option.some_bind, List.getElem?_eq_getElem hlt]
    exact ⟨_, rfl, evolves_setObject s h _ _, rfl, rfl⟩
  | Crossover self p c1 c2 =>
    obtain ⟨⟨o, rfl, hlt⟩, ⟨po, rfl, hlp⟩, ⟨o1, rfl, hl1⟩, ⟨o2, rfl, hl2⟩⟩ := hop
    simp only [execute, Option.bind_eq_bind, Option.some_bind, List.getElem?_eq_getElem hlt,
      List.getElem?_eq_getElem hlp, List.getElem?_eq_getElem hl1, List.getElem?_eq_getElem hl2]
    have w1 := evolves_setObject s h o1
      (ops.Crossover s.Heap[o] s.Heap[po] s.Heap[o1] s.Heap[o2]).1
    exact ⟨_, rfl, evolves_trans w1 (evolves_setObject _ w1.1 _ _), rfl, rfl⟩

theorem runQueue_evolves {G : Type} (ops : Operators G) :
    ∀ (q : List Operation) (s : GeneticAlgorithm G), s.wellFormed →
      (∀ op ∈ q, op.live s.Heap.length) →
      ∃ s', runQueue ops q s = some s' ∧ s.evolves s' ∧ s'.Chromosomes = s.Chromosomes ∧
        (q ≠ [] → s'.OperationsQueue = []) := by
  intro q
  induction q with
  | nil => intro s h _; exact ⟨s, rfl, evolves_refl s h, rfl, fun hn => absurd rfl hn⟩
  | cons op rest ih =>
    intro s h hq
    obtain ⟨s1, e1, w1, c1, _⟩ := execute_evolves ops s h op (hq op (List.mem_cons_self op rest))
    have hrest : ∀ x ∈ rest, x.live s1.Heap.length := by
      intro x hx
      rw [w1.2.2.2.2.2]
      exact hq x (List.mem_cons_of_mem op hx)
    have w2 : s1.evolves { s1 with OperationsQueue := rest } :=
      ⟨⟨w1.1.1, w1.1.2.1, w1.1.2.2.1, hrest⟩, rfl, rfl, rfl, rfl, rfl⟩
    obtain ⟨s2, e2, w3, c3, hq3⟩ := ih { s1 with OperationsQueue := rest } w2.1 hrest
    refine ⟨s2, ?_, evolves_trans (evolves_trans w1 w2) w3, c3.trans c1, fun _ => ?_⟩
    · simp only [runQueue, e1, Option.some_bind]
      exact e2
    · cases rest with
      | nil =>
        simp only [runQueue, Option.some.injEq] at e2
        rw [← e2]
      | cons a as => exact hq3 (List.cons_ne_nil a as)

theorem ProcessQueue_evolves {G : Type} (ops : Operators G) (s : GeneticAlgorithm G)
    (h : s.wellFormed) :
    ∃ s', ProcessQueue ops s = some s' ∧ s.evolves s' ∧ s'.Chromosomes = s.Chromosomes ∧
      s'.OperationsQueue = [] := by
  obtain ⟨s', h1, h2, h3, h4⟩ := runQueue_evolves ops s.OperationsQueue s h h.2.2.2
  refine ⟨s', h1, h2, h3, ?_⟩
  cases hq : s.OperationsQueue with
  | nil =>
    rw [hq] at h1
    simp only [runQueue, Option.some.injEq] at h1
    rw [← h1, hq]
  | cons a as => exact h4 (by rw [hq]; exact List.cons_ne_nil a as)

theorem origin_eq_of_evolves {G : Type} {s s' : GeneticAlgorithm G} (h : s.evolves s') :
    s'.origin = s.origin ∧ s'.nextOrigin = s.nextOrigin := by
  simp only [origin, nextOrigin, h.2.1, h.2.2.1, h.2.2.2.1, and_self]

theorem breedEnqueue_evolves {G : Type} (ops : Operators G) (rnd : Nat → ℚ)
    (s : GeneticAlgorithm G) (h : s.wellFormed) (hE : s.SharedData.Elite % 2 = 0)
    (hP : 2 * s.SharedData.Elite ≤ s.Population) :
    ∃ s', breedEnqueue ops rnd s = some s' ∧ s.evolves s' := by
  have hle := origin_add_le s h.1 h.2.1
  obtain ⟨s1, e1, w1, _⟩ := refreshLoop_evolves ops s.Population s.origin s h hle
  have L1 := evolves_length h w1
  obtain ⟨s2, e2, w2, _⟩ := sortRange_evolves s1 w1.1 s.origin (by rw [L1, w1.2.1]; exact hle)
  have w12 := evolves_trans w1 w2
  have L2 := evolves_length h w12
  have ho2 := origin_eq_of_evolves w12
  have hnle := nextOrigin_add_le s h.1 h.2.1
  obtain ⟨s3, e3, w3⟩ := eliteLoop_evolves (s2.origin + s2.Population) s2.nextOrigin
    s2.SharedData.Elite 0 s2 w2.1 (by rw [w12.2.2.2.2.1]; exact hE) rfl
    (by rw [w12.2.2.2.2.1, w12.2.1]; omega)
    (by rw [ho2.1, w12.2.1, L2]; exact hle)
    (by rw [ho2.2, w12.2.2.2.2.1, L2]; omega)
  have w123 := evolves_trans w12 w3
  have L3 := evolves_length h w123
  have ho3 := origin_eq_of_evolves w123
  obtain ⟨r, e4, w4⟩ := fillLoop_evolves rnd (s3.nextOrigin + 2 * s3.SharedData.Elite)
    (s3.Population - 2 * s3.SharedData.Elite)
    { i := 0, nextOrigin := s3.nextOrigin + 2 * s3.SharedData.Elite, parent := none } s3 w3.1
    (Nat.le_refl _)
    (by rw [ho3.2, w123.2.2.2.2.1, w123.2.1, L3]; omega)
    (fun p hp => Option.noConfusion hp)
  refine ⟨r.2, ?_, evolves_trans w123 w4⟩
  simp only [breedEnqueue, h.1, if_false, refreshPhase, e1, Option.some_bind, e2, elitePhase, e3,
    fillPhase, e4, Option.map_some']

theorem BreedPopulation_evolves {G : Type} (ops : Operators G) (rnd : Nat → ℚ)
    (s : GeneticAlgorithm G) (h : s.wellFormed) (hE : s.SharedData.Elite % 2 = 0)
    (hP : 2 * s.SharedData.Elite ≤ s.Population) :
    ∃ s', BreedPopulation ops rnd s = some s' ∧ s.evolves s' ∧ s'.OperationsQueue = [] := by
  obtain ⟨s1, e1, w1⟩ := breedEnqueue_evolves ops rnd s h hE hP
  obtain ⟨s2, e2, w2, _, hq⟩ := ProcessQueue_evolves ops s1 w1.1
  exact ⟨s2, by simp only [BreedPopulation, e1, Option.some_bind, e2], evolves_trans w1 w2, hq⟩

theorem breedTimes_evolves {G : Type} (ops : Operators G) (rnd : Nat → ℚ) :
    ∀ (N : Nat) (s : GeneticAlgorithm G), s.wellFormed → s.SharedData.Elite % 2 = 0 →
      2 * s.SharedData.Elite ≤ s.Population →
      ∃ s', breedTimes ops rnd N s = some s' ∧ s.evolves s' := by
  intro N
  induction N with
  | zero => intro s h _ _; exact ⟨s, rfl, evolves_refl s h⟩
  | succ N ih =>
    intro s h hE hP
    obtain ⟨s1, e1, w1, _⟩ := BreedPopulation_evolves ops rnd s h hE hP
    obtain ⟨s2, e2, w2⟩ := ih s1 w1.1 (by rw [w1.2.2.2.2.1]; exact hE)
      (by rw [w1.2.2.2.2.1, w1.2.1]; exact hP)
    exact ⟨s2, by simp only [breedTimes, e1, Option.some_bind, e2], evolves_trans w1 w2⟩

/-- For an even elite count with `2 * Elite ≤ Population`, `Simulate(N)` on a well-formed
engine returns a well-formed engine with the same configuration whose current window is
sorted ascending by stored fitness value. -/
theorem Simulate_sorted_of_even {G : Type} (ops : Operators G) (rnd : Nat → ℚ) (N : Nat)
    (s : GeneticAlgorithm G) (h : s.wellFormed) (hE : s.SharedData.Elite % 2 = 0)
    (hP : 2 * s.SharedData.Elite ≤ s.Population) :
    ∃ s', Simulate ops rnd N s = some s' ∧ s.evolves s' ∧
      (s'.GetChromosomes.map (rank s'.Heap)).Sorted (· ≤ ·) := by
  obtain ⟨s1, e1, w1⟩ := breedTimes_evolves ops rnd N s h hE hP
  obtain ⟨s2, e2, w2, hs⟩ := sortRange_evolves s1 w1.1 s1.origin
    (origin_add_le s1 w1.1.1 w1.1.2.1)
  refine ⟨s2, ?_, evolves_trans w1 w2, ?_⟩
  · simp only [Simulate, e1, Option.some_bind, w1.1.1, if_false, e2]
  · simp only [GetChromosomes, (origin_eq_of_evolves w2).1]
    exact hs

/-- For an even elite count `E` with `2E ≤ P`, every pass `i = 0, 2, … < E` of the elitism
loop reads its sources inside the current window `[origin, origin + P)` and uses targets
and children inside the next window `[nextOrigin, nextOrigin + P)`. -/
theorem eliteIndices_in_range_of_even (origin nextOrigin P E i : Nat) (hE : E % 2 = 0)
    (hP : 2 * E ≤ P) (hi : i < E) (hi2 : i % 2 = 0) :
    origin ≤ (eliteIndices (origin + P) nextOrigin E i).source1 ∧
    (eliteIndices (origin + P) nextOrigin E i).source2 < origin + P ∧
    nextOrigin ≤ (eliteIndices (origin + P) nextOrigin E i).target1 ∧
    (eliteIndices (origin + P) nextOrigin E i).target2 < nextOrigin + P ∧
    (eliteIndices (origin + P) nextOrigin E i).child2 < nextOrigin + P := by
  simp only [eliteIndices]
  omega

/-! ### The wrapper operators -/

/-- C14: for an empty slot `e` and any slot `w`, `e < w` is false, `e == w` is false and
`e != w` is true.  For two slots holding the live objects `ca` and `cb`, `a < b` holds
exactly when the fitness value of `ca` is less than that of `cb`, `a == b` exactly when
their local data are equal and `a != b` exactly when they differ. -/
theorem C14_wrapper_comparisons {G : Type} [DecidableEq G] (heap : List (Chromosome G)) :
    (∀ w : Option Nat,
      Wrapper.lt heap none w = some false ∧ Wrapper.eq heap none w = some false ∧
      Wrapper.ne heap none w = some true) ∧
    (∀ (i j : Nat) (ca cb : Chromosome G), heap[i]? = some ca → heap[j]? = some cb →
      (Wrapper.lt heap (some i) (some j) = some true ↔ ca.FitnessValue < cb.FitnessValue) ∧
      (Wrapper.lt heap (some i) (some j) = some false ↔ ¬ ca.FitnessValue < cb.FitnessValue) ∧
      (Wrapper.eq heap (some i) (some j) = some true ↔ ca.LocalData = cb.LocalData) ∧
      (Wrapper.eq heap (some i) (some j) = some false ↔ ca.LocalData ≠ cb.LocalData) ∧
      (Wrapper.ne heap (some i) (some j) = some true ↔ ca.LocalData ≠ cb.LocalData) ∧
      (Wrapper.ne heap (some i) (some j) = some false ↔ ca.LocalData = cb.LocalData)) := by
  refine ⟨fun w => ⟨rfl, rfl, rfl⟩, fun i j ca cb hi hj => ?_⟩
  simp [Wrapper.lt, Wrapper.eq, Wrapper.ne, hi, hj, Chromosome.lt, Chromosome.eq, Chromosome.ne]

/-- C14 (witness): the two flagged individuals of the example window. -/
theorem C14_wrapper_comparisons_witness :
    flaggedEngine.Heap[1]? = some (individual true false 2 2) ∧
    flaggedEngine.Heap[2]? = some (individual false true 3 3) ∧
    (Wrapper.lt flaggedEngine.Heap (some 1) (some 2) = some true ↔
      (individual true false 2 2).FitnessValue < (individual false true 3 3).FitnessValue) :=
  ⟨by decide, by decide,
    ((C14_wrapper_comparisons flaggedEngine.Heap).2 1 2 _ _ (by decide) (by decide)).1⟩

/-- C13 (counterexample): the copy assignment of the first elitism pass stores object 4
in slot 8, which held object 8, and deletes nothing: the previous occupant of the slot is
not released. -/
theorem C13_copy_releases_nothing :
    fourEliteEngine.Chromosomes[8]? = some (some 8) ∧ fourEliteEngine.Deleted = [] ∧
    (fourEliteEngine.setSlot 8 (some 4)).map (fun s => (s.Chromosomes[8]?, s.Deleted))
      = some (some (some 4), []) ∧
    Wrapper.assign (some 8) (some 4) [] = (some 4, []) ∧
    (eliteBody (fourEliteEngine.origin + fourEliteEngine.Population) fourEliteEngine.nextOrigin 0
        fourEliteEngine).map (fun s => (s.Chromosomes[8]?, s.Deleted))
      = some (some (some 4), []) := by
  decide!

/-- C13 (amended): an assignment of a newly created instance (a raw pointer) to a slot
deletes the previous occupant exactly once, nothing if the slot was empty, and leaves the
slot holding the new instance; after two such assignments `p` then `q` to a slot that held
`o`, the deletions made are exactly `o` then `p`, and the slot holds `q`.  An assignment by
copying another slot deletes nothing and leaves the slot holding the copied pointer.
`Initialize` assigns by raw pointer, the slot assignments of `BreedPopulation` by copy. -/
theorem C13_assignment :
    (∀ (w : Option Nat) (deleted : List Nat),
      Wrapper.assignPtr none w deleted = (w, deleted)) ∧
    (∀ (o : Nat) (w : Option Nat) (deleted : List Nat),
      Wrapper.assignPtr (some o) w deleted = (w, deleted ++ [o])) ∧
    (∀ (o p q : Nat) (deleted : List Nat),
      Wrapper.assignPtr (Wrapper.assignPtr (some o) (some p) deleted).1 (some q)
          (Wrapper.assignPtr (some o) (some p) deleted).2
        = (some q, deleted ++ [o, p])) ∧
    (∀ (o p : Nat) (deleted : List Nat), o ≠ p →
      (deleted ++ [o, p]).count o = deleted.count o + 1 ∧
      (deleted ++ [o, p]).count p = deleted.count p + 1) ∧
    (∀ (old w : Option Nat) (deleted : List Nat), Wrapper.assign old w deleted = (w, deleted)) ∧
    (∀ {G : Type} [Inhabited G] (s s' : GeneticAlgorithm G) (k : Nat) (Local : BasicLocalData G),
      initSlot s k Local = some s' →
      ∃ old, s.Chromosomes[k]? = some old ∧
        (s'.Chromosomes[k]?, s'.Deleted)
          = (some (Wrapper.assignPtr old (some s.Heap.length) s.Deleted).1,
              (Wrapper.assignPtr old (some s.Heap.length) s.Deleted).2)) ∧
    (∀ {G : Type} (s s' : GeneticAlgorithm G) (k : Nat) (w : Option Nat),
      s.setSlot k w = some s' →
      ∃ old, s.Chromosomes[k]? = some old ∧
        (s'.Chromosomes[k]?, s'.Deleted)
          = (some (Wrapper.assign old w s.Deleted).1, (Wrapper.assign old w s.Deleted).2)) := by
  refine ⟨fun _ _ => rfl, fun _ _ _ => rfl, ?_, ?_, fun _ _ _ => rfl, ?_, ?_⟩
  · intro o p q deleted
    simp [Wrapper.assignPtr]
  · intro o p deleted hop
    simp [List.count_append, List.count_cons, hop, Ne.symm hop]
  · intro G _ s s' k Local h
    simp only [initSlot, Option.bind_eq_bind, Option.bind_eq_some] at h
    obtain ⟨old, hold, h⟩ := h
    have hk : k < s.Chromosomes.length := (List.getElem?_eq_some.mp hold).1
    refine ⟨old, hold, ?_⟩
    cases old with
    | none =>
      simp only [Option.some_bind, Option.some.injEq] at h
      rw [← h]
      simp [Wrapper.assignPtr, List.getElem?_set_self hk]
    | some o =>
      by_cases hb : o ∈ s.Deleted ∨ s.Heap.length ≤ o
      · simp [hb] at h
      · simp only [hb, if_false, Option.some_bind, Option.some.injEq] at h
        rw [← h]
        simp [Wrapper.assignPtr, List.getElem?_set_self hk]
  · intro G s s' k w h
    by_cases hk : k < s.Chromosomes.length
    · rw [setSlot_of_lt s k w hk] at h
      cases h
      exact ⟨s.Chromosomes[k], List.getElem?_eq_getElem hk,
        by simp [Wrapper.assign, List.getElem?_set_self hk]⟩
    · simp [setSlot, hk] at h

/-- C13 (witness): slot 8 of the example engine, assigned by copy. -/
theorem C13_assignment_witness :
    fourEliteEngine.setSlot 8 (some 4)
      = some { fourEliteEngine with Chromosomes := fourEliteEngine.Chromosomes.set 8 (some 4) } ∧
    ∃ old, fourEliteEngine.Chromosomes[8]? = some old ∧
      (({ fourEliteEngine with Chromosomes := fourEliteEngine.Chromosomes.set 8 (some 4) }
          : GeneticAlgorithm ℚ).Chromosomes[8]?,
        ({ fourEliteEngine with Chromosomes := fourEliteEngine.Chromosomes.set 8 (some 4) }
          : GeneticAlgorithm ℚ).Deleted)
        = (some (Wrapper.assign old (some 4) fourEliteEngine.Deleted).1,
            (Wrapper.assign old (some 4) fourEliteEngine.Deleted).2) :=
  ⟨by decide!, C13_assignment.2.2.2.2.2.2 fourEliteEngine _ 8 (some 4) (by decide!)⟩

/-! ### Initialising one individual -/

/-- C12: `Initialize(i, local)` with `i ≥ Population` leaves the whole engine state
unchanged.  With `i < Population`, on an engine with at least one stored generation whose
slot `origin + i` holds a live object `o`, it returns the state in which only that object
has changed: its local data are `local`, its shared-data pointer is the engine's and its
fitness value is as before; the slot array, hence every slot, every other object, the
generation counter and all other fields are unchanged. -/
theorem C12_InitializeAt {G : Type} (s : GeneticAlgorithm G) (i : Nat)
    (Local : BasicLocalData G) :
    (s.Population ≤ i → InitializeAt i Local s = some s) ∧
    (i < s.Population → s.StoredGenerations ≠ 0 →
      ∀ (o : Nat) (c : Chromosome G),
        s.Chromosomes[s.Generation % s.StoredGenerations * s.Population + i]? = some (some o) →
        s.Heap[o]? = some c →
        ∃ s', InitializeAt i Local s = some s' ∧
          s' = { s with Heap := s.Heap.set o (c.Initialize sharedPtr Local) } ∧
          s'.Chromosomes = s.Chromosomes ∧ s'.Generation = s.Generation ∧
          (∃ c', s'.Heap[o]? = some c' ∧ c'.LocalData = Local ∧
            c'.FitnessValue = c.FitnessValue ∧ c'.SharedData = sharedPtr) ∧
          (∀ o', o' ≠ o → s'.Heap[o']? = s.Heap[o']?)) := by
  constructor
  · intro h
    simp [InitializeAt, h]
  · intro hi hSG o c hslot hc
    have hlt : o < s.Heap.length := (List.getElem?_eq_some.mp hc).1
    have hd : s.deref (s.origin + i) = some (o, c) := by
      simp only [deref, origin, hslot, hc, Option.bind_eq_bind, Option.some_bind]
    refine ⟨{ s with Heap := s.Heap.set o (c.Initialize sharedPtr Local) }, ?_, rfl, rfl, rfl,
      ⟨c.Initialize sharedPtr Local, List.getElem?_set_self hlt, rfl, rfl, rfl⟩, ?_⟩
    · simp only [InitializeAt, ge_iff_le, Nat.not_le.mpr hi, if_false, hSG, hd,
        Option.bind_eq_bind, Option.some_bind, setObject]
    · intro o' ho'
      exact List.getElem?_set_ne (Ne.symm ho')

/-- C12 (witness): the scenario engine, index 5 out of range and index 2 in range. -/
theorem C12_InitializeAt_witness :
    InitializeAt 5 { Chosen := false, Elite := false, gene := (9 : ℚ) } scenarioEngine
      = some scenarioEngine ∧
    ∃ s', InitializeAt 2 { Chosen := false, Elite := false, gene := (9 : ℚ) } scenarioEngine = some s' ∧
      s' = { scenarioEngine with
              Heap := scenarioEngine.Heap.set 2
                ((individual false false 4 0).Initialize sharedPtr
                  { Chosen := false, Elite := false, gene := (9 : ℚ) }) } ∧
      s'.Chromosomes = scenarioEngine.Chromosomes ∧ s'.Generation = scenarioEngine.Generation ∧
      (∃ c', s'.Heap[2]? = some c' ∧
        c'.LocalData = { Chosen := false, Elite := false, gene := (9 : ℚ) } ∧
        c'.FitnessValue = (individual false false 4 0).FitnessValue ∧
        c'.SharedData = sharedPtr) ∧
      (∀ o', o' ≠ 2 → s'.Heap[o']? = scenarioEngine.Heap[o']?) :=
  ⟨(C12_InitializeAt scenarioEngine 5 _).1 (by decide),
    (C12_InitializeAt scenarioEngine 2 _).2 (by decide) (by decide) 2 (individual false false 4 0)
      (by decide) (by decide)⟩

/-! ### Initialisation of every slot -/

theorem initSlot_of_owned {G : Type} [Inhabited G] (s : GeneticAlgorithm G) (k o : Nat)
    (Local : BasicLocalData G) (hk : s.Chromosomes[k]? = some (some o))
    (hlt : o < s.Heap.length) (hd : o ∉ s.Deleted) :
    initSlot s k Local = some
      { s with
        Chromosomes := s.Chromosomes.set k (some s.Heap.length),
        Heap := s.Heap ++ [(Chromosome.new default).Initialize sharedPtr Local],
        Deleted := s.Deleted ++ [o] } := by
  have hn : ¬ (o ∈ s.Deleted ∨ s.Heap.length ≤ o) := by
    intro h
    rcases h with h | h
    · exact hd h
    · omega
  simp [initSlot, hk, hn]

theorem initLoop_owned {G : Type} [Inhabited G] (Local : Nat → BasicLocalData G) :
    ∀ (n k : Nat) (s : GeneticAlgorithm G), k + n ≤ s.Chromosomes.length →
      (∀ j o, k ≤ j → j < k + n → s.Chromosomes[j]? = some (some o) →
        o < s.Heap.length ∧ o ∉ s.Deleted ∧
        ∀ j', j < j' → j' < k + n → s.Chromosomes[j']? ≠ some (some o)) →
      ∃ s', initLoop Local n k s = some s' ∧
        s'.Chromosomes.length = s.Chromosomes.length ∧
        (∀ j, j < n → s'.Chromosomes[k + j]? = some (some (s.Heap.length + j))) ∧
        (∀ i, i < k ∨ k + n ≤ i → s'.Chromosomes[i]? = s.Chromosomes[i]?) ∧
        s'.Heap = s.Heap ++ (List.range n).map
          (fun j => (Chromosome.new default).Initialize sharedPtr (Local (k + j))) ∧
        s' = { s with Chromosomes := s'.Chromosomes, Heap := s'.Heap, Deleted := s'.Deleted } := by
  intro n
  induction n with
  | zero =>
    intro k s _ _
    exact ⟨s, rfl, rfl, fun j hj => absurd hj (Nat.not_lt_zero j), fun _ _ => rfl, by simp, rfl⟩
  | succ n ih =>
    intro k s hlen hown
    obtain ⟨s1, e1, hC1, hH1, hD1, hrest⟩ : ∃ s1, initSlot s k (Local k) = some s1 ∧
        s1.Chromosomes = s.Chromosomes.set k (some s.Heap.length) ∧
        s1.Heap = s.Heap ++ [(Chromosome.new default).Initialize sharedPtr (Local k)] ∧
        (∀ o, o ∈ s1.Deleted → o ∈ s.Deleted ∨ s.Chromosomes[k]? = some (some o)) ∧
        s1 = { s with Chromosomes := s1.Chromosomes, Heap := s1.Heap, Deleted := s1.Deleted } := by
      have hsome : s.Chromosomes[k]? = some s.Chromosomes[k] :=
        List.getElem?_eq_getElem (by omega)
      cases hw : s.Chromosomes[k] with
      | none =>
        rw [hw] at hsome
        exact ⟨_, initSlot_of_null s k (Local k) hsome, rfl, rfl, fun o ho => Or.inl ho, rfl⟩
      | some o =>
        rw [hw] at hsome
        obtain ⟨h1, h2, _⟩ := hown k o (Nat.le_refl k) (by omega) hsome
        refine ⟨_, initSlot_of_owned s k o (Local k) hsome h1 h2, rfl, rfl, ?_, rfl⟩
        intro x hx
        simp only [List.mem_append, List.mem_singleton] at hx
        rcases hx with hx | hx
        · exact Or.inl hx
        · right; rw [hx]; exact hsome
    have hframe : ∀ j, j ≠ k → s1.Chromosomes[j]? = s.Chromosomes[j]? := by
      intro j hj
      rw [hC1, List.getElem?_set_ne (Ne.symm hj)]
    obtain ⟨s', h1, h2, h3, h4, h5, h6⟩ := ih (k + 1) s1
      (by rw [hC1, List.length_set]; omega)
      (by
        intro j o hj1 hj2 hj
        rw [hframe j (by omega)] at hj
        obtain ⟨a1, a2, a3⟩ := hown j o (by omega) (by omega) hj
        refine ⟨by rw [hH1, List.length_append]; omega, ?_, ?_⟩
        · intro hmem
          rcases hD1 o hmem with hmem | hmem
          · exact a2 hmem
          · exact (hown k o (Nat.le_refl k) (by omega) hmem).2.2 j (by omega) (by omega) hj
        · intro j' hj'1 hj'2
          rw [hframe j' (by omega)]
          exact a3 j' hj'1 (by omega))
    refine ⟨s', ?_, ?_, ?_, ?_, ?_, ?_⟩
    · simp only [initLoop, e1, Option.some_bind]
      exact h1
    · rw [h2, hC1, List.length_set]
    · intro j hj
      cases j with
      | zero =>
        rw [Nat.add_zero, h4 k (Or.inl (Nat.lt_succ_self k)), hC1]
        simp only [Nat.add_zero]
        rw [List.getElem?_set_self (by omega)]
      | succ j =>
        have := h3 j (by omega)
        rw [hH1] at this
        simp only [List.length_append, List.length_singleton] at this
        rw [show k + (j + 1) = k + 1 + j by omega, this]
        congr 2
        omega
    · intro i hi
      rw [h4 i (by omega), hframe i (by omega)]
    · rw [h5, hH1]
      simp only [List.append_assoc, List.singleton_append]
      rw [List.range_succ_eq_map, List.map_cons, List.map_map]
      congr 2
      apply List.map_congr_left
      intro j _
      simp only [Function.comp, Nat.add_zero]
      congr 2
      omega
    · rw [h6, hrest]

theorem initLoop_congr {G : Type} [Inhabited G] (L1 L2 : Nat → BasicLocalData G) :
    ∀ (n k : Nat) (s : GeneticAlgorithm G), (∀ j, k ≤ j → j < k + n → L1 j = L2 j) →
      initLoop L1 n k s = initLoop L2 n k s := by
  intro n
  induction n with
  | zero => intro k s _; rfl
  | succ n ih =>
    intro k s h
    simp only [initLoop, h k (Nat.le_refl k) (by omega)]
    congr 1
    funext s1
    exact ih (k + 1) s1 fun j hj1 hj2 => h j (by omega) (by omega)

theorem initLoopFrom_eq {F G : Type} [Inhabited G] (f : F → BasicLocalData G × F) :
    ∀ (n k : Nat) (st : F) (s : GeneticAlgorithm G),
      initLoopFrom f n k st s
        = (initLoop (fun j => factoryValue f st (j - k)) n k s).map
            (fun s' => (factoryAfter f n st, s')) := by
  intro n
  induction n with
  | zero => intro k st s; rfl
  | succ n ih =>
    intro k st s
    simp only [initLoopFrom, initLoop, Nat.sub_self, factoryValue, factoryAfter]
    cases initSlot s k (f st).1 with
    | none => rfl
    | some s1 =>
      simp only [Option.some_bind]
      rw [ih (k + 1) (f st).2 s1]
      congr 1
      apply initLoop_congr
      intro j hj1 hj2
      simp only [factoryValue]
      rw [show j - k = (j - (k + 1)) + 1 by omega]
      rfl

/-- C11: on an engine whose `StoredGenerations * Population` slots are empty or each own a
live object of their own (as after the constructor or after an earlier `Initialize`),
`Initialize` returns, sets the generation counter to 0 and leaves slot `k` holding the
`k`-th object created by the call, a new object bound to the engine's shared configuration
with fitness value 0 and local data `Local k`.  In the fixed-value form `Local k` is the
given value for every `k`; in the factory form the factory is called once per slot in slot
order, so `Local k` is the value of its call number `k` and the factory ends in the state
reached after `StoredGenerations * Population` calls. -/
theorem C11_Initialize {F G : Type} [Inhabited G] (s : GeneticAlgorithm G)
    (hlen : s.Chromosomes.length = s.StoredGenerations * s.Population) (hown : s.owning) :
    (∀ Local : Nat → BasicLocalData G,
      ∃ s', InitializeWith Local s = some s' ∧ s'.Generation = 0 ∧
        s'.Population = s.Population ∧ s'.StoredGenerations = s.StoredGenerations ∧
        s'.Chromosomes.length = s.StoredGenerations * s.Population ∧
        ∀ k, k < s.StoredGenerations * s.Population →
          s'.Chromosomes[k]? = some (some (s.Heap.length + k)) ∧
          ∃ c, s'.Heap[s.Heap.length + k]? = some c ∧ c.SharedData = sharedPtr ∧
            c.LocalData = Local k ∧ c.FitnessValue = 0) ∧
    (∀ Local : BasicLocalData G, Initialize Local s = InitializeWith (fun _ => Local) s) ∧
    (∀ (f : F → BasicLocalData G × F) (st : F),
      InitializeFrom f st s
        = (InitializeWith (factoryValue f st) s).map
            (fun s' => (factoryAfter f (s.StoredGenerations * s.Population) st, s'))) := by
  refine ⟨fun Local => ?_, fun _ => rfl, fun f st => ?_⟩
  · obtain ⟨s', h1, h2, h3, _, h5, h6⟩ := initLoop_owned Local
      (s.StoredGenerations * s.Population) 0 { s with Generation := 0 }
      (by simp only [hlen]; omega)
      (by
        intro j o _ _ hj
        obtain ⟨a1, a2, a3⟩ := hown j o hj
        exact ⟨a1, a2, fun j' hj' _ => a3 j' (by omega)⟩)
    refine ⟨s', h1, by rw [h6], by rw [h6], by rw [h6], by rw [h2]; exact hlen, fun k hk => ?_⟩
    have hs := h3 k hk
    simp only [Nat.zero_add] at hs
    refine ⟨hs, (Chromosome.new default).Initialize sharedPtr (Local k), ?_, rfl, rfl, rfl⟩
    rw [h5]
    simp only
    rw [List.getElem?_append_right (by omega)]
    simp only [Nat.add_sub_cancel_left, Nat.zero_add]
    rw [List.getElem?_map, List.getElem?_range hk]
    rfl
  · simp only [InitializeFrom, InitializeWith]
    rw [initLoopFrom_eq]
    simp only [Nat.sub_zero]

/-- C11 (witness): a newly constructed engine with two windows of two slots and the
factory that counts its calls. -/
theorem C11_Initialize_witness :
    (GeneticAlgorithm.new 2 2 : GeneticAlgorithm ℚ).Chromosomes.length
      = (GeneticAlgorithm.new 2 2 : GeneticAlgorithm ℚ).StoredGenerations
          * (GeneticAlgorithm.new 2 2 : GeneticAlgorithm ℚ).Population ∧
    InitializeFrom
        (fun n : Nat => (({ Chosen := false, Elite := false, gene := (n : ℚ) } :
          BasicLocalData ℚ), n + 1))
        0 (GeneticAlgorithm.new 2 2)
      = (InitializeWith
          (factoryValue (fun n : Nat => (({ Chosen := false, Elite := false, gene := (n : ℚ) } :
            BasicLocalData ℚ), n + 1)) 0)
          (GeneticAlgorithm.new 2 2)).map
        (fun s' => (factoryAfter
          (fun n : Nat => (({ Chosen := false, Elite := false, gene := (n : ℚ) } :
            BasicLocalData ℚ), n + 1))
          ((GeneticAlgorithm.new 2 2 : GeneticAlgorithm ℚ).StoredGenerations
            * (GeneticAlgorithm.new 2 2 : GeneticAlgorithm ℚ).Population) 0, s')) :=
  ⟨by decide,
    (C11_Initialize (GeneticAlgorithm.new 2 2 : GeneticAlgorithm ℚ) (by decide)
      (by
        intro k o h
        have hm := List.getElem?_mem h
        simp [GeneticAlgorithm.new] at hm)).2.2 _ 0⟩

/-! ### The slot a selection can return -/

theorem weights_length {G : Type} (s : GeneticAlgorithm G) :
    ∀ (n k : Nat) (ws : List ℚ), s.weights n k = some ws → ws.length = n := by
  intro n
  induction n with
  | zero =>
    intro k ws h
    simp only [weights, Option.some.injEq] at h
    rw [← h]; rfl
  | succ n ih =>
    intro k ws h
    simp only [weights, Option.bind_eq_bind, Option.bind_eq_some, Option.some.injEq] at h
    obtain ⟨w, _, ws', hws', rfl⟩ := h
    simp only [List.length_cons, ih (k + 1) ws' hws']

theorem WeightedSelection_index {G : Type} (rnd : Nat → ℚ) (s s' : GeneticAlgorithm G)
    (k : Nat) (h : WeightedSelection rnd s = some (some k, s')) :
    ∃ i, 1 ≤ i ∧ i < s.Population ∧ k = s.origin + i - 1 := by
  by_cases hSG : s.StoredGenerations = 0
  · simp [WeightedSelection, hSG] at h
  · simp only [WeightedSelection, hSG, if_false, Option.bind_eq_bind, Option.bind_eq_some] at h
    obtain ⟨fs, hfs, h⟩ := h
    simp only [fitnessSum, Option.map_eq_some'] at hfs
    obtain ⟨ws, hws, rfl⟩ := hfs
    have hwl := weights_length s _ _ ws hws
    have hlen : (normalise (runningSum 0 ws)).tail.length = s.Population - 1 := by
      simp only [List.length_tail, normalise, List.length_map, runningSum_length, hwl]
    cases hsc : scan (s.RandomDouble rnd).1 (normalise (runningSum 0 ws)).tail 1 with
    | none =>
      rw [hsc] at h
      simp only [Option.some.injEq, Prod.mk.injEq] at h
      exact absurd h.1 (by simp)
    | some i =>
      rw [hsc] at h
      simp only [Option.bind_eq_bind, Option.bind_eq_some, Option.some.injEq,
        Prod.mk.injEq] at h
      obtain ⟨_, _, hk, _⟩ := h
      have hb := scan_bound _ _ _ _ hsc
      rw [hlen] at hb
      exact ⟨i, hb.1, by omega, hk.symm⟩

/-- C19: whenever `WeightedSelection` returns an individual, its slot lies in the current
window at an index of at most `Population − 2`, so the individual at the last position is
never returned; with `Population = 1` every call returns none.  On an initialised engine the
call always returns. -/
theorem C19_never_last {G : Type} (rnd : Nat → ℚ) (s : GeneticAlgorithm G) :
    (∀ (k : Nat) (s' : GeneticAlgorithm G), WeightedSelection rnd s = some (some k, s') →
      s.origin ≤ k ∧ k + 2 ≤ s.origin + s.Population) ∧
    (s.Population = 1 → ∀ r, WeightedSelection rnd s = some r → r.1 = none) ∧
    (s.wellFormed → ∃ r, WeightedSelection rnd s = some r) := by
  refine ⟨fun k s' h => ?_, fun hP r h => ?_, fun hw => ?_⟩
  · obtain ⟨i, h1, h2, h3⟩ := WeightedSelection_index rnd s s' k h
    omega
  · obtain ⟨r1, r2⟩ := r
    cases r1 with
    | none => rfl
    | some k =>
      obtain ⟨i, h1, h2, _⟩ := WeightedSelection_index rnd s r2 k h
      omega
  · obtain ⟨r, h, _⟩ := WeightedSelection_evolves rnd s hw
    exact ⟨r, h⟩

/-- C19 (witness): the window of three individuals with two of them flagged; the selection
returns slot 1, the last one being slot 2. -/
theorem C19_never_last_witness :
    WeightedSelection (fun _ => 1 / 2) flaggedEngine
      = some (some 1, (flaggedEngine.RandomDouble (fun _ => 1 / 2)).2.setObject 1
          { individual true false 2 2 with
            LocalData := { (individual true false 2 2).LocalData with Chosen := true } }) ∧
    flaggedEngine.origin ≤ 1 ∧ 1 + 2 ≤ flaggedEngine.origin + flaggedEngine.Population :=
  ⟨by decide!,
    (C19_never_last (fun _ => 1 / 2) flaggedEngine).1 1
      ((flaggedEngine.RandomDouble (fun _ => 1 / 2)).2.setObject 1
        { individual true false 2 2 with
          LocalData := { (individual true false 2 2).LocalData with Chosen := true } })
      (by decide!)⟩

/-! ### The refresh phase -/

theorem refreshOne_eq {G : Type} (ops : Operators G) (s : GeneticAlgorithm G) (k o : Nat)
    (c : Chromosome G) (hk : s.Chromosomes[k]? = some (some o)) (hc : s.Heap[o]? = some c) :
    refreshOne ops s k = some { s with Heap := s.Heap.set o (c.refreshed ops) } := by
  simp only [refreshOne, deref, hk, hc, Option.bind_eq_bind, Option.some_bind, setObject,
    Chromosome.refreshed]

theorem refreshed_flags {G : Type} (ops : Operators G) (c : Chromosome G) :
    (c.refreshed ops).LocalData.Elite = false ∧ (c.refreshed ops).LocalData.Chosen = false ∧
    (c.refreshed ops).LocalData.gene = c.LocalData.gene ∧
    (c.refreshed ops).SharedData = c.SharedData :=
  ⟨rfl, rfl, rfl, rfl⟩

theorem refreshLoop_spec {G : Type} (ops : Operators G) :
    ∀ (n k : Nat) (s : GeneticAlgorithm G),
      (∀ j, k ≤ j → j < k + n → ∃ o, s.Chromosomes[j]? = some (some o) ∧ o < s.Heap.length) →
      ∃ s', refreshLoop ops n k s = some s' ∧ s' = { s with Heap := s'.Heap } ∧
        s'.Heap.length = s.Heap.length ∧
        (∀ o, (∀ j, k ≤ j → j < k + n → s.Chromosomes[j]? ≠ some (some o)) →
          s'.Heap[o]? = s.Heap[o]?) ∧
        (∀ j o, k ≤ j → j < k + n → s.Chromosomes[j]? = some (some o) →
          ∃ c', s'.Heap[o]? = some c' ∧ c'.LocalData.Elite = false ∧
            c'.LocalData.Chosen = false) ∧
        ((∀ j1 j2 o, k ≤ j1 → j1 < k + n → k ≤ j2 → j2 < k + n →
            s.Chromosomes[j1]? = some (some o) → s.Chromosomes[j2]? = some (some o) → j1 = j2) →
          ∀ j o c, k ≤ j → j < k + n → s.Chromosomes[j]? = some (some o) →
            s.Heap[o]? = some c → s'.Heap[o]? = some (c.refreshed ops)) := by
  intro n
  induction n with
  | zero =>
    intro k s _
    exact ⟨s, rfl, rfl, rfl, fun _ _ => rfl, fun j o h1 h2 => by omega,
      fun _ j o c h1 h2 => by omega⟩
  | succ n ih =>
    intro k s hlive
    obtain ⟨ok, hk, hok⟩ := hlive k (Nat.le_refl k) (by omega)
    have hck : s.Heap[ok]? = some s.Heap[ok] := List.getElem?_eq_getElem hok
    have e1 := refreshOne_eq ops s k ok _ hk hck
    obtain ⟨s', h1, h2, h3, hA, hB, hC⟩ := ih (k + 1)
      { s with Heap := s.Heap.set ok (s.Heap[ok].refreshed ops) }
      (by
        intro j hj1 hj2
        obtain ⟨o, ho, hlt⟩ := hlive j (by omega) (by omega)
        exact ⟨o, ho, by simp only [List.length_set]; exact hlt⟩)
    simp only [List.length_set] at h3
    have hset_ne : ∀ o, o ≠ ok →
        (s.Heap.set ok (s.Heap[ok].refreshed ops))[o]? = s.Heap[o]? :=
      fun o ho => List.getElem?_set_ne (Ne.symm ho)
    have hset_eq : (s.Heap.set ok (s.Heap[ok].refreshed ops))[ok]?
        = some (s.Heap[ok].refreshed ops) := List.getElem?_set_self hok
    refine ⟨s', ?_, ?_, h3, ?_, ?_, ?_⟩
    · simp only [refreshLoop, e1, Option.some_bind]
      exact h1
    · rw [h2]
    · intro o ho
      have hne : o ≠ ok := by
        intro h
        rw [h] at ho
        exact ho k (Nat.le_refl k) (by omega) hk
      rw [hA o (fun j hj1 hj2 => ho j (by omega) (by omega)), hset_ne o hne]
    · intro j o hj1 hj2 hj
      by_cases hlater : ∃ j', k + 1 ≤ j' ∧ j' < k + 1 + n ∧ s.Chromosomes[j']? = some (some o)
      · obtain ⟨j', a1, a2, a3⟩ := hlater
        exact hB j' o a1 a2 a3
      · have hnot : ∀ j', k + 1 ≤ j' → j' < k + 1 + n →
            s.Chromosomes[j']? ≠ some (some o) :=
          fun j' a1 a2 a3 => hlater ⟨j', a1, a2, a3⟩
        have hjk : j = k := by
          by_contra hne
          exact hnot j (by omega) (by omega) hj
        rw [hjk, hk] at hj
        have hoo : ok = o := by simpa using hj
        rw [← hoo] at hnot ⊢
        rw [hA ok hnot, hset_eq]
        exact ⟨_, rfl, rfl, rfl⟩
    · intro hdist j o c hj1 hj2 hj hc
      by_cases hjk : j = k
      · rw [hjk, hk] at hj
        have hoo : ok = o := by simpa using hj
        rw [← hoo] at hc ⊢
        have hnot : ∀ j', k + 1 ≤ j' → j' < k + 1 + n →
            s.Chromosomes[j']? ≠ some (some ok) := by
          intro j' a1 a2 a3
          have := hdist j' k ok (by omega) (by omega) (Nat.le_refl k) (by omega) a3 hk
          omega
        rw [hA ok hnot, hset_eq]
        rw [hck] at hc
        cases hc
        rfl
      · have hne : o ≠ ok := by
          intro h
          rw [h] at hj
          exact hjk (hdist j k ok hj1 hj2 (Nat.le_refl k) (by omega) hj hk)
        exact hC (fun j1 j2 o' a1 a2 a3 a4 a5 a6 =>
            hdist j1 j2 o' (by omega) (by omega) (by omega) (by omega) a5 a6)
          j o c (by omega) (by omega) hj (by rw [hset_ne o hne]; exact hc)

theorem window_getElem {α : Type} (l : List α) (a n i : Nat) (hi : i < n) :
    ((l.drop a).take n)[i]? = l[a + i]? := by
  rw [List.getElem?_take_of_lt hi, List.getElem?_drop]

theorem mem_window {α : Type} (l : List α) (a n : Nat) (w : α)
    (h : w ∈ (l.drop a).take n) : ∃ j, a ≤ j ∧ j < a + n ∧ l[j]? = some w := by
  obtain ⟨i, hi⟩ := List.mem_iff_getElem?.mp h
  have hlt : i < n := by
    have h1 := (List.getElem?_eq_some.mp hi).1
    have h2 : ((l.drop a).take n).length ≤ n := List.length_take_le n _
    omega
  rw [window_getElem l a n i hlt] at hi
  exact ⟨a + i, by omega, by omega, hi⟩

theorem window_mem {α : Type} (l : List α) (a n j : Nat) (w : α) (h1 : a ≤ j)
    (h2 : j < a + n) (h : l[j]? = some w) : w ∈ (l.drop a).take n := by
  apply List.getElem?_mem (n := j - a)
  rw [window_getElem l a n (j - a) (by omega)]
  rw [show a + (j - a) = j by omega]
  exact h

theorem window_index_inj {α : Type} (l : List α) (a n : Nat) (hn : ((l.drop a).take n).Nodup)
    (hle : a + n ≤ l.length) (j1 j2 : Nat) (w : α) (a1 : a ≤ j1) (a2 : j1 < a + n)
    (b1 : a ≤ j2) (b2 : j2 < a + n) (h1 : l[j1]? = some w) (h2 : l[j2]? = some w) :
    j1 = j2 := by
  have hlen : ((l.drop a).take n).length = n := by
    rw [List.length_take, List.length_drop]; omega
  have hne := List.nodup_iff_getElem?_ne_getElem?.mp hn
  have e1 : ((l.drop a).take n)[j1 - a]? = some w := by
    rw [window_getElem l a n _ (by omega), show a + (j1 - a) = j1 by omega]; exact h1
  have e2 : ((l.drop a).take n)[j2 - a]? = some w := by
    rw [window_getElem l a n _ (by omega), show a + (j2 - a) = j2 by omega]; exact h2
  by_contra hcon
  rcases Nat.lt_or_gt_of_ne hcon with hlt | hlt
  · exact hne (j1 - a) (j2 - a) (by omega) (by omega) (e1.trans e2.symm)
  · exact hne (j2 - a) (j1 - a) (by omega) (by omega) (e2.trans e1.symm)

theorem refreshPhase_spec {G : Type} (ops : Operators G) (s : GeneticAlgorithm G)
    (hSG : s.StoredGenerations ≠ 0)
    (hlen : s.Chromosomes.length = s.StoredGenerations * s.Population)
    (hvalid : ∀ w ∈ s.GetChromosomes, validSlot s.Heap w = true) :
    ∃ s', refreshPhase ops s = some s' ∧
      s' = { s with Chromosomes := s'.Chromosomes, Heap := s'.Heap } ∧
      s'.Chromosomes.length = s.Chromosomes.length ∧ s'.Heap.length = s.Heap.length ∧
      s'.GetChromosomes.Perm s.GetChromosomes ∧
      (s'.GetChromosomes.map (rank s'.Heap)).Sorted (· ≤ ·) ∧
      (∀ k, k < s.origin ∨ s.origin + s.Population ≤ k →
        s'.Chromosomes[k]? = s.Chromosomes[k]?) ∧
      (∀ o, some o ∉ s.GetChromosomes → s'.Heap[o]? = s.Heap[o]?) ∧
      (∀ o, some o ∈ s.GetChromosomes → ∃ c', s'.Heap[o]? = some c' ∧
        c'.LocalData.Elite = false ∧ c'.LocalData.Chosen = false) ∧
      (s.GetChromosomes.Nodup → ∀ o c, some o ∈ s.GetChromosomes → s.Heap[o]? = some c →
        s'.Heap[o]? = some (c.refreshed ops)) := by
  have hle := origin_add_le s hSG hlen
  obtain ⟨s1, e1, f1, hL1, hA, hB, hC⟩ := refreshLoop_spec ops s.Population s.origin s
    (fun j hj1 hj2 => window_slot_valid s hle hvalid j hj1 hj2)
  obtain ⟨H, hH⟩ : ∃ H, s1 = { s with Heap := H } := ⟨s1.Heap, f1⟩
  subst hH
  simp only at hL1 hA hB hC
  have hv1 : ∀ w ∈ (s.Chromosomes.drop s.origin).take s.Population,
      validSlot H w = true := by
    intro w hw
    have := hvalid w hw
    cases w with
    | none => simp [validSlot] at this
    | some o =>
      simp only [validSlot, decide_eq_true_eq] at this ⊢
      omega
  obtain ⟨l', p1, p2, p3⟩ := sortRange_spec { s with Heap := H } s.origin hle hv1
  simp only at p1 p2 p3
  have hl : l'.length = s.Population := by
    rw [List.Perm.length_eq p1, List.length_take, List.length_drop]
    omega
  have hw : GetChromosomes
      { s with
        Chromosomes :=
          s.Chromosomes.take s.origin ++ l' ++ s.Chromosomes.drop (s.origin + s.Population),
        Heap := H } = l' :=
    splice_window _ _ _ _ hl hle
  refine ⟨
    { s with
      Chromosomes :=
        s.Chromosomes.take s.origin ++ l' ++ s.Chromosomes.drop (s.origin + s.Population),
      Heap := H },
    ?_, rfl, splice_length _ _ _ _ hl hle, hL1, ?_, ?_, ?_, ?_, ?_, ?_⟩
  · simp only [refreshPhase, e1, Option.some_bind]
    exact p3
  · rw [hw]
    exact p1
  · rw [hw]
    exact p2
  · intro k hk
    exact splice_outside _ _ _ _ k hl hle hk
  · intro o ho
    apply hA o
    intro j hj1 hj2 hj
    exact ho (window_mem _ _ _ j _ hj1 hj2 hj)
  · intro o ho
    obtain ⟨j, hj1, hj2, hj⟩ := mem_window _ _ _ _ ho
    exact hB j o hj1 hj2 hj
  · intro hnd o c ho hc
    obtain ⟨j, hj1, hj2, hj⟩ := mem_window _ _ _ _ ho
    exact hC (fun j1 j2 o' a1 a2 b1 b2 g1 g2 =>
        window_index_inj _ _ _ hnd hle j1 j2 _ a1 a2 b1 b2 g1 g2) j o c hj1 hj2 hj hc

/-- C16: the refresh phase at the start of `BreedPopulation`, on an engine whose current
window holds live objects, returns a state in which the current window is a permutation of
what it was and is sorted ascending by fitness value; every individual of the window has
`Chosen = false` and `Elite = false`; when the `P` slots of the window hold `P` different
objects, each of them is the object it was after exactly one pass (flags reset, then one
call of `Fitness()`), so its stored fitness value is the value `Fitness()` computes, which
equals the fitness of its local data when the fitness depends on the local data only; no
slot outside the current window and no object outside it is changed, and no other field of
the engine. -/
theorem C16_refresh_phase {G : Type} (ops : Operators G) (s : GeneticAlgorithm G)
    (hSG : s.StoredGenerations ≠ 0)
    (hlen : s.Chromosomes.length = s.StoredGenerations * s.Population)
    (hvalid : ∀ w ∈ s.GetChromosomes, validSlot s.Heap w = true) :
    ∃ s', refreshPhase ops s = some s' ∧
      s'.GetChromosomes.Perm s.GetChromosomes ∧
      (s'.GetChromosomes.map (rank s'.Heap)).Sorted (· ≤ ·) ∧
      (∀ w ∈ s'.GetChromosomes, ∃ o c', w = some o ∧ s'.Heap[o]? = some c' ∧
        c'.LocalData.Chosen = false ∧ c'.LocalData.Elite = false) ∧
      (s.GetChromosomes.Nodup → ∀ o c, some o ∈ s.GetChromosomes → s.Heap[o]? = some c →
        s'.Heap[o]? = some (c.refreshed ops) ∧
        (c.refreshed ops).FitnessValue
          = ops.Fitness { c with LocalData := { c.LocalData with Chosen := false, Elite := false } } ∧
        ((∀ a b : Chromosome G, a.LocalData = b.LocalData → ops.Fitness a = ops.Fitness b) →
          (c.refreshed ops).FitnessValue = ops.Fitness (c.refreshed ops))) ∧
      (∀ k, k < s.origin ∨ s.origin + s.Population ≤ k →
        s'.Chromosomes[k]? = s.Chromosomes[k]?) ∧
      (∀ o, some o ∉ s.GetChromosomes → s'.Heap[o]? = s.Heap[o]?) ∧
      s' = { s with Chromosomes := s'.Chromosomes, Heap := s'.Heap } := by
  obtain ⟨s', h1, h2, _, _, h5, h6, h7, h8, h9, h10⟩ := refreshPhase_spec ops s hSG hlen hvalid
  refine ⟨s', h1, h5, h6, ?_, ?_, h7, h8, h2⟩
  · intro w hw
    have hw' := h5.mem_iff.mp hw
    have hv := hvalid w hw'
    cases w with
    | none => simp [validSlot] at hv
    | some o =>
      obtain ⟨c', hc', e1, e2⟩ := h9 o hw'
      exact ⟨o, c', rfl, hc', e2, e1⟩
  · intro hnd o c ho hc
    exact ⟨h10 hnd o c ho hc, rfl, fun hfit => hfit _ _ rfl⟩

/-- C16 (witness): the scenario population with the genes 3, 1, 4, 2. -/
theorem C16_refresh_phase_witness :
    scenarioEngine.StoredGenerations ≠ 0 ∧
    ∃ s', refreshPhase geneOps scenarioEngine = some s' ∧
      s'.GetChromosomes.Perm scenarioEngine.GetChromosomes ∧
      (s'.GetChromosomes.map (rank s'.Heap)).Sorted (· ≤ ·) ∧
      (∀ w ∈ s'.GetChromosomes, ∃ o c', w = some o ∧ s'.Heap[o]? = some c' ∧
        c'.LocalData.Chosen = false ∧ c'.LocalData.Elite = false) ∧
      (scenarioEngine.GetChromosomes.Nodup → ∀ o c, some o ∈ scenarioEngine.GetChromosomes →
        scenarioEngine.Heap[o]? = some c →
        s'.Heap[o]? = some (c.refreshed geneOps) ∧
        (c.refreshed geneOps).FitnessValue
          = geneOps.Fitness
              { c with LocalData := { c.LocalData with Chosen := false, Elite := false } } ∧
        ((∀ a b : Chromosome ℚ, a.LocalData = b.LocalData →
            geneOps.Fitness a = geneOps.Fitness b) →
          (c.refreshed geneOps).FitnessValue = geneOps.Fitness (c.refreshed geneOps))) ∧
      (∀ k, k < scenarioEngine.origin ∨ scenarioEngine.origin + scenarioEngine.Population ≤ k →
        s'.Chromosomes[k]? = scenarioEngine.Chromosomes[k]?) ∧
      (∀ o, some o ∉ scenarioEngine.GetChromosomes → s'.Heap[o]? = scenarioEngine.Heap[o]?) ∧
      s' = { scenarioEngine with Chromosomes := s'.Chromosomes, Heap := s'.Heap } :=
  ⟨by decide, C16_refresh_phase geneOps scenarioEngine (by decide) (by decide) (by decide!)⟩

/-! ### Selections in a window without flags -/

theorem weights_congr {G : Type} (s1 s2 : GeneticAlgorithm G)
    (hC : s1.Chromosomes = s2.Chromosomes) (hH : s1.Heap = s2.Heap) :
    ∀ (n k : Nat), s1.weights n k = s2.weights n k := by
  intro n
  induction n with
  | zero => intro k; rfl
  | succ n ih =>
    intro k
    simp only [weights, weight, deref, hC, hH, ih (k + 1)]

theorem weights_defined_of_live {G : Type} (s : GeneticAlgorithm G) :
    ∀ (n k : Nat),
      (∀ j, k ≤ j → j < k + n → ∃ o, s.Chromosomes[j]? = some (some o) ∧ o < s.Heap.length) →
      ∃ ws, s.weights n k = some ws := by
  intro n
  induction n with
  | zero => intro k _; exact ⟨[], rfl⟩
  | succ n ih =>
    intro k h
    obtain ⟨o, ho, hlt⟩ := h k (Nat.le_refl k) (by omega)
    obtain ⟨ws, hws⟩ := ih (k + 1) fun j hj1 hj2 => h j (by omega) (by omega)
    simp only [weights, weight, deref, ho, List.getElem?_eq_getElem hlt, hws,
      Option.bind_eq_bind, Option.some_bind]
    exact ⟨_, rfl⟩

theorem weights_zero_of_unflagged {G : Type} (s : GeneticAlgorithm G) (hu : s.unflagged) :
    ∀ (n k : Nat) (ws : List ℚ), s.origin ≤ k → k + n ≤ s.origin + s.Population →
      s.weights n k = some ws → ∀ w ∈ ws, w = 0 := by
  intro n
  induction n with
  | zero =>
    intro k ws _ _ h w hw
    simp only [weights, Option.some.injEq] at h
    rw [← h] at hw
    exact absurd hw (List.not_mem_nil w)
  | succ n ih =>
    intro k ws hk1 hk2 h w hw
    simp only [weights, weight, Option.bind_eq_bind, Option.bind_eq_some,
      Option.some.injEq] at h
    obtain ⟨w0, ⟨oc, hoc, hw0⟩, ws', hws', rfl⟩ := h
    obtain ⟨f1, f2⟩ := hu k oc hk1 (by omega) hoc
    rcases List.mem_cons.mp hw with h1 | h1
    · rw [h1, ← hw0, f1, f2]
      rfl
    · exact ih (k + 1) ws' (by omega) (by omega) hws' w h1

theorem WeightedSelection_none_of_zero {G : Type} (rnd : Nat → ℚ) (s : GeneticAlgorithm G)
    (ws : List ℚ) (hSG : s.StoredGenerations ≠ 0)
    (hws : s.weights s.Population s.origin = some ws) (hz : ∀ w ∈ ws, w = 0) :
    WeightedSelection rnd s = some (none, { s with Draws := s.Draws + 1 }) := by
  apply WeightedSelection_none rnd s ws hSG hws
  intro d hd
  rw [normalise_of_zero _ (runningSum_of_zero ws 0 hz) d hd]
  rfl

theorem fillLoop_of_zero {G : Type} (rnd : Nat → ℚ) :
    ∀ (fuel : Nat) (v : FillVars) (s : GeneticAlgorithm G) (ws : List ℚ),
      s.StoredGenerations ≠ 0 → s.weights s.Population s.origin = some ws →
      (∀ w ∈ ws, w = 0) →
      fillLoop rnd fuel v s = some
        ({ v with i := v.i + min fuel (s.Population - 2 * s.SharedData.Elite - v.i) },
          { s with Draws := s.Draws + min fuel (s.Population - 2 * s.SharedData.Elite - v.i) }) := by
  intro fuel
  induction fuel with
  | zero => intro v s ws _ _ _; simp [fillLoop]
  | succ fuel ih =>
    intro v s ws hSG hws hz
    by_cases hi : v.i < s.Population - 2 * s.SharedData.Elite
    · have hsel := WeightedSelection_none_of_zero rnd s ws hSG hws hz
      have hb := fillBody_of_none rnd v s _ hsel
      have hws' : GeneticAlgorithm.weights { s with Draws := s.Draws + 1 } s.Population s.origin
          = some ws := by
        rw [weights_congr { s with Draws := s.Draws + 1 } s rfl rfl]
        exact hws
      have := ih { v with i := v.i + 1 } { s with Draws := s.Draws + 1 } ws hSG hws' hz
      simp only [fillLoop, hi, if_true, hb, Option.some_bind]
      rw [this]
      simp only
      have hm : min (fuel + 1) (s.Population - 2 * s.SharedData.Elite - v.i)
          = 1 + min fuel (s.Population - 2 * s.SharedData.Elite - (v.i + 1)) := by omega
      rw [hm]
      simp only [Nat.add_assoc]
    · have hm : min (fuel + 1) (s.Population - 2 * s.SharedData.Elite - v.i) = 0 := by omega
      simp only [fillLoop, hi, if_false, hm, Nat.add_zero]

theorem unflagged_of_refreshPhase {G : Type} (s s1 : GeneticAlgorithm G)
    (hperm : s1.GetChromosomes.Perm s.GetChromosomes)
    (hflags : ∀ o, some o ∈ s.GetChromosomes → ∃ c', s1.Heap[o]? = some c' ∧
        c'.LocalData.Elite = false ∧ c'.LocalData.Chosen = false) :
    s1.unflagged := by
  intro k oc hk1 hk2 hd
  simp only [deref, Option.bind_eq_bind, Option.bind_eq_some, Option.some.injEq] at hd
  obtain ⟨w, hw, o, ho, c, hc, rfl⟩ := hd
  subst ho
  have hmem : some o ∈ s1.GetChromosomes := window_mem _ _ _ k _ hk1 hk2 hw
  obtain ⟨c', hc', e1, e2⟩ := hflags o (hperm.mem_iff.mp hmem)
  rw [hc] at hc'
  simp only [Option.some.injEq] at hc'
  subst hc'
  exact ⟨e1, e2⟩

/-- C17: on an engine with at least two stored generations whose current window holds live
objects: (1) when no individual of the current window is marked `Chosen` or `Elite`, every
weight computed by `WeightedSelection` is zero and the call returns none for every random
stream, changing nothing but the position in the stream; (2) in a breeding cycle run with
`Elite = 0` the refresh phase leaves such a window, each of the `P` selections of the cycle
returns none, the cycle puts no operation on the queue, reads `P` random values, leaves
every slot of the next window (and every slot outside the current one) exactly as it was,
changes no object that the current window does not refer to, and with an empty queue
`BreedPopulation` returns exactly the state left by the refresh phase, `P` draws later. -/
theorem C17_unflagged_cycle {G : Type} (ops : Operators G) (rnd : Nat → ℚ)
    (s : GeneticAlgorithm G) (hSG : 2 ≤ s.StoredGenerations)
    (hlen : s.Chromosomes.length = s.StoredGenerations * s.Population)
    (hvalid : ∀ w ∈ s.GetChromosomes, validSlot s.Heap w = true) :
    (s.unflagged →
      ∃ ws, s.weights s.Population s.origin = some ws ∧ (∀ w ∈ ws, w = 0) ∧
        WeightedSelection rnd s = some (none, { s with Draws := s.Draws + 1 })) ∧
    (s.SharedData.Elite = 0 →
      ∃ s1, refreshPhase ops s = some s1 ∧ s1.unflagged ∧
        (∀ m, WeightedSelection rnd { s1 with Draws := s.Draws + m }
          = some (none, { s1 with Draws := s.Draws + m + 1 })) ∧
        breedEnqueue ops rnd s = some { s1 with Draws := s.Draws + s.Population } ∧
        s1.OperationsQueue = s.OperationsQueue ∧
        (∀ k, s.nextOrigin ≤ k → k < s.nextOrigin + s.Population →
          s1.Chromosomes[k]? = s.Chromosomes[k]?) ∧
        (∀ k, k < s.origin ∨ s.origin + s.Population ≤ k →
          s1.Chromosomes[k]? = s.Chromosomes[k]?) ∧
        (∀ o, some o ∉ s.GetChromosomes → s1.Heap[o]? = s.Heap[o]?) ∧
        (s.OperationsQueue = [] →
          BreedPopulation ops rnd s = some { s1 with Draws := s.Draws + s.Population })) := by
  have hSG0 : s.StoredGenerations ≠ 0 := by omega
  have hle := origin_add_le s hSG0 hlen
  constructor
  · intro hu
    obtain ⟨ws, hws⟩ := weights_defined_of_live s s.Population s.origin
      (fun j hj1 hj2 => window_slot_valid s hle hvalid j hj1 hj2)
    have hz := weights_zero_of_unflagged s hu s.Population s.origin ws (Nat.le_refl _)
      (Nat.le_refl _) hws
    exact ⟨ws, hws, hz, WeightedSelection_none_of_zero rnd s ws hSG0 hws hz⟩
  · intro hE
    obtain ⟨s1, h1, h2, h3, h4, h5, _, h7, h8, h9, _⟩ := refreshPhase_spec ops s hSG0 hlen hvalid
    have hu : s1.unflagged := unflagged_of_refreshPhase s s1 h5 h9
    obtain ⟨C, H, hCH⟩ : ∃ C H, s1 = { s with Chromosomes := C, Heap := H } :=
      ⟨s1.Chromosomes, s1.Heap, h2⟩
    subst hCH
    simp only at h3 h4 h7 h8
    have hvalid1 : ∀ j, s.origin ≤ j → j < s.origin + s.Population →
        ∃ o, C[j]? = some (some o) ∧ o < H.length := by
      intro j hj1 hj2
      have hj : j < C.length := by omega
      obtain ⟨w, hmem⟩ : ∃ w, C[j]? = some w := ⟨C[j], List.getElem?_eq_getElem hj⟩
      have hin : w ∈ GetChromosomes
          ({ s with Chromosomes := C, Heap := H } : GeneticAlgorithm G) :=
        window_mem C s.origin s.Population j _ hj1 hj2 hmem
      have hin' := h5.mem_iff.mp hin
      have hv := hvalid _ hin'
      cases w with
      | none => simp [validSlot] at hv
      | some o =>
        simp only [validSlot, decide_eq_true_eq] at hv
        exact ⟨o, hmem, by omega⟩
    obtain ⟨ws, hws⟩ := weights_defined_of_live
      ({ s with Chromosomes := C, Heap := H } : GeneticAlgorithm G) s.Population s.origin hvalid1
    have hz := weights_zero_of_unflagged _ hu s.Population s.origin ws (Nat.le_refl _)
      (Nat.le_refl _) hws
    have hsel : ∀ m, WeightedSelection rnd
        ({ s with Chromosomes := C, Heap := H, Draws := s.Draws + m } : GeneticAlgorithm G)
        = some (none, { s with Chromosomes := C, Heap := H, Draws := s.Draws + m + 1 }) := by
      intro m
      exact WeightedSelection_none_of_zero rnd _ ws hSG0
        ((weights_congr
          ({ s with Chromosomes := C, Heap := H, Draws := s.Draws + m } : GeneticAlgorithm G)
          ({ s with Chromosomes := C, Heap := H } : GeneticAlgorithm G) rfl rfl
          s.Population s.origin).trans hws) hz
    have hfill := fillLoop_of_zero rnd (s.Population - 2 * s.SharedData.Elite)
      { i := 0, nextOrigin := s.nextOrigin + 2 * s.SharedData.Elite, parent := none }
      ({ s with Chromosomes := C, Heap := H } : GeneticAlgorithm G) ws hSG0 hws hz
    have henq : breedEnqueue ops rnd s
        = some { s with Chromosomes := C, Heap := H, Draws := s.Draws + s.Population } := by
      simp only [breedEnqueue, hSG0, if_false, h1, Option.some_bind, elitePhase, hE]
      simp only [eliteLoop, Option.some_bind, fillPhase]
      simp only [hE] at hfill
      simp only [nextOrigin, hE] at hfill ⊢
      rw [hfill]
      simp
    refine ⟨_, h1, hu, hsel, henq, rfl, ?_, h7, h8, ?_⟩
    · intro k hk1 hk2
      apply h7
      rcases windows_disjoint s hSG with hd | hd
      · left; omega
      · right; omega
    · intro hq
      simp only [BreedPopulation, henq, Option.some_bind, ProcessQueue, hq, runQueue]

/-- C17 (witness): one cycle of the scenario population, whose `Elite` is 0. -/
theorem C17_unflagged_cycle_witness :
    2 ≤ scenarioEngine.StoredGenerations ∧ scenarioEngine.SharedData.Elite = 0 ∧
    scenarioEngine.OperationsQueue = [] ∧
    ∃ s1, refreshPhase geneOps scenarioEngine = some s1 ∧
      (∀ k, scenarioEngine.nextOrigin ≤ k →
        k < scenarioEngine.nextOrigin + scenarioEngine.Population →
        s1.Chromosomes[k]? = scenarioEngine.Chromosomes[k]?) ∧
      BreedPopulation geneOps (fun _ => 1 / 2) scenarioEngine
        = some { s1 with Draws := scenarioEngine.Draws + scenarioEngine.Population } :=
  ⟨by decide, by decide, by decide,
    match (C17_unflagged_cycle geneOps (fun _ => 1 / 2) scenarioEngine (by decide) (by decide)
      (by decide!)).2 (by decide) with
    | ⟨s1, h1, _, _, _, _, h6, _, _, h9⟩ => ⟨s1, h1, h6, h9 (by decide)⟩⟩

/-! ### What a breeding cycle never writes -/

theorem sameWindows_refl {G : Type} (s : GeneticAlgorithm G) : s.sameWindows s :=
  ⟨rfl, rfl, rfl, rfl⟩

theorem sameWindows_trans {G : Type} {a b c : GeneticAlgorithm G} (h1 : a.sameWindows b)
    (h2 : b.sameWindows c) : a.sameWindows c :=
  ⟨h2.1.trans h1.1, h2.2.1.trans h1.2.1, h2.2.2.1.trans h1.2.2.1, h2.2.2.2.trans h1.2.2.2⟩

theorem sameWindows_origin {G : Type} {s s' : GeneticAlgorithm G} (h : s.sameWindows s') :
    s'.origin = s.origin ∧ s'.nextOrigin = s.nextOrigin := by
  simp only [origin, nextOrigin, h.1, h.2.1, h.2.2.1, and_self]

theorem setSlot_sameWindows {G : Type} (s s' : GeneticAlgorithm G) (k : Nat) (w : Option Nat)
    (h : s.setSlot k w = some s') : s.sameWindows s' := by
  simp only [setSlot] at h
  split at h
  · simp only [Option.some.injEq] at h
    subst h
    exact ⟨rfl, rfl, rfl, rfl⟩
  · exact Option.noConfusion h

theorem setElite_sameWindows {G : Type} (s s' : GeneticAlgorithm G) (k : Nat)
    (h : s.setElite k = some s') : s.sameWindows s' := by
  simp only [setElite, Option.bind_eq_bind, Option.bind_eq_some, Option.some.injEq] at h
  obtain ⟨oc, _, rfl⟩ := h
  exact ⟨rfl, rfl, rfl, rfl⟩

theorem refreshOne_sameWindows {G : Type} (ops : Operators G) (s s' : GeneticAlgorithm G)
    (k : Nat) (h : refreshOne ops s k = some s') : s.sameWindows s' := by
  simp only [refreshOne, Option.bind_eq_bind, Option.bind_eq_some, Option.some.injEq] at h
  obtain ⟨oc, _, rfl⟩ := h
  exact ⟨rfl, rfl, rfl, rfl⟩

theorem refreshLoop_sameWindows {G : Type} (ops : Operators G) :
    ∀ (n k : Nat) (s s' : GeneticAlgorithm G), refreshLoop ops n k s = some s' →
      s.sameWindows s' := by
  intro n
  induction n with
  | zero =>
    intro k s s' h
    simp only [refreshLoop, Option.some.injEq] at h
    subst h
    exact sameWindows_refl s
  | succ n ih =>
    intro k s s' h
    simp only [refreshLoop, Option.bind_eq_some] at h
    obtain ⟨s1, h1, h2⟩ := h
    exact sameWindows_trans (refreshOne_sameWindows ops s s1 k h1) (ih (k + 1) s1 s' h2)

theorem sortRange_sameWindows {G : Type} (s s' : GeneticAlgorithm G) (first : Nat)
    (h : s.sortRange first = some s') : s.sameWindows s' := by
  simp only [sortRange] at h
  split at h
  · simp only [Option.map_eq_some'] at h
    obtain ⟨w, _, rfl⟩ := h
    exact ⟨rfl, rfl, rfl, rfl⟩
  · exact Option.noConfusion h

theorem eliteBody_sameWindows {G : Type} (f n i : Nat) (s s' : GeneticAlgorithm G)
    (h : eliteBody f n i s = some s') : s.sameWindows s' := by
  simp only [eliteBody, Option.bind_eq_bind, Option.bind_eq_some, Option.some.injEq] at h
  obtain ⟨a, _, s1, h1, b, _, s2, h2, s3, h3, s4, h4, p1, _, p2, _, c1, _, c2, _, rfl⟩ := h
  exact sameWindows_trans (sameWindows_trans (sameWindows_trans (sameWindows_trans
    (setSlot_sameWindows _ _ _ _ h1) (setSlot_sameWindows _ _ _ _ h2))
    (setElite_sameWindows _ _ _ h3)) (setElite_sameWindows _ _ _ h4)) ⟨rfl, rfl, rfl, rfl⟩

theorem eliteLoop_sameWindows {G : Type} (f n : Nat) :
    ∀ (fuel i : Nat) (s s' : GeneticAlgorithm G), eliteLoop f n fuel i s = some s' →
      s.sameWindows s' := by
  intro fuel
  induction fuel with
  | zero =>
    intro i s s' h
    simp only [eliteLoop, Option.some.injEq] at h
    subst h
    exact sameWindows_refl s
  | succ fuel ih =>
    intro i s s' h
    simp only [eliteLoop] at h
    split at h
    · simp only [Option.bind_eq_some] at h
      obtain ⟨s1, h1, h2⟩ := h
      exact sameWindows_trans (eliteBody_sameWindows f n i s s1 h1) (ih (i + 2) s1 s' h2)
    · simp only [Option.some.injEq] at h
      subst h
      exact sameWindows_refl s

theorem WeightedSelection_sameWindows {G : Type} (rnd : Nat → ℚ) (s : GeneticAlgorithm G)
    (r : Option Nat × GeneticAlgorithm G) (h : WeightedSelection rnd s = some r) :
    s.sameWindows r.2 := by
  simp only [WeightedSelection] at h
  split at h
  · exact Option.noConfusion h
  · simp only [Option.bind_eq_bind, Option.bind_eq_some] at h
    obtain ⟨fs, _, h⟩ := h
    split at h
    · simp only [Option.some.injEq] at h
      subst h
      exact ⟨rfl, rfl, rfl, rfl⟩
    · simp only [Option.bind_eq_some, Option.some.injEq] at h
      obtain ⟨oc, _, rfl⟩ := h
      exact ⟨rfl, rfl, rfl, rfl⟩

theorem maybeMutation_sameWindows {G : Type} (rnd : Nat → ℚ) (s s' : GeneticAlgorithm G)
    (k : Nat) (h : maybeMutation rnd s k = some s') : s.sameWindows s' := by
  simp only [maybeMutation] at h
  split at h
  · simp only [Option.map_eq_some'] at h
    obtain ⟨m, _, rfl⟩ := h
    exact ⟨rfl, rfl, rfl, rfl⟩
  · simp only [Option.some.injEq] at h
    subst h
    exact ⟨rfl, rfl, rfl, rfl⟩

theorem fillBody_sameWindows {G : Type} (rnd : Nat → ℚ) (v : FillVars) (s : GeneticAlgorithm G)
    (r : FillVars × GeneticAlgorithm G) (h : fillBody rnd v s = some r) :
    s.sameWindows r.2 ∧ v.nextOrigin ≤ r.1.nextOrigin := by
  simp only [fillBody, Option.bind_eq_bind, Option.bind_eq_some] at h
  obtain ⟨sel, hsel, h⟩ := h
  have w0 := WeightedSelection_sameWindows rnd s sel hsel
  split at h
  · simp only [Option.some.injEq] at h
    subst h
    exact ⟨w0, Nat.le_refl _⟩
  · simp only [Option.bind_eq_bind, Option.bind_eq_some] at h
    obtain ⟨w, _, s1, h1, s2, h2, h⟩ := h
    have w1 := setSlot_sameWindows _ _ _ _ h1
    have w2 := maybeMutation_sameWindows rnd _ _ _ h2
    have w3 : s2.sameWindows (s2.RandomDouble rnd).2 := ⟨rfl, rfl, rfl, rfl⟩
    have wall := sameWindows_trans (sameWindows_trans (sameWindows_trans w0 w1) w2) w3
    split at h
    · split at h
      · simp only [Option.bind_eq_bind, Option.bind_eq_some, Option.some.injEq] at h
        obtain ⟨p1, _, p2, _, c1, _, c2, _, s4, h4, s5, h5, rfl⟩ := h
        have w4 := maybeMutation_sameWindows rnd _ _ _ h4
        have w5 := maybeMutation_sameWindows rnd _ _ _ h5
        exact ⟨sameWindows_trans (sameWindows_trans
          (sameWindows_trans wall ⟨rfl, rfl, rfl, rfl⟩) w4) w5, Nat.le_add_right _ _⟩
      · simp only [Option.some.injEq] at h
        subst h
        exact ⟨wall, Nat.le_add_right _ _⟩
    · simp only [Option.some.injEq] at h
      subst h
      exact ⟨wall, Nat.le_add_right _ _⟩

theorem fillLoop_sameWindows {G : Type} (rnd : Nat → ℚ) :
    ∀ (fuel : Nat) (v : FillVars) (s : GeneticAlgorithm G) (r : FillVars × GeneticAlgorithm G),
      fillLoop rnd fuel v s = some r → s.sameWindows r.2 ∧ v.nextOrigin ≤ r.1.nextOrigin := by
  intro fuel
  induction fuel with
  | zero =>
    intro v s r h
    simp only [fillLoop, Option.some.injEq] at h
    subst h
    exact ⟨sameWindows_refl s, Nat.le_refl _⟩
  | succ fuel ih =>
    intro v s r h
    simp only [fillLoop] at h
    split at h
    · simp only [Option.bind_eq_some] at h
      obtain ⟨r1, h1, h2⟩ := h
      have a := fillBody_sameWindows rnd v s r1 h1
      have b := ih r1.1 r1.2 r h2
      exact ⟨sameWindows_trans a.1 b.1, Nat.le_trans a.2 b.2⟩
    · simp only [Option.some.injEq] at h
      subst h
      exact ⟨sameWindows_refl s, Nat.le_refl _⟩

theorem execute_sameWindows {G : Type} (ops : Operators G) (s s' : GeneticAlgorithm G)
    (op : Operation) (h : execute ops s op = some s') : s.sameWindows s' := by
  cases op with
  | Mutation self =>
    simp only [execute, Option.bind_eq_bind, Option.bind_eq_some, Option.some.injEq] at h
    obtain ⟨o, _, c, _, rfl⟩ := h
    exact ⟨rfl, rfl, rfl, rfl⟩
  | Crossover self p c1 c2 =>
    simp only [execute, Option.bind_eq_bind, Option.bind_eq_some, Option.some.injEq] at h
    obtain ⟨o, _, c, _, po, _, pc, _, o1, _, k1, _, o2, _, k2, _, rfl⟩ := h
    exact ⟨rfl, rfl, rfl, rfl⟩

theorem runQueue_sameWindows {G : Type} (ops : Operators G) :
    ∀ (q : List Operation) (s s' : GeneticAlgorithm G), runQueue ops q s = some s' →
      s.sameWindows s' := by
  intro q
  induction q with
  | nil =>
    intro s s' h
    simp only [runQueue, Option.some.injEq] at h
    subst h
    exact sameWindows_refl s
  | cons op rest ih =>
    intro s s' h
    simp only [runQueue, Option.bind_eq_some] at h
    obtain ⟨s1, h1, h2⟩ := h
    have w2 : s1.sameWindows { s1 with OperationsQueue := rest } := ⟨rfl, rfl, rfl, rfl⟩
    exact sameWindows_trans (sameWindows_trans (execute_sameWindows ops s s1 op h1) w2)
      (ih _ s' h2)

theorem breedEnqueue_sameWindows {G : Type} (ops : Operators G) (rnd : Nat → ℚ)
    (s s' : GeneticAlgorithm G) (h : breedEnqueue ops rnd s = some s') : s.sameWindows s' := by
  simp only [breedEnqueue] at h
  split at h
  · exact Option.noConfusion h
  · simp only [Option.bind_eq_some, Option.map_eq_some', refreshPhase, elitePhase,
      fillPhase] at h
    obtain ⟨s2, ⟨s1, ⟨s0, h0, h1⟩, h2⟩, r, h3, rfl⟩ := h
    exact sameWindows_trans (sameWindows_trans (sameWindows_trans
      (refreshLoop_sameWindows ops _ _ _ _ h0) (sortRange_sameWindows _ _ _ h1))
      (eliteLoop_sameWindows _ _ _ _ _ _ h2)) (fillLoop_sameWindows rnd _ _ _ _ h3).1

theorem BreedPopulation_sameWindows {G : Type} (ops : Operators G) (rnd : Nat → ℚ)
    (s s' : GeneticAlgorithm G) (h : BreedPopulation ops rnd s = some s') : s.sameWindows s' := by
  simp only [BreedPopulation, Option.bind_eq_some, ProcessQueue] at h
  obtain ⟨s1, h1, h2⟩ := h
  exact sameWindows_trans (breedEnqueue_sameWindows ops rnd s s1 h1)
    (runQueue_sameWindows ops _ _ _ h2)

theorem breedTimes_sameWindows {G : Type} (ops : Operators G) (rnd : Nat → ℚ) :
    ∀ (N : Nat) (s s' : GeneticAlgorithm G), breedTimes ops rnd N s = some s' →
      s.sameWindows s' := by
  intro N
  induction N with
  | zero =>
    intro s s' h
    simp only [breedTimes, Option.some.injEq] at h
    subst h
    exact sameWindows_refl s
  | succ N ih =>
    intro s s' h
    simp only [breedTimes, Option.bind_eq_some] at h
    obtain ⟨s1, h1, h2⟩ := h
    exact sameWindows_trans (BreedPopulation_sameWindows ops rnd s s1 h1) (ih s1 s' h2)

theorem Simulate_sameWindows {G : Type} (ops : Operators G) (rnd : Nat → ℚ) (N : Nat)
    (s s' : GeneticAlgorithm G) (h : Simulate ops rnd N s = some s') : s.sameWindows s' := by
  simp only [Simulate, Option.bind_eq_some] at h
  obtain ⟨s1, h1, h2⟩ := h
  split at h2
  · exact Option.noConfusion h2
  · exact sameWindows_trans (breedTimes_sameWindows ops rnd N s s1 h1)
      (sortRange_sameWindows _ _ _ h2)

theorem initLoop_generation {G : Type} [Inhabited G] (Local : Nat → BasicLocalData G) :
    ∀ (n k : Nat) (s s' : GeneticAlgorithm G), initLoop Local n k s = some s' →
      s'.Generation = s.Generation := by
  intro n
  induction n with
  | zero =>
    intro k s s' h
    simp only [initLoop, Option.some.injEq] at h
    rw [h]
  | succ n ih =>
    intro k s s' h
    simp only [initLoop, Option.bind_eq_some] at h
    obtain ⟨s1, h1, h2⟩ := h
    rw [ih (k + 1) s1 s' h2]
    simp only [initSlot, Option.bind_eq_bind, Option.bind_eq_some] at h1
    obtain ⟨old, _, h1⟩ := h1
    cases old with
    | none =>
      simp only [Option.some_bind, Option.some.injEq] at h1
      rw [← h1]
    | some o =>
      by_cases hb : o ∈ s.Deleted ∨ s.Heap.length ≤ o
      · simp only [hb, if_true, Option.none_bind] at h1
        exact Option.noConfusion h1
      · simp only [hb, if_false, Option.some_bind, Option.some.injEq] at h1
        rw [← h1]

theorem engineOf_wellFormed (pop store elite : Nat) (mutationRate parentRate : ℚ)
    (objects : List (Chromosome ℚ)) (hs : store ≠ 0) (hl : objects.length = store * pop) :
    (engineOf pop store elite mutationRate parentRate objects).wellFormed := by
  refine ⟨hs, by simp [engineOf], ?_, ?_⟩
  · intro w hw
    simp only [engineOf, List.mem_map, List.mem_range] at hw
    obtain ⟨o, ho, rfl⟩ := hw
    exact ⟨o, rfl, by simp only [engineOf, hl]; exact ho⟩
  · intro op hop
    simp [engineOf] at hop

/-- C18: `BreedPopulation` and `Simulate` never write the generation counter.  Whenever
`BreedPopulation` returns, and whenever `Simulate(N)` returns, for every `N`, the counter,
the offset `origin` of the current window and the offset `nextOrigin` of the next window
have the values they had before, so `GetChromosomes` is the view of the same window; the
same holds for the state in which each breeding cycle of the run starts, so every cycle
reads from that window and writes into that next window.  On a well-formed engine with an
even `Elite` and `2 * Elite ≤ Population` the run `Simulate(N)` does return for every `N`.
On the engine left by `Initialize` the counter is 0 before and after the run, and the
current window is the first one. -/
theorem C18_generation_unchanged {G : Type} [Inhabited G] (ops : Operators G)
    (rnd : Nat → ℚ) (s : GeneticAlgorithm G) :
    (∀ s', BreedPopulation ops rnd s = some s' →
      s'.Generation = s.Generation ∧ s'.origin = s.origin ∧ s'.nextOrigin = s.nextOrigin) ∧
    (∀ N s', Simulate ops rnd N s = some s' →
      s'.Generation = s.Generation ∧ s'.origin = s.origin ∧ s'.nextOrigin = s.nextOrigin ∧
      s'.GetChromosomes = (s'.Chromosomes.drop s.origin).take s.Population) ∧
    (∀ m sm, breedTimes ops rnd m s = some sm →
      sm.Generation = s.Generation ∧ sm.origin = s.origin ∧ sm.nextOrigin = s.nextOrigin) ∧
    (s.wellFormed → s.SharedData.Elite % 2 = 0 → 2 * s.SharedData.Elite ≤ s.Population →
      ∀ N, ∃ s', Simulate ops rnd N s = some s' ∧ s'.Generation = s.Generation ∧
        s'.origin = s.origin ∧ s'.nextOrigin = s.nextOrigin) ∧
    (∀ (Local : Nat → BasicLocalData G) (s0 : GeneticAlgorithm G),
      InitializeWith Local s0 = some s →
      s.Generation = 0 ∧ s.origin = 0 ∧
      ∀ N s', Simulate ops rnd N s = some s' → s'.Generation = 0 ∧ s'.origin = 0) := by
  refine ⟨?_, ?_, ?_, ?_, ?_⟩
  · intro s' h
    have w := BreedPopulation_sameWindows ops rnd s s' h
    exact ⟨w.1, (sameWindows_origin w).1, (sameWindows_origin w).2⟩
  · intro N s' h
    have w := Simulate_sameWindows ops rnd N s s' h
    refine ⟨w.1, (sameWindows_origin w).1, (sameWindows_origin w).2, ?_⟩
    simp only [GetChromosomes, (sameWindows_origin w).1, w.2.1]
  · intro m sm h
    have w := breedTimes_sameWindows ops rnd m s sm h
    exact ⟨w.1, (sameWindows_origin w).1, (sameWindows_origin w).2⟩
  · intro hw hE hP N
    obtain ⟨s', h1, h2, _⟩ := Simulate_sorted_of_even ops rnd N s hw hE hP
    exact ⟨s', h1, h2.2.2.1, (origin_eq_of_evolves h2).1, (origin_eq_of_evolves h2).2⟩
  · intro Local s0 h
    have hg : s.Generation = 0 := initLoop_generation Local _ _ _ _ h
    have ho : s.origin = 0 := by simp only [origin, hg, Nat.zero_mod, Nat.zero_mul]
    refine ⟨hg, ho, ?_⟩
    intro N s' h'
    have w := Simulate_sameWindows ops rnd N s s' h'
    exact ⟨w.1.trans hg, (sameWindows_origin w).1.trans ho⟩

/-- C18 (witness): three breeding cycles of the engine with six individuals per window
and `Elite = 2`. -/
theorem C18_generation_unchanged_witness :
    eliteMutationEngine.SharedData.Elite % 2 = 0 ∧
    2 * eliteMutationEngine.SharedData.Elite ≤ eliteMutationEngine.Population ∧
    ∃ s', Simulate geneOps (fun _ => 1 / 2) 3 eliteMutationEngine = some s' ∧
      s'.Generation = eliteMutationEngine.Generation ∧
      s'.origin = eliteMutationEngine.origin ∧
      s'.nextOrigin = eliteMutationEngine.nextOrigin :=
  ⟨by decide, by decide,
    (C18_generation_unchanged geneOps (fun _ => 1 / 2) eliteMutationEngine).2.2.2.1
      (engineOf_wellFormed 6 2 2 1 0 _ (by decide) (by decide)) (by decide) (by decide) 3⟩

/-! ### The write cursor of the fill loop -/

theorem fillLoop_cursor {G : Type} (rnd : Nat → ℚ) (c0 : Nat) :
    ∀ (fuel : Nat) (v : FillVars) (s : GeneticAlgorithm G), s.wellFormed →
      c0 ≤ v.nextOrigin → v.nextOrigin ≤ c0 + v.i →
      c0 + (s.Population - 2 * s.SharedData.Elite) ≤ s.Chromosomes.length →
      (∀ p, v.parent = some p → p < s.Chromosomes.length) →
      ∃ r, fillLoop rnd fuel v s = some r ∧ s.evolves r.2 ∧
        c0 ≤ r.1.nextOrigin ∧ r.1.nextOrigin ≤ c0 + r.1.i := by
  intro fuel
  induction fuel with
  | zero => intro v s h h1 h2 _ _; exact ⟨(v, s), rfl, evolves_refl s h, h1, h2⟩
  | succ fuel ih =>
    intro v s h hlo hv hc0 hp
    by_cases hi : v.i < s.Population - 2 * s.SharedData.Elite
    · obtain ⟨r, h1, h2, h3, h4, h5⟩ := fillBody_evolves rnd v s h (by omega)
        (fun _ => by omega) hp
      have hmono := (fillBody_sameWindows rnd v s r h1).2
      have L := evolves_length h h2
      obtain ⟨r', g1, g2, g3, g4⟩ := ih r.1 r.2 h2.1 (by omega) (by omega)
        (by rw [L, h2.2.1, h2.2.2.2.2.1]; exact hc0) (by rw [L]; exact h5)
      exact ⟨r', by simp only [fillLoop, hi, if_true, h1, Option.some_bind]; exact g1,
        evolves_trans h2 g2, g3, g4⟩
    · exact ⟨(v, s), by simp only [fillLoop, hi, if_false], evolves_refl s h, hlo, hv⟩

/-- C20: in the fill loop of `BreedPopulation`, entered on a well-formed engine with
`2 * Elite ≤ Population` (any parity of `Elite`), for every random stream, hence every
outcome of the selections, and after any number of passes: the loop has not failed, and
at loop index `i` the write cursor lies between the next-window offsets `2E` and
`2E + i`.  Hence in a pass that runs (`i < P − 2E`) the winner slot lies inside the next
window at an offset from `2E` to `P − 1`, and in a pass that may enqueue a crossover
(`i + 2 < P − 2E`) so do the two child slots `cursor + 1` and `cursor + 2`; the next
window lies inside the slot array.  With the fuel `P − 2E` the loop is the fill phase. -/
theorem C20_cursor_in_window {G : Type} (rnd : Nat → ℚ) (s : GeneticAlgorithm G)
    (h : s.wellFormed) (hP : 2 * s.SharedData.Elite ≤ s.Population) (passes : Nat) :
    (∃ v s', fillLoop rnd passes
        { i := 0, nextOrigin := s.nextOrigin + 2 * s.SharedData.Elite, parent := none } s
        = some (v, s') ∧
      s'.Population = s.Population ∧ s'.SharedData = s.SharedData ∧
      s'.nextOrigin = s.nextOrigin ∧
      s.nextOrigin + 2 * s.SharedData.Elite ≤ v.nextOrigin ∧
      v.nextOrigin ≤ s.nextOrigin + 2 * s.SharedData.Elite + v.i ∧
      (v.i < s.Population - 2 * s.SharedData.Elite →
        v.nextOrigin < s.nextOrigin + s.Population) ∧
      (v.i + 2 < s.Population - 2 * s.SharedData.Elite →
        s.nextOrigin + 2 * s.SharedData.Elite ≤ v.nextOrigin + 1 ∧
        v.nextOrigin + 2 < s.nextOrigin + s.Population) ∧
      s.nextOrigin + s.Population ≤ s'.Chromosomes.length) ∧
    fillPhase rnd s = fillLoop rnd (s.Population - 2 * s.SharedData.Elite)
      { i := 0, nextOrigin := s.nextOrigin + 2 * s.SharedData.Elite, parent := none } s := by
  have hnle := nextOrigin_add_le s h.1 h.2.1
  obtain ⟨r, h1, h2, h3, h4⟩ := fillLoop_cursor rnd (s.nextOrigin + 2 * s.SharedData.Elite)
    passes { i := 0, nextOrigin := s.nextOrigin + 2 * s.SharedData.Elite, parent := none } s h
    (Nat.le_refl _) (Nat.le_refl _) (by omega) (fun p hp => Option.noConfusion hp)
  have L := evolves_length h h2
  refine ⟨⟨r.1, r.2, h1, h2.2.1, h2.2.2.2.2.1, (origin_eq_of_evolves h2).2, h3, h4, ?_, ?_, ?_⟩,
    rfl⟩
  · intro hi; omega
  · intro hi; omega
  · omega

/-- C20 (witness): two passes of the fill loop on the window of three individuals of which
two are flagged, so that selections return a winner. -/
theorem C20_cursor_in_window_witness :
    2 * flaggedEngine.SharedData.Elite ≤ flaggedEngine.Population ∧
    ∃ v s', fillLoop (fun _ => 1 / 2) 2
        { i := 0, nextOrigin := flaggedEngine.nextOrigin + 2 * flaggedEngine.SharedData.Elite,
          parent := none } flaggedEngine = some (v, s') ∧
      s'.Population = flaggedEngine.Population ∧ s'.SharedData = flaggedEngine.SharedData ∧
      s'.nextOrigin = flaggedEngine.nextOrigin ∧
      flaggedEngine.nextOrigin + 2 * flaggedEngine.SharedData.Elite ≤ v.nextOrigin ∧
      v.nextOrigin ≤ flaggedEngine.nextOrigin + 2 * flaggedEngine.SharedData.Elite + v.i ∧
      (v.i < flaggedEngine.Population - 2 * flaggedEngine.SharedData.Elite →
        v.nextOrigin < flaggedEngine.nextOrigin + flaggedEngine.Population) ∧
      (v.i + 2 < flaggedEngine.Population - 2 * flaggedEngine.SharedData.Elite →
        flaggedEngine.nextOrigin + 2 * flaggedEngine.SharedData.Elite ≤ v.nextOrigin + 1 ∧
        v.nextOrigin + 2 < flaggedEngine.nextOrigin + flaggedEngine.Population) ∧
      flaggedEngine.nextOrigin + flaggedEngine.Population ≤ s'.Chromosomes.length :=
  ⟨by decide,
    (C20_cursor_in_window (fun _ => 1 / 2) flaggedEngine
      (engineOf_wellFormed 3 2 0 0 0 _ (by decide) (by decide)) (by decide) 2).1⟩

/-! ### The drain of an engine with an odd elite count -/

/-- C15 (the code at the failing input): with `Population = 2` and `Elite = 1`, so that
`2 * Elite ≤ Population`, and an empty queue, the enqueueing part of a breeding cycle has no
defined result, whatever the random stream: the refresh phase returns, but the elitism loop
binds its crossover to slots beyond the array.  The cycle therefore has no drain that runs
the queue in order and leaves it empty. -/
theorem C15_cycle_undefined (rnd : Nat → ℚ) :
    2 * oddEliteEngine.SharedData.Elite ≤ oddEliteEngine.Population ∧
    oddEliteEngine.OperationsQueue = [] ∧
    (refreshPhase geneOps oddEliteEngine).isSome = true ∧
    (refreshPhase geneOps oddEliteEngine).bind elitePhase = none ∧
    breedEnqueue geneOps rnd oddEliteEngine = none ∧
    BreedPopulation geneOps rnd oddEliteEngine = none := by
  have h : (refreshPhase geneOps oddEliteEngine).bind elitePhase = none := by decide!
  have he : breedEnqueue geneOps rnd oddEliteEngine = none := by
    simp only [breedEnqueue, h, Option.none_bind, ite_self]
  refine ⟨by decide, by decide, by decide!, h, he, ?_⟩
  simp only [BreedPopulation, he, Option.none_bind]

/-! ### Slots that share an object -/

theorem deref_congr {G : Type} (s : GeneticAlgorithm G) (j k : Nat)
    (h : s.Chromosomes[j]? = s.Chromosomes[k]?) : s.deref j = s.deref k := by
  simp only [deref, h]

theorem maybeMutation_queue {G : Type} (rnd : Nat → ℚ) (s s' : GeneticAlgorithm G) (k : Nat)
    (h : maybeMutation rnd s k = some s') :
    s'.Chromosomes = s.Chromosomes ∧ s'.Heap = s.Heap ∧
    (∃ q, s'.OperationsQueue = s.OperationsQueue ++ q) ∧
    (rnd s.Draws < s.SharedData.MutationRate →
      ∃ m, s.Chromosomes[k]? = some m ∧
        s'.OperationsQueue = s.OperationsQueue ++ [Operation.Mutation m]) := by
  simp only [maybeMutation, RandomDouble] at h
  split at h
  · simp only [Option.map_eq_some'] at h
    obtain ⟨m, hm, rfl⟩ := h
    exact ⟨rfl, rfl, ⟨_, rfl⟩, fun _ => ⟨m, hm, rfl⟩⟩
  · rename_i hr
    simp only [Option.some.injEq] at h
    subst h
    exact ⟨rfl, rfl, ⟨[], by simp⟩, fun hlt => absurd hlt hr⟩

theorem fillBody_winner {G : Type} (rnd : Nat → ℚ) (v : FillVars) (s s0 : GeneticAlgorithm G)
    (chosen : Nat) (r : FillVars × GeneticAlgorithm G)
    (hsel : WeightedSelection rnd s = some (some chosen, s0))
    (h : fillBody rnd v s = some r) :
    ∃ w, s0.Chromosomes[chosen]? = some w ∧ v.nextOrigin < s0.Chromosomes.length ∧
      r.2.Chromosomes = s0.Chromosomes.set v.nextOrigin w ∧ r.2.Heap = s0.Heap ∧
      (rnd s0.Draws < s0.SharedData.MutationRate →
        ∃ q, r.2.OperationsQueue = s0.OperationsQueue ++ Operation.Mutation w :: q) := by
  simp only [fillBody, hsel, Option.bind_eq_bind, Option.some_bind, Option.bind_eq_some] at h
  obtain ⟨w, hw, s1, h1, s2, h2, h⟩ := h
  have hlt : v.nextOrigin < s0.Chromosomes.length := by
    by_contra hn
    simp [setSlot, hn] at h1
  rw [setSlot_of_lt s0 v.nextOrigin w hlt, Option.some.injEq] at h1
  subst h1
  obtain ⟨a1, a2, _, a4⟩ := maybeMutation_queue rnd _ s2 v.nextOrigin h2
  simp only at a1 a2 a4
  have hq2 : rnd s0.Draws < s0.SharedData.MutationRate →
      s2.OperationsQueue = s0.OperationsQueue ++ [Operation.Mutation w] := by
    intro hr
    obtain ⟨m, hm, e⟩ := a4 hr
    rw [List.getElem?_set_self hlt, Option.some.injEq] at hm
    rw [e, hm]
  refine ⟨w, hw, hlt, ?_⟩
  split at h
  · split at h
    · simp only [Option.bind_eq_bind, Option.bind_eq_some, Option.some.injEq] at h
      obtain ⟨p1, _, p2, _, c1, _, c2, _, s4, h4, s5, h5, rfl⟩ := h
      obtain ⟨b1, b2, ⟨q4, b3⟩, _⟩ := maybeMutation_queue rnd _ s4 _ h4
      obtain ⟨d1, d2, ⟨q5, d3⟩, _⟩ := maybeMutation_queue rnd _ s5 _ h5
      simp only [push, RandomDouble] at b1 b2 b3
      refine ⟨by rw [d1, b1, a1], by rw [d2, b2, a2], fun hr => ?_⟩
      refine ⟨Operation.Crossover p1 p2 c1 c2 :: (q4 ++ q5), ?_⟩
      rw [d3, b3, hq2 hr]
      simp
    · simp only [Option.some.injEq] at h
      subst h
      exact ⟨a1, a2, fun hr => ⟨[], by simp only [RandomDouble]; exact hq2 hr⟩⟩
  · simp only [Option.some.injEq] at h
    subst h
    exact ⟨a1, a2, fun hr => ⟨[], by simp only [RandomDouble]; exact hq2 hr⟩⟩

/-- C21: on a well-formed engine with at least two stored generations, an even `Elite` and
`2 * Elite ≤ Population`, a copy of an individual into a next-window slot copies the pointer,
so both slots refer to one object and no object is created.  (1) The elitism phase returns;
for each pass `i` the next-window slots `2i` and `2i + 1` and the current-window slots
`P − E + i` and `P − E + i + 1` they were copied from hold the same pointers afterwards, and
the individuals of these current-window slots have `Elite = true`.  (2) A pass of the fill
loop whose selection returns the slot `chosen`, with the cursor inside the next window,
returns; afterwards the winner slot at the cursor and the current-window slot `chosen` hold
the same pointer, the object store has its size, and when the draw is below `MutationRate`
the queue has received a mutation bound to that pointer.  (3) Running a mutation bound to
the pointer of a slot `t` replaces the object by its mutated value, and every slot `k` that
holds the same pointer, such as the current-window slot the winner was copied from, refers
to the mutated object. -/
theorem C21_shared_instance {G : Type} (ops : Operators G) (rnd : Nat → ℚ)
    (s : GeneticAlgorithm G) (hw : s.wellFormed) (hSG : 2 ≤ s.StoredGenerations)
    (hE : s.SharedData.Elite % 2 = 0) (hP : 2 * s.SharedData.Elite ≤ s.Population) :
    (∃ s', elitePhase s = some s' ∧ s'.Heap.length = s.Heap.length ∧
      ∀ i, i < s.SharedData.Elite → i % 2 = 0 →
        ∃ o1 o2,
          s.Chromosomes[s.origin + s.Population - s.SharedData.Elite + i]? = some (some o1) ∧
          s'.Chromosomes[s.origin + s.Population - s.SharedData.Elite + i]? = some (some o1) ∧
          s'.Chromosomes[s.nextOrigin + 2 * i]? = some (some o1) ∧
          s.Chromosomes[s.origin + s.Population - s.SharedData.Elite + i + 1]?
            = some (some o2) ∧
          s'.Chromosomes[s.origin + s.Population - s.SharedData.Elite + i + 1]?
            = some (some o2) ∧
          s'.Chromosomes[s.nextOrigin + 2 * i + 1]? = some (some o2) ∧
          s'.eliteAt (s.origin + s.Population - s.SharedData.Elite + i) ∧
          s'.eliteAt (s.origin + s.Population - s.SharedData.Elite + i + 1)) ∧
    (∀ (v : FillVars) (chosen : Nat) (s0 : GeneticAlgorithm G),
      WeightedSelection rnd s = some (some chosen, s0) →
      s.nextOrigin ≤ v.nextOrigin → v.nextOrigin < s.nextOrigin + s.Population →
      (v.i + 2 < s.Population - 2 * s.SharedData.Elite →
        v.nextOrigin + 2 < s.nextOrigin + s.Population) →
      (∀ p, v.parent = some p → p < s.Chromosomes.length) →
      ∃ r o, fillBody rnd v s = some r ∧
        s.origin ≤ chosen ∧ chosen < s.origin + s.Population ∧
        s.Chromosomes[chosen]? = some (some o) ∧
        r.2.Chromosomes[chosen]? = some (some o) ∧
        r.2.Chromosomes[v.nextOrigin]? = some (some o) ∧
        r.2.Heap.length = s.Heap.length ∧
        (rnd s0.Draws < s0.SharedData.MutationRate →
          ∃ q, r.2.OperationsQueue = s.OperationsQueue ++ Operation.Mutation (some o) :: q)) ∧
    (∀ (s2 : GeneticAlgorithm G) (t k o : Nat) (c : Chromosome G),
      s2.Chromosomes[t]? = some (some o) → s2.Chromosomes[k]? = some (some o) →
      s2.Heap[o]? = some c →
      ∃ s3, execute ops s2 (Operation.Mutation (some o)) = some s3 ∧
        s3.deref t = some (o, ops.Mutation c) ∧ s3.deref k = some (o, ops.Mutation c)) := by
  have hSG0 : s.StoredGenerations ≠ 0 := by omega
  have hle := origin_add_le s hSG0 hw.2.1
  have hnle := nextOrigin_add_le s hSG0 hw.2.1
  have hdis := windows_disjoint s hSG
  refine ⟨?_, ?_, ?_⟩
  · obtain ⟨s', h1, h2, h3, h4, _⟩ := eliteLoop_spec (s.origin + s.Population) s.nextOrigin
      s.SharedData.Elite hE (by omega) (by omega) s.SharedData.Elite 0 s rfl rfl (by omega) hle
      (by omega)
      (fun k _ hk2 => wellFormed_slot s hw k (by omega))
    refine ⟨s', h1, h4.1, fun i hi1 hi2 => ?_⟩
    obtain ⟨a1, a2, a3, a4⟩ := h2 i (Nat.zero_le i) hi1 hi2
    obtain ⟨o1, b1, _⟩ := wellFormed_slot s hw
      (s.origin + s.Population - s.SharedData.Elite + i) (by omega)
    obtain ⟨o2, b2, _⟩ := wellFormed_slot s hw
      (s.origin + s.Population - s.SharedData.Elite + i + 1) (by omega)
    have f1 : s'.Chromosomes[s.origin + s.Population - s.SharedData.Elite + i]?
        = s.Chromosomes[s.origin + s.Population - s.SharedData.Elite + i]? :=
      h3 _ (by omega)
    have f2 : s'.Chromosomes[s.origin + s.Population - s.SharedData.Elite + i + 1]?
        = s.Chromosomes[s.origin + s.Population - s.SharedData.Elite + i + 1]? :=
      h3 _ (by omega)
    refine ⟨o1, o2, b1, f1.trans b1, a1.trans b1, b2, f2.trans b2, a2.trans b2, ?_, ?_⟩
    · obtain ⟨oc, hoc, he⟩ := a3
      exact ⟨oc, (deref_congr s' _ _ (f1.trans a1.symm)).trans hoc, he⟩
    · obtain ⟨oc, hoc, he⟩ := a4
      exact ⟨oc, (deref_congr s' _ _ (f2.trans a2.symm)).trans hoc, he⟩
  · intro v chosen s0 hsel hc1 hc2 hc3 hp
    obtain ⟨r, hr, _, _, _, _⟩ := fillBody_evolves rnd v s hw (by omega)
      (fun h => by have := hc3 h; omega) hp
    obtain ⟨r0, hr0, e0, e1, e2, _⟩ := WeightedSelection_evolves rnd s hw
    rw [hsel, Option.some.injEq] at hr0
    subst hr0
    simp only at e0 e1 e2
    obtain ⟨i, hi1, hi2, hi3⟩ := WeightedSelection_index rnd s s0 chosen hsel
    obtain ⟨o, ho, _⟩ := wellFormed_slot s hw chosen (by omega)
    obtain ⟨w, g1, g2, g3, g4, g5⟩ := fillBody_winner rnd v s s0 chosen r hsel hr
    rw [e1, ho, Option.some.injEq] at g1
    subst g1
    rw [e1] at g2 g3
    refine ⟨r, o, hr, by omega, by omega, ho, ?_, ?_, ?_, ?_⟩
    · rw [g3, List.getElem?_set_ne (by omega)]
      exact ho
    · rw [g3, List.getElem?_set_self g2]
    · rw [g4]
      exact e0.2.2.2.2.2
    · intro hlt
      obtain ⟨q, hq⟩ := g5 hlt
      exact ⟨q, by rw [hq, e2]⟩
  · intro s2 t k o c ht hk hc
    have hlt : o < s2.Heap.length := (List.getElem?_eq_some.mp hc).1
    refine ⟨s2.setObject o (ops.Mutation c), ?_, ?_, ?_⟩
    · simp only [execute, Option.bind_eq_bind, Option.some_bind, hc]
    · simp only [deref, setObject, ht, Option.bind_eq_bind, Option.some_bind,
        List.getElem?_set_self hlt]
    · simp only [deref, setObject, hk, Option.bind_eq_bind, Option.some_bind,
        List.getElem?_set_self hlt]

/-- C21 (witness): the engine with six individuals per window, `Elite = 2` and
`MutationRate = 1`.  The elitism phase makes the next-window slots 0 and 1 share the objects
of the current-window slots 4 and 5; after a whole cycle in which every draw is 9/10 the
current-window slot 4 and the next-window slots 0 and 4 (array slots 6 and 10) hold object
5, of which there is one instance among the twelve objects: its `Elite` flag is set and its
gene 5 has become 7 through the mutations bound to the winner slots. -/
theorem C21_shared_instance_witness :
    2 ≤ eliteMutationEngine.StoredGenerations ∧
    eliteMutationEngine.SharedData.Elite % 2 = 0 ∧
    2 * eliteMutationEngine.SharedData.Elite ≤ eliteMutationEngine.Population ∧
    (∃ s', elitePhase eliteMutationEngine = some s' ∧
      s'.Heap.length = eliteMutationEngine.Heap.length ∧
      ∀ i, i < eliteMutationEngine.SharedData.Elite → i % 2 = 0 →
        ∃ o1 o2,
          eliteMutationEngine.Chromosomes[eliteMutationEngine.origin
            + eliteMutationEngine.Population - eliteMutationEngine.SharedData.Elite + i]?
            = some (some o1) ∧
          s'.Chromosomes[eliteMutationEngine.origin
            + eliteMutationEngine.Population - eliteMutationEngine.SharedData.Elite + i]?
            = some (some o1) ∧
          s'.Chromosomes[eliteMutationEngine.nextOrigin + 2 * i]? = some (some o1) ∧
          eliteMutationEngine.Chromosomes[eliteMutationEngine.origin
            + eliteMutationEngine.Population - eliteMutationEngine.SharedData.Elite + i + 1]?
            = some (some o2) ∧
          s'.Chromosomes[eliteMutationEngine.origin
            + eliteMutationEngine.Population - eliteMutationEngine.SharedData.Elite + i + 1]?
            = some (some o2) ∧
          s'.Chromosomes[eliteMutationEngine.nextOrigin + 2 * i + 1]? = some (some o2) ∧
          s'.eliteAt (eliteMutationEngine.origin
            + eliteMutationEngine.Population - eliteMutationEngine.SharedData.Elite + i) ∧
          s'.eliteAt (eliteMutationEngine.origin
            + eliteMutationEngine.Population - eliteMutationEngine.SharedData.Elite + i + 1)) ∧
    eliteMutationEngine.localDataOf (some 5)
      = some { Chosen := false, Elite := false, gene := 5 } ∧
    (BreedPopulation geneOps (fun _ => 9 / 10) eliteMutationEngine).map
      (fun s => (s.Chromosomes[4]?, s.Chromosomes[6]?, s.Chromosomes[10]?, s.Heap.length))
      = some (some (some 5), some (some 5), some (some 5), 12) ∧
    (BreedPopulation geneOps (fun _ => 9 / 10) eliteMutationEngine).map
      (fun s => (s.deref 4).map fun oc => oc.2.LocalData)
      = some (some { Chosen := true, Elite := true, gene := 7 }) :=
  ⟨by decide, by decide, by decide,
    (C21_shared_instance geneOps (fun _ => 9 / 10) eliteMutationEngine
      (engineOf_wellFormed 6 2 2 1 0 _ (by decide) (by decide)) (by decide) (by decide)
      (by decide)).1,
    by decide!, by decide!, by decide!⟩

/-! ### The objects the elitism phase leaves alone -/

theorem setSlot_eq {G : Type} (s s' : GeneticAlgorithm G) (k : Nat) (w : Option Nat)
    (h : s.setSlot k w = some s') :
    k < s.Chromosomes.length ∧ s' = { s with Chromosomes := s.Chromosomes.set k w } := by
  simp only [setSlot] at h
  split at h
  · rename_i hk
    simp only [Option.some.injEq] at h
    exact ⟨hk, h.symm⟩
  · exact Option.noConfusion h

theorem setElite_eq {G : Type} (s s' : GeneticAlgorithm G) (k : Nat)
    (h : s.setElite k = some s') :
    ∃ o c, s.Chromosomes[k]? = some (some o) ∧ s.Heap[o]? = some c ∧
      s' = { s with
        Heap := s.Heap.set o { c with LocalData := { c.LocalData with Elite := true } } } := by
  simp only [setElite, deref, Option.bind_eq_bind, Option.bind_eq_some, Option.some.injEq] at h
  obtain ⟨oc, ⟨w, hw, o, ho, c, hc, rfl⟩, rfl⟩ := h
  subst ho
  exact ⟨o, c, hw, hc, rfl⟩

theorem eliteBody_untouched {G : Type} (f n i : Nat) (s s' : GeneticAlgorithm G)
    (h : eliteBody f n i s = some s')
    (hne : f - s.SharedData.Elite + i + 1 ≠ n + 2 * i) :
    ∃ o1 o2, s.Chromosomes[f - s.SharedData.Elite + i]? = some (some o1) ∧
      s.Chromosomes[f - s.SharedData.Elite + i + 1]? = some (some o2) ∧
      s'.Chromosomes
        = (s.Chromosomes.set (n + 2 * i) (some o1)).set (n + 2 * i + 1) (some o2) ∧
      ∀ o, o ≠ o1 → o ≠ o2 → s'.Heap[o]? = s.Heap[o]? := by
  simp only [eliteBody, eliteIndices, Option.bind_eq_bind, Option.bind_eq_some,
    Option.some.injEq] at h
  obtain ⟨a, ha, s1, h1, b, hb, s2, h2, s3, h3, s4, h4, p1, _, p2, _, c1, _, c2, _, rfl⟩ := h
  obtain ⟨k1, rfl⟩ := setSlot_eq _ _ _ _ h1
  obtain ⟨k2, rfl⟩ := setSlot_eq _ _ _ _ h2
  simp only [List.length_set] at k2
  rw [List.getElem?_set_ne (Ne.symm hne)] at hb
  obtain ⟨o1, d1, e1, _, rfl⟩ := setElite_eq _ _ _ h3
  obtain ⟨o2, d2, e2, _, rfl⟩ := setElite_eq _ _ _ h4
  simp only at e1 e2
  rw [List.getElem?_set_ne (by omega), List.getElem?_set_self k1, Option.some.injEq] at e1
  rw [List.getElem?_set_self (by simp only [List.length_set]; exact k2),
    Option.some.injEq] at e2
  subst e1 e2
  refine ⟨o1, o2, ha, hb, rfl, fun o ho1 ho2 => ?_⟩
  simp only [push]
  rw [List.getElem?_set_ne (Ne.symm ho2), List.getElem?_set_ne (Ne.symm ho1)]

theorem eliteLoop_untouched {G : Type} (f n E : Nat) (hE : E % 2 = 0) (hEf : E ≤ f)
    (hdis : n + 2 * E ≤ f - E ∨ f ≤ n) :
    ∀ (fuel i : Nat) (s s' : GeneticAlgorithm G), s.SharedData.Elite = E → i % 2 = 0 →
      eliteLoop f n fuel i s = some s' →
      ∀ o, (∀ k, f - E + i ≤ k → k < f → s.Chromosomes[k]? ≠ some (some o)) →
        s'.Heap[o]? = s.Heap[o]? := by
  intro fuel
  induction fuel with
  | zero =>
    intro i s s' _ _ h o _
    simp only [eliteLoop, Option.some.injEq] at h
    rw [h]
  | succ fuel ih =>
    intro i s s' hEs hi h o ho
    simp only [eliteLoop, hEs] at h
    by_cases hiE : i < E
    · simp only [hiE, if_true, Option.bind_eq_some] at h
      obtain ⟨s1, h1, h2⟩ := h
      obtain ⟨o1, o2, a1, a2, a3, a4⟩ := eliteBody_untouched f n i s s1 h1
        (by rw [hEs]; omega)
      rw [hEs] at a1 a2
      have hE1 : s1.SharedData.Elite = E :=
        (eliteBody_sameWindows f n i s s1 h1).2.2.2 ▸ hEs
      have hn1 : o ≠ o1 := by
        intro he
        exact ho (f - E + i) (Nat.le_refl _) (by omega) (by rw [a1, he])
      have hn2 : o ≠ o2 := by
        intro he
        exact ho (f - E + i + 1) (by omega) (by omega) (by rw [a2, he])
      rw [← a4 o hn1 hn2]
      apply ih (i + 2) s1 s' hE1 (by omega) h2 o
      intro k hk1 hk2
      rw [a3, List.getElem?_set_ne (by omega), List.getElem?_set_ne (by omega)]
      exact ho k (by omega) hk2
    · simp only [hiE, if_false, Option.some.injEq] at h
      rw [h]

theorem promoted_eq_of_elite {G : Type} (c c' : Chromosome G) (h : c.promoted c')
    (he : c'.LocalData.Elite = true) :
    c' = { c with LocalData := { c.LocalData with Elite := true } } := by
  obtain ⟨sd, ⟨ch, el, g⟩, fv⟩ := c
  obtain ⟨sd', ⟨ch', el', g'⟩, fv'⟩ := c'
  obtain ⟨h1, h2, h3, h4, _⟩ := h
  simp only at h1 h2 h3 h4 he
  subst h1 h2 h3 h4 he
  rfl

/-- C3 (amended): in the elitism phase, for an even `Elite = E` with `2E ≤ P`, at least two
stored generations and a current window of live objects (sorted or not), the phase returns,
and the pair copied in the pass `i = 0, 2, 4, … < E` is the pair of the individuals at the
positions `P − E + i` and `P − E + i + 1` of the current window: the top `E` individuals of
a sorted window are promoted in ascending order, the first pair from the positions `P − E`
and `P − E + 1`.  The pair is placed at the next-window positions `2i` and `2i + 1`, both
marked `Elite`, and the phase changes no other data of any object: an object that none of
the top `E` positions of the current window refers to is left exactly as it was, an object
that one of them refers to is what it was with the `Elite` flag set, and no slot before the
next window or from its position `2E` on is written. -/
theorem C3_elite_pairs {G : Type} (s : GeneticAlgorithm G) (hSG : 2 ≤ s.StoredGenerations)
    (hlen : s.Chromosomes.length = s.StoredGenerations * s.Population)
    (hE : s.SharedData.Elite % 2 = 0) (hP : 2 * s.SharedData.Elite ≤ s.Population)
    (hvalid : ∀ w ∈ s.GetChromosomes, validSlot s.Heap w = true) :
    ∃ s', elitePhase s = some s' ∧
      (∀ i, i < s.SharedData.Elite → i % 2 = 0 →
        s'.Chromosomes[s.nextOrigin + 2 * i]?
          = s.Chromosomes[s.origin + s.Population - s.SharedData.Elite + i]? ∧
        s'.Chromosomes[s.nextOrigin + 2 * i + 1]?
          = s.Chromosomes[s.origin + s.Population - s.SharedData.Elite + i + 1]? ∧
        s'.eliteAt (s.nextOrigin + 2 * i) ∧ s'.eliteAt (s.nextOrigin + 2 * i + 1)) ∧
      heapPromoted s.Heap s'.Heap ∧
      (∀ o, (∀ k, s.origin + s.Population - s.SharedData.Elite ≤ k →
          k < s.origin + s.Population → s.Chromosomes[k]? ≠ some (some o)) →
        s'.Heap[o]? = s.Heap[o]?) ∧
      (∀ k o c, s.origin + s.Population - s.SharedData.Elite ≤ k →
        k < s.origin + s.Population → s.Chromosomes[k]? = some (some o) →
        s.Heap[o]? = some c →
        s'.Heap[o]? = some { c with LocalData := { c.LocalData with Elite := true } }) ∧
      (∀ k, k < s.nextOrigin ∨ s.nextOrigin + 2 * s.SharedData.Elite ≤ k →
        s'.Chromosomes[k]? = s.Chromosomes[k]?) := by
  have hSG0 : s.StoredGenerations ≠ 0 := by omega
  have hle := origin_add_le s hSG0 hlen
  have hnle := nextOrigin_add_le s hSG0 hlen
  have hdis := windows_disjoint s hSG
  obtain ⟨s', h1, h2, h3, h4, _⟩ := eliteLoop_spec (s.origin + s.Population) s.nextOrigin
    s.SharedData.Elite hE (by omega) (by omega) s.SharedData.Elite 0 s rfl rfl (by omega) hle
    (by omega)
    (fun k hk1 hk2 => window_slot_valid s hle hvalid k (by omega) hk2)
  have key : ∀ (t k o : Nat) (c : Chromosome G),
      s'.Chromosomes[t]? = s.Chromosomes[k]? → s'.eliteAt t →
      s.Chromosomes[k]? = some (some o) → s.Heap[o]? = some c →
      s'.Heap[o]? = some { c with LocalData := { c.LocalData with Elite := true } } := by
    intro t k o c ht he hk hc
    obtain ⟨oc, hoc, hel⟩ := he
    simp only [deref, ht, hk, Option.bind_eq_bind, Option.some_bind, Option.bind_eq_some,
      Option.some.injEq] at hoc
    obtain ⟨c', hc', rfl⟩ := hoc
    obtain ⟨c'', hc'', hp⟩ := h4.2 o c hc
    rw [hc', Option.some.injEq] at hc''
    subst hc''
    rw [hc', promoted_eq_of_elite c c' hp hel]
  refine ⟨s', h1, fun i hi1 hi2 => h2 i (Nat.zero_le i) hi1 hi2, h4, ?_, ?_, ?_⟩
  · intro o ho
    exact eliteLoop_untouched (s.origin + s.Population) s.nextOrigin s.SharedData.Elite hE
      (by omega) (by omega) s.SharedData.Elite 0 s s' rfl rfl h1 o
      (fun k hk1 hk2 => ho k (by omega) hk2)
  · intro k o c hk1 hk2 hk hc
    have hj : k - (s.origin + s.Population - s.SharedData.Elite) < s.SharedData.Elite := by
      omega
    obtain ⟨a1, a2, a3, a4⟩ := h2
      (k - (s.origin + s.Population - s.SharedData.Elite)
        - (k - (s.origin + s.Population - s.SharedData.Elite)) % 2)
      (Nat.zero_le _) (by omega) (by omega)
    by_cases hpar : (k - (s.origin + s.Population - s.SharedData.Elite)) % 2 = 0
    · have hk' : s.origin + s.Population - s.SharedData.Elite
          + (k - (s.origin + s.Population - s.SharedData.Elite)
            - (k - (s.origin + s.Population - s.SharedData.Elite)) % 2) = k := by omega
      rw [hk'] at a1
      exact key _ k o c a1 a3 hk hc
    · have hk' : s.origin + s.Population - s.SharedData.Elite
          + (k - (s.origin + s.Population - s.SharedData.Elite)
            - (k - (s.origin + s.Population - s.SharedData.Elite)) % 2) + 1 = k := by omega
      rw [hk'] at a2
      exact key _ k o c a2 a4 hk hc
  · intro k hk
    exact h3 k (by omega)

/-- C3 (witness): the engine with eight individuals per window and `Elite = 4`. -/
theorem C3_elite_pairs_witness :
    2 ≤ fourEliteEngine.StoredGenerations ∧
    fourEliteEngine.SharedData.Elite % 2 = 0 ∧
    2 * fourEliteEngine.SharedData.Elite ≤ fourEliteEngine.Population ∧
    ∃ s', elitePhase fourEliteEngine = some s' ∧
      (∀ i, i < fourEliteEngine.SharedData.Elite → i % 2 = 0 →
        s'.Chromosomes[fourEliteEngine.nextOrigin + 2 * i]?
          = fourEliteEngine.Chromosomes[fourEliteEngine.origin + fourEliteEngine.Population
              - fourEliteEngine.SharedData.Elite + i]? ∧
        s'.Chromosomes[fourEliteEngine.nextOrigin + 2 * i + 1]?
          = fourEliteEngine.Chromosomes[fourEliteEngine.origin + fourEliteEngine.Population
              - fourEliteEngine.SharedData.Elite + i + 1]? ∧
        s'.eliteAt (fourEliteEngine.nextOrigin + 2 * i) ∧
        s'.eliteAt (fourEliteEngine.nextOrigin + 2 * i + 1)) ∧
      heapPromoted fourEliteEngine.Heap s'.Heap ∧
      (∀ o, (∀ k, fourEliteEngine.origin + fourEliteEngine.Population
            - fourEliteEngine.SharedData.Elite ≤ k →
          k < fourEliteEngine.origin + fourEliteEngine.Population →
          fourEliteEngine.Chromosomes[k]? ≠ some (some o)) →
        s'.Heap[o]? = fourEliteEngine.Heap[o]?) ∧
      (∀ k o c, fourEliteEngine.origin + fourEliteEngine.Population
          - fourEliteEngine.SharedData.Elite ≤ k →
        k < fourEliteEngine.origin + fourEliteEngine.Population →
        fourEliteEngine.Chromosomes[k]? = some (some o) →
        fourEliteEngine.Heap[o]? = some c →
        s'.Heap[o]? = some { c with LocalData := { c.LocalData with Elite := true } }) ∧
      (∀ k, k < fourEliteEngine.nextOrigin
          ∨ fourEliteEngine.nextOrigin + 2 * fourEliteEngine.SharedData.Elite ≤ k →
        s'.Chromosomes[k]? = fourEliteEngine.Chromosomes[k]?) :=
  ⟨by decide, by decide, by decide,
    C3_elite_pairs fourEliteEngine (by decide) (by decide) (by decide) (by decide) (by decide!)⟩

end GenericGA
